import Mathlib

/-!
# Archive of Observers: camera sync, roll overlay queue and player HUD

A shallow embedding of `scripts/camera.js`, `scripts/queue.js`,
`scripts/rolls.js`, `scripts/playerHud.js` and `scripts/conditions.js` of the
`archive-of-observers` add-on, with the properties of the GM broadcaster, the
observer-side follower, the late-joiner handshake, the socketlib bootstrap, the
roll overlay queue, the chat message hooks and the player HUD.

JavaScript values are embedded as a small value type; host state that the code
only reads (the `canvas` global, settings, the clock) is an explicit argument;
effects (socket calls, `canvas.animatePan`, timers, DOM writes) are returned as
data.
-/

namespace ArchiveOfObservers

/-! ## JavaScript values -/

/-- A JavaScript number. The embedded code never does arithmetic on pose
coordinates: it tests `typeof v === "number"`, truthiness and `===`, and copies
the value. Finite numbers are carried as rationals; `NaN` and the infinities are
kept apart because `typeof NaN === "number"` while `NaN` is falsy and
`NaN !== NaN`. -/
inductive JSNum where
  | nan
  | inf (negative : Bool)
  | fin (q : ℚ)
  deriving DecidableEq

/-- A JavaScript value. An object is its list of own properties; the first
binding of a key is the one a property read returns. A function or an array is
an object here: for every test the embedded code makes (truthiness, `typeof`
against `"number"`, nullishness, `===` with another source's value) it behaves
as one. -/
inductive JSVal where
  | undefined
  | null
  | bool (b : Bool)
  | number (n : JSNum)
  | string (s : String)
  | object (props : List (String × JSVal))

namespace JSVal

/-- The number literal `n`. -/
def int (n : Int) : JSVal := number (JSNum.fin n)

/-- JavaScript truthiness (`!!v`). -/
def truthy : JSVal → Bool
  | undefined => false
  | null => false
  | bool b => b
  | number JSNum.nan => false
  | number (JSNum.inf _) => true
  | number (JSNum.fin q) => q != 0
  | string s => s != ""
  | object _ => true

/-- The test `v === null || v === undefined`, as `??` and `?.` use it. -/
def isNullish : JSVal → Bool
  | undefined => true
  | null => true
  | _ => false

/-- The test `typeof v === "number"`. -/
def isNumber : JSVal → Bool
  | number _ => true
  | _ => false

/-- A property read that cannot throw: on an object the first binding of `k`,
else `undefined`. It is the optional read `v?.k`, which yields `undefined` on
`null` and `undefined`, and the value of a plain read `v.k` of a `v` that is
neither. None of the property names the code reads (`x`, `y`, `scale`,
`sceneId`, `ready`, ...) exists on a primitive. -/
def prop (v : JSVal) (k : String) : JSVal :=
  match v with
  | object props => (props.lookup k).getD undefined
  | _ => undefined

/-- The nullish coalescing operator `a ?? b` on two values. -/
def orElse (a b : JSVal) : JSVal :=
  if a.isNullish then b else a

/-- Strict equality `a === b`. Two objects are equal only when they are the same
reference; the objects compared here come from different sources (a message off
the wire and the local canvas), so they are never the same reference. -/
def strictEq : JSVal → JSVal → Bool
  | undefined, undefined => true
  | null, null => true
  | bool a, bool b => a == b
  | number (JSNum.fin a), number (JSNum.fin b) => a == b
  | number (JSNum.inf a), number (JSNum.inf b) => a == b
  | string a, string b => a == b
  | _, _ => false

end JSVal

/-- The errors the embedded code can raise: the `TypeError` of a property read
on `null` or `undefined`. -/
inductive JSError where
  | typeError
  deriving DecidableEq

/-- A plain property read `v.k`: it throws a `TypeError` when `v` is `null` or
`undefined`. -/
def JSVal.readProp (v : JSVal) (k : String) : Except JSError JSVal :=
  if v.isNullish then Except.error JSError.typeError else Except.ok (v.prop k)

open JSVal

/-! ## Viewport snapshots (`camera.js`) -/

/-- The object `{ sceneId, x, y, scale }` built by `_getViewSnapshot`. -/
structure Snapshot where
  sceneId : JSVal
  x : JSVal
  y : JSVal
  scale : JSVal

/-- The snapshot as the message value a peer receives. -/
def Snapshot.toJSVal (s : Snapshot) : JSVal :=
  object [("sceneId", s.sceneId), ("x", s.x), ("y", s.y), ("scale", s.scale)]

/-- Lines 118 to 121 of `_getViewSnapshot`, the preferred source: the scene's
internal view position. `some` is the snapshot the `if` returns, `none` means
that its condition failed and the function goes on. -/
def viewPositionSnapshot (canvas sceneId : JSVal) : Except JSError (Option Snapshot) := do
  let vp := (canvas.prop "scene").prop "_viewPosition"
  if !vp.truthy then return none
  if !(← vp.readProp "x").isNumber then return none
  if !(← vp.readProp "y").isNumber then return none
  let x ← vp.readProp "x"
  let y ← vp.readProp "y"
  let s ← vp.readProp "scale"
  if s.isNullish then
    let z ← canvas.readProp "zoom"
    return some { sceneId := sceneId, x := x, y := y, scale := z.orElse (int 1) }
  else
    return some { sceneId := sceneId, x := x, y := y, scale := s }

/-- Lines 124 to 128 of `_getViewSnapshot`, the fallback: camera center and
zoom. -/
def cameraCenterSnapshot (canvas sceneId : JSVal) : Except JSError (Option Snapshot) := do
  let center := (canvas.prop "camera").prop "center"
  let zoom := ((canvas.prop "zoom").orElse (((canvas.prop "stage").prop "scale").prop "x")).orElse
    (int 1)
  if !center.truthy then return none
  if !(← center.readProp "x").isNumber then return none
  if !(← center.readProp "y").isNumber then return none
  let x ← center.readProp "x"
  let y ← center.readProp "y"
  return some { sceneId := sceneId, x := x, y := y, scale := zoom }

/-- Lines 131 to 134 of `_getViewSnapshot`, the last resort: the stage
transform. Only `st.pivot.x` is tested for being a number. -/
def stageTransformSnapshot (canvas sceneId : JSVal) : Except JSError (Option Snapshot) := do
  let st := canvas.prop "stage"
  if !(st.prop "pivot").truthy then return none
  if !(← (← st.readProp "pivot").readProp "x").isNumber then return none
  let x ← (← st.readProp "pivot").readProp "x"
  let y ← (← st.readProp "pivot").readProp "y"
  let scale := ((← st.readProp "scale").prop "x").orElse (int 1)
  return some { sceneId := sceneId, x := x, y := y, scale := scale }

/-- `_getViewSnapshot()`: the argument is the value of the `canvas` global; the
result `none` is the `null` the function returns. -/
def _getViewSnapshot (canvas : JSVal) : Except JSError (Option Snapshot) := do
  if !canvas.truthy then return none
  if !(← canvas.readProp "ready").truthy then return none
  let sceneId := ((canvas.prop "scene").prop "id").orElse null
  if let some snap ← viewPositionSnapshot canvas sceneId then return some snap
  if let some snap ← cameraCenterSnapshot canvas sceneId then return some snap
  if let some snap ← stageTransformSnapshot canvas sceneId then return some snap
  return none

/-! ### The sources of a snapshot, as the specification words them -/

/-- Source (1): `scene._viewPosition`, when its `x` and `y` are numbers; the
scale is `vp.scale ?? canvas.zoom ?? 1`. -/
def sourceViewPosition (canvas : JSVal) : Option Snapshot :=
  let vp := (canvas.prop "scene").prop "_viewPosition"
  if vp.truthy && (vp.prop "x").isNumber && (vp.prop "y").isNumber then
    some { sceneId := ((canvas.prop "scene").prop "id").orElse null,
           x := vp.prop "x", y := vp.prop "y",
           scale := ((vp.prop "scale").orElse (canvas.prop "zoom")).orElse (int 1) }
  else none

/-- Source (2): `camera.center` with the zoom, when the center's `x` and `y` are
numbers; the zoom is `canvas.zoom ?? stage.scale.x ?? 1`. -/
def sourceCameraCenter (canvas : JSVal) : Option Snapshot :=
  let center := (canvas.prop "camera").prop "center"
  if center.truthy && (center.prop "x").isNumber && (center.prop "y").isNumber then
    some { sceneId := ((canvas.prop "scene").prop "id").orElse null,
           x := center.prop "x", y := center.prop "y",
           scale := ((canvas.prop "zoom").orElse
             (((canvas.prop "stage").prop "scale").prop "x")).orElse (int 1) }
  else none

/-- Source (3): `stage.pivot` with `stage.scale.x` (or `1` when that is missing),
when the pivot's `x` is a number. -/
def sourceStagePivot (canvas : JSVal) : Option Snapshot :=
  let pivot := (canvas.prop "stage").prop "pivot"
  if pivot.truthy && (pivot.prop "x").isNumber then
    some { sceneId := ((canvas.prop "scene").prop "id").orElse null,
           x := pivot.prop "x", y := pivot.prop "y",
           scale := (((canvas.prop "stage").prop "scale").prop "x").orElse (int 1) }
  else none

/-- Whether the canvas exists and is ready: `canvas && canvas.ready`. -/
def canvasReady (canvas : JSVal) : Bool :=
  canvas.truthy && (canvas.prop "ready").truthy

/-- The pose of the first source that resolves, in the order (1), (2), (3), on a
ready canvas; `none` on a canvas that is not ready. -/
def firstResolvedSource (canvas : JSVal) : Option Snapshot :=
  if canvasReady canvas then
    (sourceViewPosition canvas <|> sourceCameraCenter canvas) <|> sourceStagePivot canvas
  else none

/-! ## Socket calls -/

/-- A call on the socketlib socket. -/
inductive SocketCall where
  | executeForOthers (handler : String) (snap : Snapshot)
  | executeForUsers (handler : String) (recipients : List JSVal) (snap : Snapshot)
  | executeAsGM (handler : String) (arg : JSVal)

/-! ## GM side: the throttled broadcaster -/

/-- The constant `THROTTLE_MS` of `_startGMBroadcast`. -/
def THROTTLE_MS : Int := 50

/-- The hooks `_startGMBroadcast` registers `send` on. For `canvasReady` the
trigger is the run of `send` that `setTimeout(send, 150)` schedules. -/
inductive SendHook where
  | canvasPan
  | canvasZoom
  | canvasReadyDelayed
  deriving DecidableEq

/-- One run of `send`: which hook caused it, what `Date.now()` reads during the
run and the value of the `canvas` global during the run. -/
structure Trigger where
  hook : SendHook
  now : Int
  canvas : JSVal

/-- A push: a call `socket.executeForOthers("applyCamera", snap)` with the clock
reading of the run of `send` that made it. -/
structure Push where
  time : Int
  call : SocketCall

/-- The closure `send` of `_startGMBroadcast`: from the captured `lastSent`, the
canvas and the clock reading to the new `lastSent` and the socket calls made,
or to the error the run throws. -/
def send (lastSent : Int) (canvas : JSVal) (now : Int) :
    Except JSError (Int × List SocketCall) := do
  let snap ← _getViewSnapshot canvas
  match snap with
  | none => return (lastSent, [])
  | some snap =>
    if now - lastSent < THROTTLE_MS then return (lastSent, [])
    else return (now, [SocketCall.executeForOthers "applyCamera" snap])

/-- The broadcaster run over a sequence of triggers, from a value of `lastSent`:
the final `lastSent` and the pushes made, in order. All three hooks run the same
`send` on the same `lastSent`. A run of `send` that throws has assigned nothing
and pushed nothing. -/
def broadcast (lastSent : Int) : List Trigger → Int × List Push
  | [] => (lastSent, [])
  | t :: ts =>
    match send lastSent t.canvas t.now with
    | Except.error _ => broadcast lastSent ts
    | Except.ok r =>
      let rest := broadcast r.1 ts
      (rest.1, r.2.map (fun c => { time := t.now, call := c }) ++ rest.2)

/-- `_startGMBroadcast()`: `let lastSent = 0`, then the hooks run `send`. The
pushes the broadcaster makes on a sequence of triggers. -/
def _startGMBroadcast (ts : List Trigger) : List Push :=
  (broadcast 0 ts).2

/-! ## Sample host states -/

/-- A ready canvas showing scene `sceneA`, with a numeric view position. -/
def sampleCanvas : JSVal :=
  object [("ready", bool true),
    ("scene", object [("id", string "sceneA"),
      ("_viewPosition", object [("x", int 100), ("y", int 200), ("scale", int 1)])])]

/-- The snapshot `_getViewSnapshot` takes of `sampleCanvas`. -/
def sampleSnapshot : Snapshot :=
  { sceneId := string "sceneA", x := int 100, y := int 200, scale := int 1 }

/-- The push a trigger makes when `send` gets past the throttle: the broadcast
of the snapshot taken at the trigger, or nothing when no snapshot resolves. -/
def pushOf (t : Trigger) : Option Push :=
  match _getViewSnapshot t.canvas with
  | Except.ok (some snap) =>
    some { time := t.now, call := SocketCall.executeForOthers "applyCamera" snap }
  | _ => none

/-! ## Observer side: `_applyCamera` -/

/-- The host state `_applyCamera` reads in the window it runs in. The `canvas`
global is the host's canvas object, which has the `animatePan` method. -/
structure Window where
  /-- The value of `new URLSearchParams(window.location.search).get("observer")`:
  `none` for `null` (no such parameter), else the parameter's string. -/
  observerParam : Option String
  /-- The value of `game.settings.get("archive-of-observers", "cameraFollow")`. -/
  cameraFollow : JSVal
  /-- The value of the `canvas` global when the handler starts. -/
  canvas : JSVal
  /-- Whether the `canvasReady` hook fires after the handler has registered for
  it with `Hooks.once`. -/
  canvasReadyFires : Bool
  /-- Whether the host's `canvas.animatePan` throws when called. -/
  animatePanThrows : Bool

/-- What a run of `_applyCamera` does to its host. -/
inductive Effect where
  /-- The registration `Hooks.once("canvasReady", r)`. -/
  | hooksOnceCanvasReady
  /-- The call `canvas.animatePan({ x, y, scale, duration })`. -/
  | animatePan (x y scale : JSVal) (duration : Nat)
  /-- The call `console.warn("Observer | animatePan failed", err)`. -/
  | consoleWarn (text : String)

/-- How the promise of an `async` run ends: fulfilled, rejected by a thrown
error, or never settled because the awaited hook never fires. -/
inductive Completion where
  | returned
  | threw
  | pending
  deriving DecidableEq

/-- The effects of a run, in order, how it ends, and the settings it read with
`game.settings.get`, in order, each as `"<module>.<key>"`. -/
structure Run where
  effects : List Effect
  completion : Completion
  settingsRead : List String := []

/-- Whether an effect is a call of `canvas.animatePan`. -/
def Effect.isAnimatePan : Effect → Bool
  | Effect.animatePan _ _ _ _ => true
  | _ => false

/-- The calls of `canvas.animatePan` a run makes. -/
def Run.panCalls (r : Run) : List Effect :=
  r.effects.filter Effect.isAnimatePan

/-- The expression `!!new URLSearchParams(window.location.search).get("observer")`. -/
def Window.isObserver (w : Window) : Bool :=
  match w.observerParam with
  | none => false
  | some v => v != ""

/-- The expression `canvas?.scene?.id ?? null`. -/
def Window.myScene (w : Window) : JSVal :=
  ((w.canvas.prop "scene").prop "id").orElse null

/-- Lines 177 to 184 of `_applyCamera`: what runs once the canvas is ready. -/
def applyCameraWhenReady (w : Window) (msg : JSVal) : List Effect :=
  let m := if msg.truthy then msg else object []
  let x := m.prop "x"
  let y := m.prop "y"
  let scale := m.prop "scale"
  if !x.isNumber || !y.isNumber || !scale.isNumber then []
  else
    Effect.animatePan x y scale 200 ::
      (if w.animatePanThrows then [Effect.consoleWarn "Observer | animatePan failed"] else [])

/-- The handler `_applyCamera(msg)`, run in window `w`. -/
def _applyCamera (w : Window) (msg : JSVal) : Run :=
  if !w.isObserver then { effects := [], completion := Completion.returned }
  else if !w.cameraFollow.truthy then
    { effects := [], completion := Completion.returned,
      settingsRead := ["archive-of-observers.cameraFollow"] }
  else
    let myScene := w.myScene
    match msg.readProp "sceneId" with
    | Except.error _ =>
      { effects := [], completion := Completion.threw,
        settingsRead := ["archive-of-observers.cameraFollow"] }
    | Except.ok sceneId =>
      if sceneId.truthy && myScene.truthy && !(sceneId.strictEq myScene) then
        { effects := [], completion := Completion.returned,
          settingsRead := ["archive-of-observers.cameraFollow"] }
      else if (w.canvas.prop "ready").truthy then
        { effects := applyCameraWhenReady w msg, completion := Completion.returned,
          settingsRead := ["archive-of-observers.cameraFollow"] }
      else if w.canvasReadyFires then
        { effects := Effect.hooksOnceCanvasReady :: applyCameraWhenReady w msg,
          completion := Completion.returned,
          settingsRead := ["archive-of-observers.cameraFollow"] }
      else
        { effects := [Effect.hooksOnceCanvasReady], completion := Completion.pending,
          settingsRead := ["archive-of-observers.cameraFollow"] }

/-- An observer window with camera follow enabled, showing `sampleCanvas`. -/
def sampleObserver : Window :=
  { observerParam := some "true", cameraFollow := bool true, canvas := sampleCanvas,
    canvasReadyFires := false, animatePanThrows := false }

/-- An observer window with camera follow enabled that has no scene loaded yet
and whose canvas becomes ready later. -/
def startingObserver : Window :=
  { observerParam := some "true", cameraFollow := bool true,
    canvas := object [("ready", bool false), ("scene", null)],
    canvasReadyFires := true, animatePanThrows := false }

/-- A pose message with the given scene id and the pose `(1, 2)` at scale `1`. -/
def samplePose (sceneId : JSVal) : JSVal :=
  object [("sceneId", sceneId), ("x", int 1), ("y", int 2), ("scale", int 1)]

/-! ## GM side: the handshake for late joiners -/

/-- The RPC `_handleSnapshotRequest(requesterId)`, run on a client whose
`game.user` is `user` and whose `canvas` global is `canvas`: the socket calls it
makes, or the error it throws. -/
def _handleSnapshotRequest (user canvas requesterId : JSVal) :
    Except JSError (List SocketCall) := do
  if !(user.prop "isGM").truthy then return []
  let snap ← _getViewSnapshot canvas
  match snap with
  | none => return []
  | some snap => return [SocketCall.executeForUsers "applyCamera" [requesterId] snap]

/-- Whether a socket call is a broadcast, `socket.executeForOthers`. -/
def SocketCall.isBroadcast : SocketCall → Bool
  | SocketCall.executeForOthers _ _ => true
  | _ => false

/-- The `game.user` of the GM client. -/
def gmUser : JSVal :=
  object [("id", string "gm1"), ("isGM", bool true)]

/-- A canvas that is not ready: the GM client has no scene drawn yet. -/
def unreadyCanvas : JSVal :=
  object [("ready", bool false), ("scene", null)]

/-- A ready canvas without a view position, whose camera center is numeric. -/
def centerCanvas : JSVal :=
  object [("ready", bool true), ("scene", object [("id", string "sceneA")]), ("zoom", int 2),
    ("camera", object [("center", object [("x", int 10), ("y", int 20)])])]

/-- A ready canvas with only a stage transform. -/
def stageCanvas : JSVal :=
  object [("ready", bool true), ("scene", object [("id", string "sceneA")]),
    ("stage", object [("pivot", object [("x", int 5), ("y", int 6)]),
      ("scale", object [("x", int 3)])])]

/-- A ready canvas on which no source resolves. -/
def bareCanvas : JSVal :=
  object [("ready", bool true), ("scene", object [("id", string "sceneA")])]

/-- Three triggers inside 40 ms, then one 100 ms later. -/
def sampleBurst : List Trigger :=
  [{ hook := SendHook.canvasPan, now := 1000, canvas := sampleCanvas },
   { hook := SendHook.canvasZoom, now := 1020, canvas := sampleCanvas },
   { hook := SendHook.canvasPan, now := 1040, canvas := sampleCanvas },
   { hook := SendHook.canvasReadyDelayed, now := 1140, canvas := sampleCanvas }]

/-- Three triggers, each more than 50 ms after the one before. -/
def sampleSpaced : List Trigger :=
  [{ hook := SendHook.canvasPan, now := 1000, canvas := sampleCanvas },
   { hook := SendHook.canvasZoom, now := 1051, canvas := centerCanvas },
   { hook := SendHook.canvasReadyDelayed, now := 1200, canvas := stageCanvas }]

/-! ## The roll overlay queue (`queue.js`) -/

/-- An entry `{ user, total, flavor }` of `rollQueue`. -/
structure RollRequest where
  user : JSVal
  total : JSVal
  flavor : JSVal

/-- The markup written to `overlay.innerHTML`: the user and the total in
`<strong>` tags, and the flavor span when `flavor` is truthy. -/
structure RollBanner where
  user : JSVal
  total : JSVal
  flavor : Option JSVal

/-- The template literal of `showNextRoll` for a request. -/
def rollBanner (r : RollRequest) : RollBanner :=
  { user := r.user, total := r.total,
    flavor := if r.flavor.truthy then some r.flavor else none }

/-- The `#observer-roll` element: what its `innerHTML` holds (`none` for the
markup it was created with) and whether its class list has `visible`. -/
structure OverlayElement where
  banner : Option RollBanner
  visible : Bool

/-- The two timer callbacks of `showNextRoll`: the outer one (after 3500 ms)
removes `visible` and starts the inner one; the inner one (after 600 ms) calls
`showNextRoll`. -/
inductive TimerCallback where
  | hide
  | next
  deriving DecidableEq

/-- A pending `setTimeout`: when it is due and what it runs. -/
structure Timer where
  due : Nat
  callback : TimerCallback
  deriving DecidableEq

/-- What happens to a card: it is written and made visible, it loses `visible`
when its dwell timer fires, its fade timer fires. -/
inductive CardEvent where
  | shown (r : RollRequest)
  | hidden
  | faded

/-- The module state of `queue.js` with what it acts on: the queue, the flag,
the `#observer-roll` element if the document has one, the pending timers, the
clock in ms, and the record of what was done to the overlay and when. -/
structure QueueState where
  rollQueue : List RollRequest
  isShowingRoll : Bool
  overlay : Option OverlayElement
  timers : List Timer
  now : Nat
  log : List (Nat × CardEvent)

/-- The module as loaded: `rollQueue = []`, `isShowingRoll = false`, no timer. -/
def initialQueue (overlay : Option OverlayElement) (now : Nat) : QueueState :=
  { rollQueue := [], isShowingRoll := false, overlay := overlay, timers := [], now := now,
    log := [] }

/-- The dwell of a card, the delay of the outer `setTimeout`. -/
def DWELL_MS : Nat := 3500

/-- The fade of a card, the delay of the inner `setTimeout`. -/
def FADE_MS : Nat := 600

/-- `showNextRoll()`. -/
def showNextRoll (s : QueueState) : QueueState :=
  match s.rollQueue with
  | [] => { s with isShowingRoll := false }
  | r :: rest =>
    match s.overlay with
    | none => { s with isShowingRoll := true, rollQueue := rest }
    | some _ =>
      { s with
        isShowingRoll := true
        rollQueue := rest
        overlay := some { banner := some (rollBanner r), visible := true }
        timers := s.timers ++ [{ due := s.now + DWELL_MS, callback := TimerCallback.hide }]
        log := s.log ++ [(s.now, CardEvent.shown r)] }

/-- The entry `queueRollOverlay(user, total, flavor = "")` pushes: the default
applies when `flavor` is `undefined`. -/
def mkRequest (user total flavor : JSVal) : RollRequest :=
  { user := user, total := total,
    flavor := match flavor with
      | JSVal.undefined => string ""
      | f => f }

/-- `queueRollOverlay(user, total, flavor)`. -/
def queueRollOverlay (s : QueueState) (user total flavor : JSVal) : QueueState :=
  let s1 := { s with rollQueue := s.rollQueue ++ [mkRequest user total flavor] }
  if !s1.isShowingRoll then showNextRoll s1 else s1

/-- The body of a timer callback, run at the time `s.now`. -/
def runTimer (s : QueueState) : TimerCallback → QueueState
  | TimerCallback.hide =>
    { s with
      overlay := s.overlay.map (fun o => { o with visible := false })
      timers := s.timers ++ [{ due := s.now + FADE_MS, callback := TimerCallback.next }]
      log := s.log ++ [(s.now, CardEvent.hidden)] }
  | TimerCallback.next =>
    showNextRoll { s with log := s.log ++ [(s.now, CardEvent.faded)] }

/-- What can happen to the queue: a call of `queueRollOverlay`, the event loop
running the callback of the `i`-th pending timer (at its due time, or now if that
has passed), time passing, and the overlay template being loaded into the
document. -/
inductive QueueEvent where
  | call (user total flavor : JSVal)
  | timerFires (i : Nat)
  | elapse (dt : Nat)
  | overlayLoaded

/-- One event. A `timerFires i` without an `i`-th pending timer is nothing. -/
def step (s : QueueState) : QueueEvent → QueueState
  | QueueEvent.call user total flavor => queueRollOverlay s user total flavor
  | QueueEvent.timerFires i =>
    match s.timers.get? i with
    | none => s
    | some t =>
      runTimer { s with timers := s.timers.eraseIdx i, now := max s.now t.due } t.callback
  | QueueEvent.elapse dt => { s with now := s.now + dt }
  | QueueEvent.overlayLoaded =>
    match s.overlay with
    | none => { s with overlay := some { banner := none, visible := false } }
    | some _ => s

/-- A sequence of events, from a state. -/
def run (s : QueueState) (evs : List QueueEvent) : QueueState :=
  evs.foldl step s

/-- The request an event enqueues, if it is a call. -/
def QueueEvent.request : QueueEvent → Option RollRequest
  | QueueEvent.call user total flavor => some (mkRequest user total flavor)
  | _ => none

/-- The requests a sequence of events enqueues, in order. -/
def requestsOf (evs : List QueueEvent) : List RollRequest :=
  evs.filterMap QueueEvent.request

/-- The life of the cards of a list of requests shown one after the other: each
is shown, hidden when its dwell timer fires, and done when its fade timer
fires, before the next is shown. -/
def lifecycle : List RollRequest → List CardEvent
  | [] => []
  | r :: rs => CardEvent.shown r :: CardEvent.hidden :: CardEvent.faded :: lifecycle rs

/-- The requests of the cards a record shows, in order. -/
def shownRequests : List CardEvent → List RollRequest
  | [] => []
  | CardEvent.shown r :: es => r :: shownRequests es
  | _ :: es => shownRequests es

/-- The three phases of the queue while the overlay element exists, for the
requests `enq` enqueued so far: idle with every card done; one card visible and
its dwell timer pending; one card fading and its fade timer pending. In each
the record is the lifecycle of the cards done and the part of the current one. -/
def QueuePhase (enq : List RollRequest) (s : QueueState) : Prop :=
  s.overlay.isSome = true ∧
  ((s.isShowingRoll = false ∧ s.timers = [] ∧ s.rollQueue = [] ∧
      s.log.map Prod.snd = lifecycle enq) ∨
   (∃ done r d, s.isShowingRoll = true ∧ s.timers = [{ due := d, callback := TimerCallback.hide }] ∧
      enq = done ++ r :: s.rollQueue ∧
      s.log.map Prod.snd = lifecycle done ++ [CardEvent.shown r]) ∨
   (∃ done r d, s.isShowingRoll = true ∧ s.timers = [{ due := d, callback := TimerCallback.next }] ∧
      enq = done ++ r :: s.rollQueue ∧
      s.log.map Prod.snd = lifecycle done ++ [CardEvent.shown r, CardEvent.hidden]))

/-- The pending timer the event loop runs next: the one due first, and of those
due together the one set first. -/
def nextTimer : List Timer → Option Nat
  | [] => none
  | t :: ts =>
    match nextTimer ts with
    | none => some 0
    | some i =>
      match ts.get? i with
      | some u => if u.due < t.due then some (i + 1) else some 0
      | none => some 0

/-- One turn of the event loop: the next pending timer's callback runs at the
time it is due. Without a pending timer nothing happens. -/
def eventLoopTurn (s : QueueState) : QueueState :=
  match nextTimer s.timers with
  | none => s
  | some i => step s (QueueEvent.timerFires i)

/-- The event loop, for `n` turns. -/
def eventLoop : Nat → QueueState → QueueState
  | 0, s => s
  | n + 1, s => eventLoop n (eventLoopTurn s)

/-- A burst: the calls `queueRollOverlay(user, total, flavor)` for a list of
arguments, made one after the other at the same instant. -/
def burst (args : List (JSVal × JSVal × JSVal)) : List QueueEvent :=
  args.map (fun a => QueueEvent.call a.1 a.2.1 a.2.2)

/-- The times of the cards of a burst made at `t0`, for the requests from the
`k`-th on: the `k`-th card is shown `k * (3500 + 600)` ms after `t0`, hidden
3500 ms later, and done 600 ms after that. -/
def cardTimes (t0 : Nat) : Nat → List RollRequest → List (Nat × CardEvent)
  | _, [] => []
  | k, r :: rs =>
    (t0 + k * (3500 + 600), CardEvent.shown r) ::
    (t0 + k * (3500 + 600) + 3500, CardEvent.hidden) ::
    (t0 + k * (3500 + 600) + 3500 + 600, CardEvent.faded) ::
    cardTimes t0 (k + 1) rs

/-- Three rolls enqueued in one burst. -/
def sampleRolls : List (JSVal × JSVal × JSVal) :=
  [(string "Ann", int 17, string "Stealth"), (string "Bob", int 4, undefined),
   (string "Cy", int 20, string "")]

/-- An `#observer-roll` element as the overlay template creates it. -/
def emptyOverlay : OverlayElement :=
  { banner := none, visible := false }

/-- A ready canvas with only a stage transform whose pivot has an `x` and no
`y`. -/
def pivotXOnlyCanvas : JSVal :=
  object [("ready", bool true), ("scene", object [("id", string "sceneA")]),
    ("stage", object [("pivot", object [("x", int 5)])])]

/-- A ready canvas whose view position has numeric `x` and `y` and a `scale`
that is a string. -/
def textScaleCanvas : JSVal :=
  object [("ready", bool true),
    ("scene", object [("id", string "sceneA"),
      ("_viewPosition", object [("x", int 1), ("y", int 2), ("scale", string "fit")])])]

/-- A GM or player window: its URL has no `observer` parameter. -/
def gmWindow : Window :=
  { observerParam := none, cameraFollow := bool true, canvas := sampleCanvas,
    canvasReadyFires := true, animatePanThrows := false }

/-! ## The socketlib bootstrap (`camera.js`) -/

/-- The state a call `_ensureSocketlibReady(done)` leaves behind, on which its
callbacks act: the captured `finished`; whether `finish` is still registered
with `Hooks.once("socketlib.ready", …)`; whether the `ready` callback is still
registered; whether the interval `poll` is running; the captured `startedAt`;
how often `done` was called; the texts passed to `ui.notifications.error` and
to `console.error`, in order. -/
structure Bootstrap where
  finished : Bool := false
  onSocketlibReady : Bool := false
  onReady : Bool := false
  polling : Bool := false
  startedAt : Int := 0
  doneCalls : Nat := 0
  notices : List String := []
  consoleErrors : List String := []

/-- The closure `finish` of `_ensureSocketlibReady`. -/
def finish (b : Bootstrap) : Bootstrap :=
  if !b.finished then { b with finished := true, doneCalls := b.doneCalls + 1 } else b

/-- The state in which `_ensureSocketlibReady` has registered its two hooks and
started the poll at the clock reading `now`. -/
def Bootstrap.waiting (now : Int) : Bootstrap :=
  { finished := false, onSocketlibReady := true, onReady := true, polling := true,
    startedAt := now }

/-- The state in which `_ensureSocketlibReady` has only reported that socketlib
is missing or inactive. -/
def Bootstrap.unavailable : Bootstrap :=
  { notices := ["Archive of Observers: socketlib is required and not active."],
    consoleErrors := ["Observer | socketlib missing/disabled"] }

/-- `_ensureSocketlibReady(done)`: `mod` is the value of
`game.modules.get("socketlib")`, `usable` says whether
`window.socketlib?.registerModule` is truthy during the call, `now` is what
`Date.now()` reads. The result is the state left behind, or the error thrown. -/
def _ensureSocketlibReady (mod : JSVal) (usable : Bool) (now : Int) :
    Except JSError Bootstrap := do
  if !mod.truthy then return Bootstrap.unavailable
  if !(← mod.readProp "active").truthy then return Bootstrap.unavailable
  if usable then return { doneCalls := 1 }
  return Bootstrap.waiting now

/-- What can happen after `_ensureSocketlibReady` has returned: the hook
`socketlib.ready` is called; the hook `ready` is called, socketlib being usable
or not at that time; the interval fires, with the clock reading and whether
socketlib is usable at that time. -/
inductive BootEvent where
  | socketlibReadyHook
  | readyHook (usable : Bool)
  | pollTick (now : Int) (usable : Bool)
  deriving DecidableEq

/-- One event: a hook registered with `Hooks.once` runs its callback once and
is then gone; the interval callback runs while the interval is not cleared. -/
def bootStep (b : Bootstrap) : BootEvent → Bootstrap
  | BootEvent.socketlibReadyHook =>
    if b.onSocketlibReady then finish { b with onSocketlibReady := false } else b
  | BootEvent.readyHook usable =>
    if b.onReady then
      if usable then finish { b with onReady := false } else { b with onReady := false }
    else b
  | BootEvent.pollTick now usable =>
    if b.polling then
      if usable then finish { b with polling := false }
      else if now - b.startedAt > 4000 then
        { b with
          polling := false
          notices := b.notices ++ ["Archive of Observers: socketlib did not initialize."]
          consoleErrors := b.consoleErrors ++ ["Observer | socketlib failed to initialize"] }
      else b
    else b

/-- A sequence of events, from a state. -/
def bootRun (b : Bootstrap) (evs : List BootEvent) : Bootstrap :=
  evs.foldl bootStep b

/-- What the callback `done` of `initCameraSync` does, in order: it registers
the module with socketlib and the two RPCs, starts the broadcast in a GM's
window that is not an observer, and calls `_requestInitialView` in an
observer's. -/
inductive SyncAction where
  | registerModule
  | registerRpc (name : String)
  | startGMBroadcast
  | requestInitialView
  deriving DecidableEq

/-- The body of the callback that `initCameraSync(isObserver)` passes as `done`,
for the value `user` of `game.user`. -/
def cameraSyncDone (isObserver : Bool) (user : JSVal) : List SyncAction :=
  [SyncAction.registerModule, SyncAction.registerRpc "applyCamera",
    SyncAction.registerRpc "requestInitialView"] ++
  (if !isObserver && (user.prop "isGM").truthy then [SyncAction.startGMBroadcast] else []) ++
  (if isObserver then [SyncAction.requestInitialView] else [])

/-- `initCameraSync(isObserver)`: the bootstrap it starts. What its `done` has
done in a state is `cameraSyncDone`, once for every call of `done`. -/
def initCameraSync (mod : JSVal) (usable : Bool) (now : Int) : Except JSError Bootstrap :=
  _ensureSocketlibReady mod usable now

/-- Everything the calls of `done` so far have done. -/
def Bootstrap.syncActions (b : Bootstrap) (isObserver : Bool) (user : JSVal) :
    List SyncAction :=
  (List.replicate b.doneCalls (cameraSyncDone isObserver user)).flatten

/-- A poll tick or `ready` hook that finds socketlib unusable, the tick not
after the timeout counted from `startedAt`; or the hook `socketlib.ready`. -/
def BootEvent.beforeTimeout (startedAt : Int) : BootEvent → Prop
  | BootEvent.socketlibReadyHook => True
  | BootEvent.readyHook usable => usable = false
  | BootEvent.pollTick now usable => usable = false ∧ now - startedAt ≤ 4000

/-- Whether an event is a hook whose callback can call `finish`: the hook
`socketlib.ready`, or the hook `ready` with socketlib usable. -/
def BootEvent.isReadyHook : BootEvent → Bool
  | BootEvent.socketlibReadyHook => true
  | BootEvent.readyHook usable => usable
  | BootEvent.pollTick _ _ => false

/-- The state after the poll tick at `nowT` that finds socketlib unusable, the
events `pre` having happened since the state `b`. -/
def afterTick (b : Bootstrap) (pre : List BootEvent) (nowT : Int) : Bootstrap :=
  bootStep (bootRun b pre) (BootEvent.pollTick nowT false)

/-- The socketlib module entry, installed and active. -/
def activeModule : JSVal :=
  object [("id", string "socketlib"), ("active", bool true)]

/-- The socketlib module entry, installed and switched off. -/
def inactiveModule : JSVal :=
  object [("id", string "socketlib"), ("active", bool false)]

/-! ## Numerals (`parseInt`, number to string) -/

/-- The characters of the decimal numeral of `n`, most significant first; the
first argument bounds the number of digits. -/
def decimalFuel : Nat → Nat → List Char
  | 0, _ => []
  | fuel + 1, n =>
    if n < 10 then [Nat.digitChar n]
    else decimalFuel fuel (n / 10) ++ [Nat.digitChar (n % 10)]

/-- The string JavaScript makes of an integer, as in `el.textContent = n` or in
a template: its decimal numeral, with a minus sign when negative. (JavaScript
switches to exponent notation from `1e21` on; hit points do not get there.) -/
def intToString : Int → String
  | Int.ofNat n => String.mk (decimalFuel (n + 1) n)
  | Int.negSucc n => String.mk ('-' :: decimalFuel (n + 2) (n + 1))

/-- The white space `parseInt` skips at the start of its argument. -/
def isStrWhiteSpace (c : Char) : Bool :=
  c.toNat == 0x09 || c.toNat == 0x0A || c.toNat == 0x0B || c.toNat == 0x0C || c.toNat == 0x0D ||
  c.toNat == 0x20 || c.toNat == 0xA0 || c.toNat == 0x1680 ||
  (0x2000 ≤ c.toNat && c.toNat ≤ 0x200A) || c.toNat == 0x2028 || c.toNat == 0x2029 ||
  c.toNat == 0x202F || c.toNat == 0x205F || c.toNat == 0x3000 || c.toNat == 0xFEFF

/-- The value of a character as a digit in the given radix, if it is one. -/
def digitValue (radix : Nat) (c : Char) : Option Nat :=
  let v : Option Nat :=
    if 48 ≤ c.toNat ∧ c.toNat ≤ 57 then some (c.toNat - 48)
    else if 97 ≤ c.toNat ∧ c.toNat ≤ 122 then some (c.toNat - 87)
    else if 65 ≤ c.toNat ∧ c.toNat ≤ 90 then some (c.toNat - 55)
    else none
  v.filter (fun d => d < radix)

/-- The number spelled by the longest initial run of digits. -/
def parseDigits (radix : Nat) : Nat → List Char → Nat
  | acc, [] => acc
  | acc, c :: cs =>
    match digitValue radix c with
    | some d => parseDigits radix (acc * radix + d) cs
    | none => acc

/-- An optional sign: whether it is a minus, and what follows it. -/
def stripSign : List Char → Bool × List Char
  | [] => (false, [])
  | c :: cs =>
    if c.toNat = 45 then (true, cs) else if c.toNat = 43 then (false, cs) else (false, c :: cs)

/-- An optional prefix `0x` or `0X`: the radix, and what follows the prefix. -/
def stripHexPrefix : List Char → Nat × List Char
  | a :: b :: cs =>
    if a.toNat = 48 ∧ (b.toNat = 120 ∨ b.toNat = 88) then (16, cs) else (10, a :: b :: cs)
  | cs => (10, cs)

/-- `parseInt(s)` without a radix argument, for the integers it can return;
`none` is `NaN`. -/
def parseInt (s : String) : Option Int :=
  let signed := stripSign (s.toList.dropWhile isStrWhiteSpace)
  let body := stripHexPrefix signed.2
  match body.2 with
  | [] => none
  | c :: cs =>
    if (digitValue body.1 c).isSome then
      some (if signed.1 then -(parseDigits body.1 0 (c :: cs) : Int)
            else parseDigits body.1 0 (c :: cs))
    else none

/-! ## The player HUD (`playerHud.js`, `conditions.js`) -/

/-- What reading `system.attributes.hp.value` gives: `undefined` when the field
is not there, `null`, or the hit points, which are integers. -/
inductive HpValue where
  | undef
  | nul
  | num (n : Int)
  deriving DecidableEq

/-- The nullish coalescing `a ?? b` of two such readings. -/
def HpValue.orElse : HpValue → HpValue → HpValue
  | HpValue.undef, b => b
  | HpValue.nul, b => b
  | a, _ => a

/-- The text that `hpSpan.textContent = v` stores: nothing for `null` and
`undefined`, the numeral for a number. -/
def HpValue.text : HpValue → String
  | HpValue.num n => intToString n
  | _ => ""

/-- The text the card shows for `hp: actor?.system?.attributes?.hp?.value ?? "??"`. -/
def HpValue.display : HpValue → String
  | HpValue.num n => intToString n
  | _ => "??"

/-- The number a reading counts as in `<` and `>`: `null` is `0`, `undefined` is
`NaN` (`none`). -/
def HpValue.toNumber : HpValue → Option Int
  | HpValue.undef => none
  | HpValue.nul => some 0
  | HpValue.num n => some n

/-- The comparison `v >= 3` of a number. -/
def JSNum.geThree : JSNum → Bool
  | JSNum.nan => false
  | JSNum.inf negative => !negative
  | JSNum.fin q => decide (3 ≤ q)

/-- The object `actor.system.attributes.death`: the two counters, which are
numbers. -/
structure DeathData where
  success : JSNum
  failure : JSNum
  deriving DecidableEq

/-- The three markups `updateDeathSaveOverlay` writes to `overlay.innerHTML`. -/
inductive DeathSaveMarkup where
  | dead
  | stabilized
  | counter (successes failures : JSNum)
  deriving DecidableEq

/-- The children the code appends to a card: the video of a damage or heal
effect; a death-save overlay, with its markup and whether its class list has
`active`; the looping video of a condition; the `.conditions` container with the
sources of its icons. -/
inductive CardChild where
  | effectVideo (src : String)
  | deathSaveOverlay (html : DeathSaveMarkup) (active : Bool)
  | conditionVideo (src condition : String)
  | conditions (icons : List String)
  deriving DecidableEq

/-- A `.player-card` element: its `data-user-id` attribute if it has one,
whether its class list has `gm-card`, the text of its `.stat.hp .value` element
if it has one, the rest of the markup the template gave it, whether its class
list has `flash-damage` and `flash-heal`, and the children appended to it, in
order. Two cards have the same `outerHTML` exactly when they are equal. -/
structure PlayerCard where
  userId : Option String
  gmCard : Bool
  hpText : Option String
  body : String
  flashDamage : Bool
  flashHeal : Bool
  children : List CardChild
  deriving DecidableEq

/-- An active effect of an actor: the fields `applyConditionEffects` reads. -/
structure ActiveEffect where
  disabled : Bool
  statuses : List String
  label : Option String
  icon : Option String
  deriving DecidableEq

/-- An actor: its id, its hit points, its death-save data if it has any, its
effects, and everything else the card shows of it (name, portrait, armor class,
race, classes). -/
structure Actor where
  id : String
  hp : HpValue
  death : Option DeathData
  effects : List ActiveEffect
  sheet : String

/-- A user: id, whether active, the assigned character if any, whether a GM, the
color. -/
structure User where
  id : String
  active : Bool
  character : Option Actor
  isGM : Bool
  color : String

/-- The settings the HUD code reads: the files of the damage and heal effects,
and the registered settings `jb2a<Condition>` with their values. -/
structure HudSettings where
  jb2aDamage : String
  jb2aHeal : String
  conditionFiles : List (String × String)

/-- The host state the HUD code reads: whether the window is the observer's, the
module variable `hasJB2A`, the settings, and `game.users`. -/
structure HudEnv where
  isObserver : Bool
  hasJB2A : Bool
  settings : HudSettings
  users : List User

/-- The data `formatPlayerData(user)` gives the card template, for a user with
the character `actor`: the user id, the text for the hit points, and the rest. -/
structure PlayerData where
  userId : String
  hp : String
  rest : String

/-- `formatPlayerData(user)` for a user whose `character` is `actor`. -/
def formatPlayerData (user : User) (actor : Actor) : PlayerData :=
  { userId := user.id, hp := actor.hp.display, rest := actor.sheet ++ user.color }

/-- Modelled from the spec: the template `templates/player-card.hbs`, which is
not among the sources. From the selectors the code uses on its output: it
renders one `.player-card` element carrying the user id in `data-user-id`, with
a `.stat.hp .value` element holding the hit points, no `gm-card` class, and no
overlay, effect or condition element. -/
def renderPlayerCard (d : PlayerData) : PlayerCard :=
  { userId := some d.userId, gmCard := false, hpText := some d.hp, body := d.rest,
    flashDamage := false, flashHeal := false, children := [] }

/-- `buildPlayerCard(user)`: the element its markup parses to. -/
def buildPlayerCard (user : User) (actor : Actor) : PlayerCard :=
  renderPlayerCard (formatPlayerData user actor)

/-- The selector `.player-card[data-user-id="<uid>"]`, on a card. -/
def hasUserId (uid : String) (c : PlayerCard) : Bool :=
  c.userId == some uid

/-- The change `f` made to the first element that satisfies `p`: what a change
to the element `querySelector` returns does to the list of elements. -/
def modifyFirst {α : Type} (p : α → Bool) (f : α → α) : List α → List α
  | [] => []
  | a :: as => if p a then f a :: as else a :: modifyFirst p f as

/-- The statement `oldHP = parseInt(el.textContent) || 0` after `let oldHP = 0`
and under `if (el)`, for the `.stat.hp .value` element of a card. -/
def PlayerCard.shownHP (c : PlayerCard) : Int :=
  match c.hpText with
  | some t => (parseInt t).getD 0
  | none => 0

/-- The two kinds of health change. -/
inductive HealthChange where
  | damage
  | heal
  deriving DecidableEq

/-- An indicator of a health change on a card: the class `flash-damage` or
`flash-heal` added (and removed 400 ms later), or the video of a JB2A effect
appended. -/
inductive Indicator where
  | flash (kind : HealthChange)
  | video (kind : HealthChange) (src : String)
  deriving DecidableEq

/-- `playJB2AEffect(card, type)`: the card afterwards, and the indicator if one
was made. -/
def playJB2AEffect (settings : HudSettings) (kind : HealthChange) (c : PlayerCard) :
    PlayerCard × Option Indicator :=
  let file := match kind with
    | HealthChange.damage => settings.jb2aDamage
    | HealthChange.heal => settings.jb2aHeal
  if file == "" then (c, none)
  else ({ c with children := c.children ++ [CardChild.effectVideo file] },
        some (Indicator.video kind file))

/-- The branch taken when `newHP < oldHP` (damage) or `newHP > oldHP` (heal):
the JB2A effect if `hasJB2A`, else the flash class. -/
def indicate (env : HudEnv) (kind : HealthChange) (c : PlayerCard) :
    PlayerCard × Option Indicator :=
  if env.hasJB2A then playJB2AEffect env.settings kind c
  else
    match kind with
    | HealthChange.damage => ({ c with flashDamage := true }, some (Indicator.flash kind))
    | HealthChange.heal => ({ c with flashHeal := true }, some (Indicator.flash kind))

/-- The damage / heal check `if (newHP < oldHP) … else if (newHP > oldHP) …`;
a `newHP` that is `NaN` is neither. -/
def healthCheck (env : HudEnv) (newHP : Option Int) (oldHP : Int) (c : PlayerCard) :
    PlayerCard × Option Indicator :=
  match newHP with
  | none => (c, none)
  | some n =>
    if n < oldHP then indicate env HealthChange.damage c
    else if n > oldHP then indicate env HealthChange.heal c
    else (c, none)

/-- Whether a child is a `.death-save-overlay` element. -/
def CardChild.isDeathSaveOverlay : CardChild → Bool
  | CardChild.deathSaveOverlay _ _ => true
  | _ => false

/-- The markup chosen by lines 471 to 481 of `updateDeathSaveOverlay`. -/
def deathSaveMarkup (successes failures : JSNum) : DeathSaveMarkup :=
  if failures.geThree then DeathSaveMarkup.dead
  else if successes.geThree then DeathSaveMarkup.stabilized
  else DeathSaveMarkup.counter successes failures

/-- Lines 464 to 483 of `updateDeathSaveOverlay`, on the card found: its first
overlay, or a new one appended to it, gets the markup and the class `active`. -/
def PlayerCard.setDeathSave (successes failures : JSNum) (c : PlayerCard) : PlayerCard :=
  let overlay := CardChild.deathSaveOverlay (deathSaveMarkup successes failures) true
  if c.children.any CardChild.isDeathSaveOverlay then
    { c with children := modifyFirst CardChild.isDeathSaveOverlay (fun _ => overlay) c.children }
  else
    { c with children := c.children ++ [overlay] }

/-- Lines 493 and 494 of `clearDeathSaveOverlay`, on the card found: its first
overlay is removed. -/
def PlayerCard.clearDeathSave (c : PlayerCard) : PlayerCard :=
  { c with children := c.children.eraseP CardChild.isDeathSaveOverlay }

/-- `updateDeathSaveOverlay(userId, successes, failures)` on the cards of the
document. -/
def updateDeathSaveOverlay (cards : List PlayerCard) (userId : String)
    (successes failures : JSNum) : List PlayerCard :=
  modifyFirst (hasUserId userId) (PlayerCard.setDeathSave successes failures) cards

/-- `clearDeathSaveOverlay(userId)` on the cards of the document. -/
def clearDeathSaveOverlay (cards : List PlayerCard) (userId : String) : List PlayerCard :=
  modifyFirst (hasUserId userId) PlayerCard.clearDeathSave cards

/-- The death-save step `if (newHP === 0 && deathData) updateDeathSaveOverlay(…)
else clearDeathSaveOverlay(…)`, on the card that both functions find, the first
with the user's id. -/
def PlayerCard.deathSaveStep (isZero : Bool) (death : Option DeathData) (c : PlayerCard) :
    PlayerCard :=
  match isZero, death with
  | true, some d => c.setDeathSave d.success d.failure
  | _, _ => c.clearDeathSave

/-- Whether a child is matched by `video.condition-effect, .conditions`. -/
def CardChild.isConditionVisual : CardChild → Bool
  | CardChild.conditionVideo _ _ => true
  | CardChild.conditions _ => true
  | _ => false

/-- Whether a child is the `.conditions` container. -/
def CardChild.isConditions : CardChild → Bool
  | CardChild.conditions _ => true
  | _ => false

/-- The key of an effect: its first status, else its label in lower case;
`none` when that is missing or empty (`if (!key) continue`). Case mapping is
that of ASCII letters. -/
def conditionKey (e : ActiveEffect) : Option String :=
  let key := if !e.statuses.isEmpty then e.statuses.head? else e.label.map String.toLower
  key.filter (fun k => k != "")

/-- The body of the loop of `applyConditionEffects` for one effect. -/
def addConditionVisual (env : HudEnv) (children : List CardChild) (e : ActiveEffect) :
    List CardChild :=
  match conditionKey e with
  | none => children
  | some key =>
    let animFile := (env.settings.conditionFiles.lookup ("jb2a" ++ key.capitalize)).getD ""
    if env.hasJB2A && animFile != "" then
      children ++ [CardChild.conditionVideo animFile key]
    else
      let icon := match e.icon with
        | some src => if src == "" then "icons/svg/status.svg" else src
        | none => "icons/svg/status.svg"
      if children.any CardChild.isConditions then
        modifyFirst CardChild.isConditions
          (fun ch => match ch with
            | CardChild.conditions icons => CardChild.conditions (icons ++ [icon])
            | other => other)
          children
      else children ++ [CardChild.conditions [icon]]

/-- `applyConditionEffects(card, actor)` for an actor that is there. -/
def applyConditionEffects (env : HudEnv) (actor : Actor) (c : PlayerCard) : PlayerCard :=
  let kept := c.children.filter (fun ch => !ch.isConditionVisual)
  let active := actor.effects.filter (fun e => !e.disabled)
  { c with children := active.foldl (addConditionVisual env) kept }

/-- What a handler leaves: the cards of the document, and the indicators it
made, each with the user id of its card, in order. -/
structure HudResult where
  cards : List PlayerCard
  indicators : List (String × Indicator)

/-- The indicator a step made, filed under the user id. -/
def fileIndicator (uid : String) : Option Indicator → List (String × Indicator)
  | some i => [(uid, i)]
  | none => []

/-- The user `game.users.find(u => u.character?.id === actor.id)`. -/
def userOfActor (env : HudEnv) (actor : Actor) : Option User :=
  env.users.find? (fun u => (u.character.map (fun c => c.id)) == some actor.id)

/-- The `updateActor` handler, called with the actor and, of the update `data`,
what `system.attributes.hp.value` reads in it, on the cards of the document. The
element `card` is the first card with the user's id throughout. -/
def updateActorHandler (env : HudEnv) (cards : List PlayerCard) (actor : Actor)
    (dataHp : HpValue) : HudResult :=
  if !env.isObserver then { cards := cards, indicators := [] }
  else
    match userOfActor env actor with
    | none => { cards := cards, indicators := [] }
    | some user =>
      match cards.find? (hasUserId user.id) with
      | none => { cards := cards, indicators := [] }
      | some card =>
        let newHP := dataHp.orElse actor.hp
        if newHP = HpValue.undef then { cards := cards, indicators := [] }
        else
          let oldHP := card.shownHP
          let cards1 := modifyFirst (hasUserId user.id)
            (fun c => { c with hpText := c.hpText.map (fun _ => newHP.text) }) cards
          let shown := healthCheck env newHP.toNumber oldHP
          let cards2 := modifyFirst (hasUserId user.id) (fun c => (shown c).1) cards1
          let made := match cards1.find? (hasUserId user.id) with
            | some c => fileIndicator user.id (shown c).2
            | none => []
          let cards3 := modifyFirst (hasUserId user.id)
            (PlayerCard.deathSaveStep (newHP == HpValue.num 0) actor.death) cards2
          let cards4 := modifyFirst (hasUserId user.id) (applyConditionEffects env actor) cards3
          { cards := cards4, indicators := made }

/-- An element of the HUD during a tick of the poller: the card, and whether it
is one of the elements of `domCards`, captured when the tick started. -/
structure HudNode where
  captured : Bool
  card : PlayerCard

/-- The selector `.player-card[data-user-id="<uid>"]`, on an element of the HUD. -/
def nodeHasUserId (uid : String) (n : HudNode) : Bool :=
  hasUserId uid n.card

/-- The change of the card of an element. -/
def HudNode.mapCard (f : PlayerCard → PlayerCard) (n : HudNode) : HudNode :=
  { n with card := f n.card }

/-- The users of `game.users.filter(u => u.active && u.character)`, each with
its character. -/
def activePlayers (env : HudEnv) : List (User × Actor) :=
  env.users.filterMap (fun u => if u.active then u.character.map (fun a => (u, a)) else none)

/-- The HUD and the indicators made so far, during a tick. -/
structure TickState where
  nodes : List HudNode
  indicators : List (String × Indicator)

/-- The body of the first loop of the poller, for one active user. When the
card is replaced, `newCard` is the first card with the user's id; the template
puts that id on the card it renders, so there is one. -/
def syncPlayer (env : HudEnv) (st : TickState) (p : User × Actor) : TickState :=
  let fresh := buildPlayerCard p.1 p.2
  match st.nodes.find? (nodeHasUserId p.1.id) with
  | some existing =>
    let oldHP := existing.card.shownHP
    if existing.card ≠ fresh then
      let nodes1 := modifyFirst (nodeHasUserId p.1.id)
        (fun _ => { captured := false, card := fresh }) st.nodes
      let newHP := match nodes1.find? (nodeHasUserId p.1.id) with
        | some newNode => newNode.card.shownHP
        | none => 0
      let shown := healthCheck env (some newHP) oldHP
      let nodes2 := modifyFirst (nodeHasUserId p.1.id)
        (HudNode.mapCard (fun c => (shown c).1)) nodes1
      let made := match nodes1.find? (nodeHasUserId p.1.id) with
        | some newNode => fileIndicator p.1.id (shown newNode.card).2
        | none => []
      let nodes3 := modifyFirst (nodeHasUserId p.1.id)
        (HudNode.mapCard (PlayerCard.deathSaveStep (newHP == 0) p.2.death)) nodes2
      let nodes4 := modifyFirst (nodeHasUserId p.1.id)
        (HudNode.mapCard (applyConditionEffects env p.2)) nodes3
      { nodes := nodes4, indicators := st.indicators ++ made }
    else st
  | none =>
    { st with nodes := st.nodes ++ [{ captured := false, card := fresh }] }

/-- The test of the second loop of the poller on a card: it is no GM card and
no active user has its `data-user-id`. -/
def isStale (active : List (User × Actor)) (c : PlayerCard) : Bool :=
  !c.gmCard && !(active.any (fun p => c.userId == some p.1.id))

/-- One run of the interval callback of the poller, which is set up in an
observer window only, on the `.player-card` elements of `#player-hud` (`none`
when the document has no such element): the cards afterwards and the indicators
made. The second loop removes the elements of `domCards` that are stale and
still in the document. -/
def pollerTick (env : HudEnv) (hud : Option (List PlayerCard)) :
    Option (List PlayerCard) × List (String × Indicator) :=
  match hud with
  | none => (none, [])
  | some cards =>
    let active := activePlayers env
    let st := active.foldl (syncPlayer env)
      { nodes := cards.map (fun c => { captured := true, card := c }), indicators := [] }
    let kept := st.nodes.filter (fun n => !(n.captured && isStale active n.card))
    (some (kept.map (fun n => n.card)), st.indicators)

/-- What happens to the HUD: the host calls the `updateActor` hook, or the
interval of the poller fires; each with the host state at that time. -/
inductive HudEvent where
  | updateActor (env : HudEnv) (actor : Actor) (dataHp : HpValue)
  | pollerTick (env : HudEnv)

/-- One event on the HUD: the cards afterwards and the indicators made. All
player cards of the document are in `#player-hud`. -/
def hudStep (hud : Option (List PlayerCard)) :
    HudEvent → Option (List PlayerCard) × List (String × Indicator)
  | HudEvent.updateActor env actor dataHp =>
    match hud with
    | none => (none, [])
    | some cards =>
      (some (updateActorHandler env cards actor dataHp).cards,
        (updateActorHandler env cards actor dataHp).indicators)
  | HudEvent.pollerTick env => pollerTick env hud

/-- A sequence of events on the HUD: the cards afterwards and all the indicators
made, in order. -/
def hudRun (hud : Option (List PlayerCard)) :
    List HudEvent → Option (List PlayerCard) × List (String × Indicator)
  | [] => (hud, [])
  | ev :: evs =>
    let r := hudStep hud ev
    let rest := hudRun r.1 evs
    (rest.1, r.2 ++ rest.2)

/-- The number of death-save overlays of a card. -/
def PlayerCard.overlayCount (c : PlayerCard) : Nat :=
  c.children.countP CardChild.isDeathSaveOverlay

/-- An event in which the participant `uid` has the hit points `hp`: an update
of the participant's actor that reads them, or a tick in which the participant,
if active, has them. -/
def HudEvent.seesHp (uid : String) (hp : Int) : HudEvent → Prop
  | HudEvent.updateActor env actor dataHp =>
    ∀ user, userOfActor env actor = some user → user.id = uid →
      dataHp.orElse actor.hp = HpValue.num hp
  | HudEvent.pollerTick env =>
    ∀ p ∈ activePlayers env, p.1.id = uid → p.2.hp = HpValue.num hp

/-- A character with the given hit points, no death-save data and no effects. -/
def sampleActor (hp : Int) : Actor :=
  { id := "actor1", hp := HpValue.num hp, death := none, effects := [], sheet := "Aria" }

/-- The active user `user1`, whose character is `sampleActor hp`. -/
def sampleUser (hp : Int) : User :=
  { id := "user1", active := true, character := some (sampleActor hp), isGM := false,
    color := "#ff0000" }

/-- The settings as registered: no file is set for any effect. -/
def defaultSettings : HudSettings :=
  { jb2aDamage := "", jb2aHeal := "", conditionFiles := [] }

/-- An observer window in which `user1` has the given hit points, with or
without JB2A, and with the default settings. -/
def sampleEnv (hasJB2A : Bool) (hp : Int) : HudEnv :=
  { isObserver := true, hasJB2A := hasJB2A, settings := defaultSettings,
    users := [sampleUser hp] }

/-- The card the template renders for `user1` with the given hit points. -/
def sampleCard (hp : Int) : PlayerCard :=
  buildPlayerCard (sampleUser hp) (sampleActor hp)

/-- What the `updateActor` handler does to the card it found, for the hit points
`newHP` it read and the hit points `oldHP` the card showed: the text, the
indicator, the death-save step, the condition visuals. -/
def handlerCard (env : HudEnv) (actor : Actor) (newHP : HpValue) (oldHP : Int)
    (c : PlayerCard) : PlayerCard :=
  applyConditionEffects env actor
    (PlayerCard.deathSaveStep (newHP == HpValue.num 0) actor.death
      (healthCheck env newHP.toNumber oldHP
        { c with hpText := c.hpText.map (fun _ => newHP.text) }).1)

/-- What the poller does to the card it has put in place of another that showed
`oldHP`. -/
def pollerCard (env : HudEnv) (actor : Actor) (oldHP : Int) (c : PlayerCard) : PlayerCard :=
  applyConditionEffects env actor
    (PlayerCard.deathSaveStep (c.shownHP == 0) actor.death
      (healthCheck env (some c.shownHP) oldHP c).1)

/-- The death-save overlay of a card follows the hit points `n` of a participant
with the death-save data `death`: none unless `n` is zero, exactly one when `n`
is zero and there is death-save data. -/
def PlayerCard.overlayFollows (n : Int) (death : Option DeathData) (c : PlayerCard) : Prop :=
  (n ≠ 0 → c.overlayCount = 0) ∧ (n = 0 → death.isSome = true → c.overlayCount = 1)

/-- An event that updates the card `card` of the participant `uid`, whose hit
points are `n` and whose death-save data is `death`: a call of the `updateActor`
hook in an observer window for the actor of the user `uid`, which reads these
hit points; or a tick of the poller in which the user `uid` is active with such
a character, and the card is not what the template renders, so that the tick
replaces it. -/
def HudEvent.updatesCard (uid : String) (card : PlayerCard) (n : Int)
    (death : Option DeathData) : HudEvent → Prop
  | HudEvent.updateActor env actor dataHp =>
    env.isObserver = true ∧ (∃ user, userOfActor env actor = some user ∧ user.id = uid) ∧
      dataHp.orElse actor.hp = HpValue.num n ∧ actor.death = death
  | HudEvent.pollerTick env =>
    (∃ p ∈ activePlayers env, p.1.id = uid) ∧
      ∀ p ∈ activePlayers env, p.1.id = uid →
        p.2.hp = HpValue.num n ∧ p.2.death = death ∧ card ≠ buildPlayerCard p.1 p.2

/-- The character of `user1` at zero hit points, with one success and two
failures on its death saves. -/
def downedActor : Actor :=
  { id := "actor1", hp := HpValue.num 0,
    death := some { success := JSNum.fin 1, failure := JSNum.fin 2 },
    effects := [], sheet := "Aria" }

/-- The active user `user1` with the character `downedActor`. -/
def downedUser : User :=
  { id := "user1", active := true, character := some downedActor, isGM := false,
    color := "#ff0000" }

/-- An observer window without JB2A in which `user1` has the character
`downedActor`. -/
def downedEnv : HudEnv :=
  { isObserver := true, hasJB2A := false, settings := defaultSettings, users := [downedUser] }

/-- Every card of the participant `uid` shows the hit points `hp`. -/
def showsHp (uid : String) (hp : Int) (cards : List PlayerCard) : Prop :=
  ∀ c ∈ cards, hasUserId uid c = true → c.shownHP = hp

/-- Whether an indicator shows damage or healing. -/
def Indicator.kind : Indicator → HealthChange
  | Indicator.flash k => k
  | Indicator.video k _ => k

/-- A card left behind by `user2`, who is not among the users of `sampleEnv`. -/
def strayCard : PlayerCard :=
  { sampleCard 3 with userId := some "user2" }

/-- A pan that is pushed, then three triggers that are dropped: two inside the
throttle window and one on a canvas that is not ready. -/
def sampleDropped : List Trigger :=
  [{ hook := SendHook.canvasPan, now := 1000, canvas := sampleCanvas },
   { hook := SendHook.canvasZoom, now := 1020, canvas := sampleCanvas },
   { hook := SendHook.canvasPan, now := 1040, canvas := unreadyCanvas },
   { hook := SendHook.canvasPan, now := 1049, canvas := sampleCanvas }]

/-- A trigger 50 ms after the pan of `sampleDropped`, 1 ms after its last
trigger. -/
def lateTrigger : Trigger :=
  { hook := SendHook.canvasZoom, now := 1050, canvas := sampleCanvas }

/-! ## Colours (`hexToRgba` of `playerHud.js`) -/

/-- The Number value of a natural number: itself below `2^53`; from there on
the nearest number with 53 significant bits, the even one of two that are
equally near; `none`, which is `Infinity`, when that is `2^1024` or more. -/
def roundToDouble (n : Nat) : Option Nat :=
  if n < 2 ^ 53 then some n
  else
    let e := Nat.log2 n - 52
    let q := n / 2 ^ e
    let r := n % 2 ^ e
    let up := decide (2 ^ e < 2 * r) || (decide (2 * r = 2 ^ e) && q % 2 == 1)
    let m := (if up then q + 1 else q) * 2 ^ e
    if m < 2 ^ 1024 then some m else none

/-- `parseInt(s, 16)`, as the integer the digits spell, before it is made a
Number; `none` is `NaN`. White space and a sign are skipped, then a prefix `0x`
or `0X`; the digits read are the longest run of hexadecimal digits. -/
def parseIntHex (s : String) : Option Int :=
  let signed := stripSign (s.toList.dropWhile isStrWhiteSpace)
  let body := (stripHexPrefix signed.2).2
  match body with
  | [] => none
  | c :: cs =>
    if (digitValue 16 c).isSome then
      some (if signed.1 then -(parseDigits 16 0 (c :: cs) : Int)
            else parseDigits 16 0 (c :: cs))
    else none

/-- The Number `parseInt` returns for the integer the digits spell; `none` is an
infinity. -/
def numberOfInt (n : Int) : Option Int :=
  (roundToDouble n.natAbs).map (fun m => if n < 0 then -(m : Int) else (m : Int))

/-- `ToInt32` of a Number that holds an integer or is an infinity: zero for an
infinity, else the integer modulo `2^32`, taken from `-2^31` up. -/
def toInt32 : Option Int → Int
  | none => 0
  | some n =>
    if n % 4294967296 ≥ 2147483648 then n % 4294967296 - 4294967296 else n % 4294967296

/-- The 32 bits of an int32 in two's complement, as a natural number. -/
def bits32 (x : Int) : Nat :=
  (x % 4294967296).toNat

/-- `a & b` on int32 values: the bits both have. -/
def bitAnd32 (a b : Int) : Int :=
  toInt32 (some ((bits32 a &&& bits32 b : Nat) : Int))

/-- `a >> k` on an int32: the shift that keeps the sign. -/
def shiftRight32 (a : Int) (k : Nat) : Int :=
  a >>> k

/-- `hexToRgba(hex, alpha)`; `alpha` is the text the template literal prints for
the second argument. -/
def hexToRgba (hex : JSVal) (alpha : String) : String :=
  match hex with
  | string s =>
    if s.toList.head? = some '#' then
      match parseIntHex (String.mk (s.toList.drop 1)) with
      | none => "rgba(255,255,255," ++ alpha ++ ")"
      | some n =>
        let bigint := toInt32 (numberOfInt n)
        let r := bitAnd32 (shiftRight32 bigint 16) 255
        let g := bitAnd32 (shiftRight32 bigint 8) 255
        let b := bitAnd32 bigint 255
        "rgba(" ++ intToString r ++ ", " ++ intToString g ++ ", " ++ intToString b ++ ", "
          ++ alpha ++ ")"
    else "rgba(255,255,255," ++ alpha ++ ")"
  | _ => "rgba(255,255,255," ++ alpha ++ ")"

/-! ### Condition visuals, as the specification words them -/

/-- A condition visual on a card: the looping video of a condition, or an icon
in the `.conditions` container. -/
inductive ConditionVisual where
  | video (src condition : String)
  | icon (src : String)
  deriving DecidableEq

/-- The condition visuals a child of a card holds. -/
def CardChild.visuals : CardChild → List ConditionVisual
  | CardChild.conditionVideo src condition => [ConditionVisual.video src condition]
  | CardChild.conditions icons => icons.map ConditionVisual.icon
  | _ => []

/-- The condition visuals a card holds, in the order of the document. -/
def PlayerCard.conditionVisuals (c : PlayerCard) : List ConditionVisual :=
  (c.children.map CardChild.visuals).flatten

/-- The visual the specification gives an effect: none without a key; with the
key, the video of the path registered under "jb2a" and the capitalised key when
JB2A is active and that path is not empty, else the icon of the effect, or the
default icon. -/
def expectedVisual (env : HudEnv) (e : ActiveEffect) : Option ConditionVisual :=
  match conditionKey e with
  | none => none
  | some key =>
    match env.settings.conditionFiles.lookup ("jb2a" ++ key.capitalize) with
    | some path =>
      if env.hasJB2A = true ∧ path ≠ "" then some (ConditionVisual.video path key)
      else some (ConditionVisual.icon ((e.icon.filter (fun src => src != "")).getD
        "icons/svg/status.svg"))
    | none =>
      some (ConditionVisual.icon ((e.icon.filter (fun src => src != "")).getD
        "icons/svg/status.svg"))

/-- An actor with the effects: blinded (enabled, with an icon), prone (enabled,
no icon), poisoned (disabled), and an enabled effect without a key. -/
def afflictedActor : Actor :=
  { id := "actor1", hp := HpValue.num 5, death := none, sheet := "Aria",
    effects := [
      { disabled := false, statuses := ["blinded"], label := some "Blinded",
        icon := some "icons/blind.svg" },
      { disabled := false, statuses := ["prone"], label := some "Prone", icon := none },
      { disabled := true, statuses := ["poisoned"], label := none, icon := none },
      { disabled := false, statuses := [], label := none, icon := some "icons/x.svg" }] }

/-- An observer window with JB2A active and a video registered for `blinded`,
none for `prone`. -/
def jb2aEnv : HudEnv :=
  { isObserver := true, hasJB2A := true,
    settings := { jb2aDamage := "", jb2aHeal := "",
                  conditionFiles := [("jb2aBlinded", "jb2a/blind.webm"), ("jb2aProne", "")] },
    users := [] }

/-- The `updateUser` handler, called with `user`, on the `.player-card` elements
of `#player-hud` (`none` when the document has no such element): the cards
afterwards. The element `existing` is the first card with the user's id. -/
def updateUserHandler (env : HudEnv) (hud : Option (List PlayerCard)) (user : User) :
    Option (List PlayerCard) :=
  if !env.isObserver then hud
  else
    match hud with
    | none => none
    | some cards =>
      let existing := cards.find? (hasUserId user.id)
      if existing.any (fun c => c.gmCard) then some cards
      else
        match user.active, user.character with
        | true, some actor =>
          match existing with
          | some _ =>
            some (modifyFirst (hasUserId user.id) (fun _ => buildPlayerCard user actor) cards)
          | none => some (cards ++ [buildPlayerCard user actor])
        | _, _ =>
          match existing with
          | some _ => some (cards.eraseP (hasUserId user.id))
          | none => some cards

/-- The user `user2`, active, with a character of 12 hit points. -/
def secondUser : User :=
  { id := "user2", active := true,
    character := some { id := "actor2", hp := HpValue.num 12, death := none, effects := [],
                        sheet := "Borin" },
    isGM := false, color := "#00ff00" }

/-! ## The chat message hooks (`rolls.js`, `playerHud.js`) -/

/-- The callback `registerRollOverlayHook` registers on `createChatMessage`:
the arguments it calls `queueRollOverlay` with, `none` when it returns without
the call, or the error it throws. `msg.rolls` is an array, an object with
`length` and the indices as keys. -/
def rollOverlayHook (isObserver : Bool) (msg : JSVal) :
    Except JSError (Option (JSVal × JSVal × JSVal)) :=
  if !isObserver then Except.ok none
  else
    match msg.readProp "isRoll" with
    | Except.error e => Except.error e
    | Except.ok isRoll =>
      if !isRoll.truthy || !((msg.prop "rolls").prop "length").truthy then Except.ok none
      else
        let roll := (msg.prop "rolls").prop "0"
        let userName := ((msg.prop "user").prop "name").orElse (string "Unknown")
        match roll.readProp "total" with
        | Except.error e => Except.error e
        | Except.ok total =>
          Except.ok (some (userName, total, (msg.prop "flavor").orElse (string "")))

/-- What the roll hook does to the queue. -/
def rollOverlayHookRun (s : QueueState) (isObserver : Bool) (msg : JSVal) : QueueState :=
  match rollOverlayHook isObserver msg with
  | Except.ok (some args) => queueRollOverlay s args.1 args.2.1 args.2.2
  | _ => s

/-- What the chat bubble hook reads of the host: whether the window is the
observer's, `game.users`, the `.player-card` elements of the document, the
`data-user-id` of its `.bubble-container` elements, the text content the browser
gives a `div` whose `innerHTML` was set to a markup, and the setting
`chatBubbleDuration`. -/
structure ChatDocument where
  isObserver : Bool
  users : List User
  cards : List PlayerCard
  containers : List String
  htmlText : String → String
  bubbleDuration : JSVal

/-- The `.speech-bubble` element the hook creates: its text, the user whose
container it is for, whether there was such a container to append it to, and
the seconds after which it fades. -/
structure Bubble where
  text : String
  userId : String
  appended : Bool
  seconds : JSVal

/-- `s.trim()`. -/
def jsTrim (s : String) : String :=
  String.mk (((s.toList.dropWhile isStrWhiteSpace).reverse.dropWhile isStrWhiteSpace).reverse)

/-- `msg.author?.id ?? msg.user?._id ?? null`. -/
def messageUserId (msg : JSVal) : JSVal :=
  (((msg.prop "author").prop "id").orElse ((msg.prop "user").prop "_id")).orElse null

/-- `uid ? game.users.get(uid) : null`; the keys of `game.users` are strings. -/
def resolveUser (users : List User) (uid : JSVal) : Option User :=
  if uid.truthy then
    match uid with
    | string s => users.find? (fun u => u.id == s)
    | _ => none
  else none

/-- Lines 279 to 289 of the hook: the text of the message, trimmed; a value that
is no string has no `trim` to call. -/
def messageText (doc : ChatDocument) (msg : JSVal) : Except JSError String :=
  let content := msg.prop "content"
  let text : JSVal :=
    match content with
    | string s => string (doc.htmlText s)
    | _ =>
      if (content.prop "textContent").truthy then content.prop "textContent"
      else if (msg.prop "alias").truthy then msg.prop "alias" else string ""
  match text.orElse (string "") with
  | string s => Except.ok (jsTrim s)
  | _ => Except.error JSError.typeError

/-- Lines 294 to 298 of the hook: the card of the user; for a GM without one,
the GM card with the user's id, or else any GM card. -/
def bubbleCard (doc : ChatDocument) (user : User) : Option PlayerCard :=
  match doc.cards.find? (hasUserId user.id) with
  | some card => some card
  | none =>
    if user.isGM then
      (doc.cards.find? (fun c => c.gmCard && hasUserId user.id c)).orElse
        (fun _ => doc.cards.find? (fun c => c.gmCard))
    else none

/-- Lines 263 to 326 of the hook, for a message that is no roll. -/
def chatBubble (doc : ChatDocument) (msg : JSVal) : Except JSError (Option Bubble) :=
  if ((msg.prop "flags").prop "narrator-tools").truthy
      || (((msg.prop "flags").prop "core").prop "narratorTools").truthy then Except.ok none
  else
    match resolveUser doc.users (messageUserId msg) with
    | none => Except.ok none
    | some user =>
      match messageText doc msg with
      | Except.error e => Except.error e
      | Except.ok text =>
        if text == "" then Except.ok none
        else
          match bubbleCard doc user with
          | none => Except.ok none
          | some _ =>
            Except.ok (some
              { text := text, userId := user.id,
                appended := doc.containers.contains user.id,
                seconds := if doc.bubbleDuration.truthy then doc.bubbleDuration else int 10 })

/-- The callback `playerHud.js` registers on `createChatMessage`: the bubble it
creates, `none` when it returns without one, or the error it throws. -/
def chatBubbleHook (doc : ChatDocument) (msg : JSVal) : Except JSError (Option Bubble) :=
  if !doc.isObserver then Except.ok none
  else
    match msg.readProp "isRoll" with
    | Except.error e => Except.error e
    | Except.ok isRoll => if isRoll.truthy then Except.ok none else chatBubble doc msg

/-- An observer's document with the card and the bubble container of `user1`. -/
def sampleChat : ChatDocument :=
  { isObserver := true, users := [sampleUser 10], cards := [sampleCard 10],
    containers := ["user1"], htmlText := fun s => s, bubbleDuration := undefined }

/-- A roll message of Ann: one roll with the total 17, no flavor. -/
def rollMessage : JSVal :=
  object [("isRoll", bool true),
    ("rolls", object [("length", int 1), ("0", object [("total", int 17)])]),
    ("user", object [("name", string "Ann"), ("_id", string "user1")]),
    ("content", string "17")]

/-- A chat message of `user1`. -/
def talkMessage : JSVal :=
  object [("isRoll", bool false),
    ("rolls", object [("length", int 0)]),
    ("author", object [("id", string "user1")]),
    ("content", string "  Hello there ")]

/-! ## The GM card -/

/-- Modelled from the spec: the template `templates/gm-card.hbs`, which is not
among the sources. From the selectors the code uses on its output
(`.player-card.gm-card[data-user-id="…"]`, `classList.contains("gm-card")` on a
`.player-card` found by its `data-user-id`) and from the `gmUserId` that
`renderGMCard` hands it: it renders one `.player-card` element with the class
`gm-card` that carries the GM's user id in `data-user-id`, with no hit points
element. -/
def renderGMCardElement (gmUserId : Option String) (markup : String) : PlayerCard :=
  { userId := gmUserId, gmCard := true, hpText := none, body := markup,
    flashDamage := false, flashHeal := false, children := [] }

/-- A character of 20 hit points. -/
def gmActor : Actor :=
  { id := "actor9", hp := HpValue.num 20, death := none, effects := [], sheet := "Zed" }

/-- A GM who is active and has the assigned character `gmActor`. -/
def playingGM : User :=
  { id := "gm1", active := true, character := some gmActor, isGM := true, color := "#0000ff" }

/-- An observer window whose users are `playingGM` and `user1` at 10 hit
points. -/
def gmPlaysEnv : HudEnv :=
  { isObserver := true, hasJB2A := false, settings := defaultSettings,
    users := [playingGM, sampleUser 10] }

/-- The GM card of `playingGM`. -/
def sampleGMCard : PlayerCard :=
  renderGMCardElement (some "gm1") "Game Master"

/-! ## Properties of the snapshot -/

/-- A plain read of a truthy value does not throw. -/
theorem readProp_of_truthy {v : JSVal} (h : v.truthy = true) (k : String) :
    v.readProp k = Except.ok (v.prop k) := by
  cases v <;> simp_all [JSVal.readProp, JSVal.truthy, JSVal.isNullish]

/-- Only an object has a truthy property. -/
theorem truthy_of_prop_truthy {v : JSVal} {k : String} (h : (v.prop k).truthy = true) :
    v.truthy = true := by
  cases v <;> simp_all [JSVal.prop, JSVal.truthy]

/-- A plain read of a value one of whose properties is truthy does not throw. -/
theorem readProp_of_prop_truthy {v : JSVal} {j : String} (h : (v.prop j).truthy = true)
    (k : String) : v.readProp k = Except.ok (v.prop k) :=
  readProp_of_truthy (truthy_of_prop_truthy h) k

/-- The preferred source never throws on an existing canvas and yields source (1). -/
theorem viewPositionSnapshot_eq (canvas : JSVal) (hc : canvas.truthy = true) :
    viewPositionSnapshot canvas (((canvas.prop "scene").prop "id").orElse null)
      = Except.ok (sourceViewPosition canvas) := by
  unfold viewPositionSnapshot sourceViewPosition
  by_cases hvp : ((canvas.prop "scene").prop "_viewPosition").truthy = true
  swap
  · simp [hvp, pure, Except.pure]
  by_cases hx : (((canvas.prop "scene").prop "_viewPosition").prop "x").isNumber = true <;>
  by_cases hy : (((canvas.prop "scene").prop "_viewPosition").prop "y").isNumber = true <;>
  by_cases hs : (((canvas.prop "scene").prop "_viewPosition").prop "scale").isNullish = true <;>
  simp [hvp, hx, hy, hs, readProp_of_truthy hc, readProp_of_truthy hvp, JSVal.orElse, bind,
    Except.bind, pure, Except.pure]

/-- The fallback source never throws and yields source (2). -/
theorem cameraCenterSnapshot_eq (canvas : JSVal) :
    cameraCenterSnapshot canvas (((canvas.prop "scene").prop "id").orElse null)
      = Except.ok (sourceCameraCenter canvas) := by
  unfold cameraCenterSnapshot sourceCameraCenter
  by_cases hce : ((canvas.prop "camera").prop "center").truthy = true
  swap
  · simp [hce, pure, Except.pure]
  by_cases hx : (((canvas.prop "camera").prop "center").prop "x").isNumber = true <;>
  by_cases hy : (((canvas.prop "camera").prop "center").prop "y").isNumber = true <;>
  simp [hce, hx, hy, readProp_of_truthy hce, bind, Except.bind, pure, Except.pure]

/-- The last resort never throws and yields source (3). -/
theorem stageTransformSnapshot_eq (canvas : JSVal) :
    stageTransformSnapshot canvas (((canvas.prop "scene").prop "id").orElse null)
      = Except.ok (sourceStagePivot canvas) := by
  unfold stageTransformSnapshot sourceStagePivot
  by_cases hp : ((canvas.prop "stage").prop "pivot").truthy = true
  swap
  · simp [hp, pure, Except.pure]
  by_cases hx : (((canvas.prop "stage").prop "pivot").prop "x").isNumber = true <;>
  simp [hp, hx, readProp_of_truthy hp, readProp_of_prop_truthy hp, bind, Except.bind, pure,
    Except.pure]

/-- `_getViewSnapshot` never throws, and returns the pose of the first source
that resolves on a ready canvas, `null` otherwise. -/
theorem getViewSnapshot_eq (canvas : JSVal) :
    _getViewSnapshot canvas = Except.ok (firstResolvedSource canvas) := by
  unfold _getViewSnapshot firstResolvedSource canvasReady
  by_cases hc : canvas.truthy = true
  swap
  · simp [hc, pure, Except.pure]
  by_cases hr : (canvas.prop "ready").truthy = true
  swap
  · simp [hc, hr, readProp_of_truthy hc, bind, Except.bind, pure, Except.pure]
  simp only [hc, hr, readProp_of_truthy hc, viewPositionSnapshot_eq canvas hc,
    cameraCenterSnapshot_eq, stageTransformSnapshot_eq, bind, Except.bind, pure, Except.pure]
  cases sourceViewPosition canvas <;> cases sourceCameraCenter canvas <;>
    cases sourceStagePivot canvas <;> simp

/-- The snapshot of `sampleCanvas`. -/
theorem getViewSnapshot_sampleCanvas :
    _getViewSnapshot sampleCanvas = Except.ok (some sampleSnapshot) := by
  rfl

/-! ## Properties of the broadcaster -/

/-- One run of `send` never throws; it either changes nothing and calls nothing,
or makes one broadcast of the snapshot just taken, at a clock reading at least
50 ms past `lastSent`, which it records. -/
theorem send_cases (lastSent : Int) (canvas : JSVal) (now : Int) :
    send lastSent canvas now = Except.ok (lastSent, []) ∨
    (∃ snap, _getViewSnapshot canvas = Except.ok (some snap) ∧ lastSent + 50 ≤ now ∧
      send lastSent canvas now
        = Except.ok (now, [SocketCall.executeForOthers "applyCamera" snap])) := by
  simp only [send, getViewSnapshot_eq, bind, Except.bind, pure, Except.pure]
  cases firstResolvedSource canvas with
  | none => exact Or.inl rfl
  | some snap =>
    by_cases hlt : now - lastSent < THROTTLE_MS
    · left; simp [hlt]
    · right
      refine ⟨snap, rfl, ?_, by simp [hlt]⟩
      unfold THROTTLE_MS at hlt
      omega

/-- Every push of a run is made at least 50 ms after the `lastSent` the run
started from. -/
theorem broadcast_time_ge (ts : List Trigger) :
    ∀ lastSent : Int, ∀ p ∈ (broadcast lastSent ts).2, lastSent + 50 ≤ p.time := by
  induction ts with
  | nil => intro lastSent p hp; simp [broadcast] at hp
  | cons t ts ih =>
    intro lastSent p hp
    rcases send_cases lastSent t.canvas t.now with h | ⟨snap, -, hge, h⟩
    · simp only [broadcast, h, List.map_nil, List.nil_append] at hp
      exact ih lastSent p hp
    · simp only [broadcast, h, List.map_cons, List.map_nil, List.singleton_append,
        List.mem_cons] at hp
      rcases hp with rfl | hp
      · exact hge
      · have := ih t.now p hp
        omega

/-- Successive pushes of a run are at least 50 ms apart, whatever the clock
readings of the triggers are. -/
theorem broadcast_pairwise (ts : List Trigger) :
    ∀ lastSent : Int,
      (broadcast lastSent ts).2.Pairwise (fun p q => p.time + 50 ≤ q.time) := by
  induction ts with
  | nil => intro lastSent; simp [broadcast]
  | cons t ts ih =>
    intro lastSent
    rcases send_cases lastSent t.canvas t.now with h | ⟨snap, -, -, h⟩
    · simp only [broadcast, h, List.map_nil, List.nil_append]
      exact ih lastSent
    · simp only [broadcast, h, List.map_cons, List.map_nil, List.singleton_append,
        List.pairwise_cons]
      exact ⟨fun q hq => broadcast_time_ge ts t.now q hq, ih t.now⟩

/-- Every push of a run is made by one of its triggers, at that trigger's clock
reading. -/
theorem broadcast_time_mem (ts : List Trigger) :
    ∀ lastSent : Int, ∀ p ∈ (broadcast lastSent ts).2, ∃ t ∈ ts, t.now = p.time := by
  induction ts with
  | nil => intro lastSent p hp; simp [broadcast] at hp
  | cons t ts ih =>
    intro lastSent p hp
    rcases send_cases lastSent t.canvas t.now with h | ⟨snap, -, -, h⟩
    · simp only [broadcast, h, List.map_nil, List.nil_append] at hp
      obtain ⟨u, hu, hup⟩ := ih lastSent p hp
      exact ⟨u, List.mem_cons_of_mem _ hu, hup⟩
    · simp only [broadcast, h, List.map_cons, List.map_nil, List.singleton_append,
        List.mem_cons] at hp
      rcases hp with rfl | hp
      · exact ⟨t, List.mem_cons_self _ _, rfl⟩
      · obtain ⟨u, hu, hup⟩ := ih t.now p hp
        exact ⟨u, List.mem_cons_of_mem _ hu, hup⟩

/-- A list whose members are pairwise at least 50 apart has at most one member
in a window shorter than 50. -/
theorem window_length_le_one (ps : List Push) (w : Int)
    (hp : ps.Pairwise (fun p q => p.time + 50 ≤ q.time))
    (hw : ∀ p ∈ ps, w ≤ p.time ∧ p.time < w + 50) : ps.length ≤ 1 := by
  match ps, hp, hw with
  | [], _, _ => simp
  | [_], _, _ => simp
  | a :: b :: rest, hp, hw =>
    exfalso
    have hab : a.time + 50 ≤ b.time := (List.pairwise_cons.1 hp).1 b (List.mem_cons_self _ _)
    have ha := hw a (List.mem_cons_self _ _)
    have hb := hw b (List.mem_cons_of_mem _ (List.mem_cons_self _ _))
    omega

/-- From any `lastSent`: when the first trigger comes at least 50 ms after
`lastSent`, each later one more than 50 ms after the one before, and a snapshot
resolves at each, every trigger makes its own push. -/
theorem broadcast_spaced (ts : List Trigger) :
    ∀ lastSent : Int,
      (∀ t ∈ ts.head?, lastSent + 50 ≤ t.now) →
      ts.Chain' (fun a b => a.now + 50 < b.now) →
      (∀ t ∈ ts, ∃ snap, _getViewSnapshot t.canvas = Except.ok (some snap)) →
      (broadcast lastSent ts).2.map some = ts.map pushOf := by
  induction ts with
  | nil => intro lastSent _ _ _; simp [broadcast]
  | cons t ts ih =>
    intro lastSent hfirst hgap hsnap
    have hge : lastSent + 50 ≤ t.now := hfirst t (by simp)
    obtain ⟨snap, hs⟩ := hsnap t (List.mem_cons_self _ _)
    have hsend : send lastSent t.canvas t.now
        = Except.ok (t.now, [SocketCall.executeForOthers "applyCamera" snap]) := by
      have : ¬ (t.now - lastSent < THROTTLE_MS) := by unfold THROTTLE_MS; omega
      simp [send, hs, this, bind, Except.bind, pure, Except.pure]
    have htail := ih t.now
      (by
        intro u hu
        cases ts with
        | nil => simp at hu
        | cons v vs =>
          simp only [List.head?_cons, Option.mem_def, Option.some.injEq] at hu
          subst hu
          have := (List.chain'_cons.1 hgap).1
          omega)
      (List.Chain'.tail hgap)
      (fun u hu => hsnap u (List.mem_cons_of_mem _ hu))
    simp only [List.tail_cons] at htail
    simp [broadcast, hsend, htail, pushOf, hs]

/-- C1: in the broadcaster of `_startGMBroadcast`, on every sequence of send
triggers (pan, zoom and delayed canvasReady sends, sharing one `lastSent`) at
non-decreasing clock readings, any two pushes are at least 50 ms apart: a later
push comes at least 50 ms after an earlier one. So the pushes whose time falls
in one window shorter than 50 ms are at most one, and when all triggers fall in
such a window the whole run makes at most one push. (The proof does not need the
clock to be non-decreasing.) -/
theorem C1_pushes_at_least_50ms_apart (ts : List Trigger)
    (_hclock : ts.Pairwise (fun a b => a.now ≤ b.now)) :
    (_startGMBroadcast ts).Pairwise (fun p q => p.time + 50 ≤ q.time) ∧
    (∀ w : Int, ((_startGMBroadcast ts).filter
        (fun p => decide (w ≤ p.time ∧ p.time < w + 50))).length ≤ 1) ∧
    (∀ w : Int, (∀ t ∈ ts, w ≤ t.now ∧ t.now < w + 50) →
        (_startGMBroadcast ts).length ≤ 1) := by
  have hpw := broadcast_pairwise ts 0
  refine ⟨hpw, ?_, ?_⟩
  · intro w
    apply window_length_le_one _ w (hpw.sublist (List.filter_sublist _))
    intro p hp
    simpa using (List.mem_filter.1 hp).2
  · intro w hw
    apply window_length_le_one _ w hpw
    intro p hp
    obtain ⟨t, ht, htp⟩ := broadcast_time_mem ts 0 p hp
    rw [← htp]
    exact hw t ht

/-- C1, witness: the burst `sampleBurst` has non-decreasing clock readings. -/
theorem C1_pushes_at_least_50ms_apart_witness :
    sampleBurst.Pairwise (fun a b => a.now ≤ b.now) ∧
    (_startGMBroadcast sampleBurst).Pairwise (fun p q => p.time + 50 ≤ q.time) ∧
    ((_startGMBroadcast sampleBurst).filter
        (fun p => decide ((1000 : Int) ≤ p.time ∧ p.time < 1000 + 50))).length ≤ 1 :=
  have h : sampleBurst.Pairwise (fun a b => a.now ≤ b.now) := by simp [sampleBurst]
  ⟨h, (C1_pushes_at_least_50ms_apart sampleBurst h).1,
    (C1_pushes_at_least_50ms_apart sampleBurst h).2.1 1000⟩

/-- C2, counterexample: a single pan trigger at clock reading 10, on a canvas
whose snapshot resolves, makes no push, because `10 - lastSent = 10 - 0 < 50`. -/
theorem C2_first_trigger_before_50_counterexample :
    _getViewSnapshot sampleCanvas = Except.ok (some sampleSnapshot) ∧
    [({ hook := SendHook.canvasPan, now := 10, canvas := sampleCanvas } : Trigger)].Chain'
      (fun a b => a.now + 50 < b.now) ∧
    (_startGMBroadcast [{ hook := SendHook.canvasPan, now := 10, canvas := sampleCanvas }]).length
      = 0 := by
  refine ⟨rfl, by simp, ?_⟩
  simp [_startGMBroadcast, broadcast, send, getViewSnapshot_sampleCanvas, THROTTLE_MS, bind,
    Except.bind, pure, Except.pure]

/-- C2, amended: from the initial state (`lastSent = 0`), on every sequence of
send triggers whose first clock reading is at least 50, in which each trigger
comes more than 50 ms after the one before and a snapshot resolves at each
trigger, every trigger makes exactly one push, carrying the snapshot taken at
that trigger: the pushes are, in order, one per trigger. -/
theorem C2_spaced_triggers_each_push (ts : List Trigger)
    (hfirst : ∀ t ∈ ts.head?, 50 ≤ t.now)
    (hgap : ts.Chain' (fun a b => a.now + 50 < b.now))
    (hsnap : ∀ t ∈ ts, ∃ snap, _getViewSnapshot t.canvas = Except.ok (some snap)) :
    (_startGMBroadcast ts).map some = ts.map pushOf ∧
    (_startGMBroadcast ts).length = ts.length := by
  have h := broadcast_spaced ts 0 (by simpa using hfirst) hgap hsnap
  refine ⟨h, ?_⟩
  have := congrArg List.length h
  simpa using this

/-- C2, witness: the three spaced triggers of `sampleSpaced` make three pushes. -/
theorem C2_spaced_triggers_each_push_witness :
    (_startGMBroadcast sampleSpaced).map some = sampleSpaced.map pushOf ∧
    (_startGMBroadcast sampleSpaced).length = 3 :=
  C2_spaced_triggers_each_push sampleSpaced
    (by simp [sampleSpaced])
    (by simp [sampleSpaced])
    (by
      intro t ht
      simp only [sampleSpaced, List.mem_cons, List.mem_singleton, List.not_mem_nil,
        or_false] at ht
      rcases ht with rfl | rfl | rfl
      · exact ⟨_, rfl⟩
      · exact ⟨_, rfl⟩
      · exact ⟨_, rfl⟩)

/-! ## Properties of the follower -/

/-- C3: for every received message and every local state, when the
`cameraFollow` setting is disabled (its value is falsy) `_applyCamera` never
calls `canvas.animatePan`: the run has no effect at all and returns. -/
theorem C3_follow_disabled_no_animatePan (w : Window) (msg : JSVal)
    (hoff : w.cameraFollow.truthy = false) :
    (_applyCamera w msg).panCalls = [] ∧ (_applyCamera w msg).effects = [] ∧
    (_applyCamera w msg).completion = Completion.returned := by
  unfold _applyCamera Run.panCalls
  by_cases hobs : w.isObserver <;> simp [hobs, hoff]

/-- C3, witness: an observer showing `sampleCanvas` with follow switched off. -/
theorem C3_follow_disabled_witness :
    (_applyCamera { sampleObserver with cameraFollow := bool false }
        (samplePose (string "sceneA"))).panCalls = [] ∧
    (_applyCamera { sampleObserver with cameraFollow := bool false }
        (samplePose (string "sceneA"))).effects = [] ∧
    (_applyCamera { sampleObserver with cameraFollow := bool false }
        (samplePose (string "sceneA"))).completion = Completion.returned :=
  C3_follow_disabled_no_animatePan _ _ rfl

/-- A value with a truthy or numeric property is an object, so it is truthy and
a plain read of it does not throw. -/
theorem readProp_of_prop_isNumber {v : JSVal} {j : String} (h : (v.prop j).isNumber = true)
    (k : String) : v.truthy = true ∧ v.readProp k = Except.ok (v.prop k) := by
  cases v <;> simp_all [JSVal.prop, JSVal.truthy, JSVal.isNumber, JSVal.readProp,
    JSVal.isNullish]

/-- C4, counterexample: two poses whose `sceneId` differs from the follower's
scene id and that are applied all the same. First, the follower shows `sceneA`
and the pose carries `sceneId: null`. Second, the follower has no scene loaded
yet (`canvas.scene` is `null`) when a pose of `sceneB` arrives, and its canvas
becomes ready afterwards. -/
theorem C4_missing_scene_id_counterexample :
    ((samplePose null).prop "sceneId").strictEq sampleObserver.myScene = false ∧
    (_applyCamera sampleObserver (samplePose null)).panCalls
      = [Effect.animatePan (int 1) (int 2) (int 1) 200] ∧
    ((samplePose (string "sceneB")).prop "sceneId").strictEq startingObserver.myScene = false ∧
    (_applyCamera startingObserver (samplePose (string "sceneB"))).panCalls
      = [Effect.animatePan (int 1) (int 2) (int 1) 200] := by
  refine ⟨rfl, rfl, rfl, rfl⟩

/-- C4, amended: for every received pose and every local state, when
`msg.sceneId` and the follower's current scene id are both present (truthy) and
`msg.sceneId !== ` the follower's scene id, `_applyCamera` discards the pose:
`canvas.animatePan` is not called, the run has no effect and returns. -/
theorem C4_other_scene_discarded (w : Window) (msg : JSVal)
    (hmsg : (msg.prop "sceneId").truthy = true)
    (hmine : w.myScene.truthy = true)
    (hdiff : (msg.prop "sceneId").strictEq w.myScene = false) :
    (_applyCamera w msg).panCalls = [] ∧ (_applyCamera w msg).effects = [] ∧
    (_applyCamera w msg).completion = Completion.returned := by
  have hread := readProp_of_prop_truthy hmsg "sceneId"
  unfold _applyCamera Run.panCalls
  by_cases hobs : w.isObserver <;> by_cases hf : w.cameraFollow.truthy <;>
    simp [hobs, hf, hread, hmsg, hmine, hdiff]

/-- C4, witness: an observer showing `sceneA` receives a pose of `sceneB`. -/
theorem C4_other_scene_discarded_witness :
    (_applyCamera sampleObserver (samplePose (string "sceneB"))).panCalls = [] ∧
    (_applyCamera sampleObserver (samplePose (string "sceneB"))).effects = [] ∧
    (_applyCamera sampleObserver (samplePose (string "sceneB"))).completion
      = Completion.returned :=
  C4_other_scene_discarded sampleObserver (samplePose (string "sceneB")) rfl rfl rfl

/-- C5, at the failing input: in an observer window with follow enabled, the
message `null` (and likewise `undefined`) is not discarded silently. The read
`msg.sceneId` of line 174 throws a `TypeError` before the guard `msg || {}` of
line 177 is reached, so the handler's promise is rejected. -/
theorem C5_null_message_throws :
    (_applyCamera sampleObserver null).completion = Completion.threw ∧
    (_applyCamera sampleObserver undefined).completion = Completion.threw := by
  exact ⟨rfl, rfl⟩

/-- For every message other than `null` and `undefined`: when one of `msg.x`,
`msg.y`, `msg.scale` is not a number, `_applyCamera` does not call
`canvas.animatePan` and does not throw. -/
theorem applyCamera_non_numeric_discarded (w : Window) (msg : JSVal)
    (hmsg : msg.isNullish = false)
    (hbad : (msg.prop "x").isNumber = false ∨ (msg.prop "y").isNumber = false ∨
      (msg.prop "scale").isNumber = false) :
    (_applyCamera w msg).panCalls = [] ∧
    (_applyCamera w msg).completion ≠ Completion.threw := by
  have hread : msg.readProp "sceneId" = Except.ok (msg.prop "sceneId") := by
    simp [JSVal.readProp, hmsg]
  have htail : applyCameraWhenReady w msg = [] := by
    unfold applyCameraWhenReady
    by_cases ht : msg.truthy = true
    · rcases hbad with h | h | h <;> simp [ht, h]
    · simp [ht, JSVal.prop, JSVal.isNumber]
  unfold _applyCamera Run.panCalls
  by_cases hobs : w.isObserver <;> by_cases hf : w.cameraFollow.truthy <;>
    simp only [hobs, hf, hread, htail] <;> split_ifs <;> simp [Effect.isAnimatePan]

/-- C6: for every received pose with numeric `x`, `y` and `scale`, in an
observer window with `cameraFollow` enabled, the canvas ready and `msg.sceneId`
strictly equal to the local scene id, `_applyCamera` calls `canvas.animatePan`
exactly once, with exactly `{x: msg.x, y: msg.y, scale: msg.scale, duration: 200}`,
before anything else, and returns. -/
theorem C6_pose_applied_once (w : Window) (msg : JSVal)
    (hobs : w.isObserver = true)
    (hfollow : w.cameraFollow.truthy = true)
    (hready : (w.canvas.prop "ready").truthy = true)
    (hscene : (msg.prop "sceneId").strictEq w.myScene = true)
    (hx : (msg.prop "x").isNumber = true)
    (hy : (msg.prop "y").isNumber = true)
    (hscale : (msg.prop "scale").isNumber = true) :
    (_applyCamera w msg).panCalls
      = [Effect.animatePan (msg.prop "x") (msg.prop "y") (msg.prop "scale") 200] ∧
    (_applyCamera w msg).effects.head?
      = some (Effect.animatePan (msg.prop "x") (msg.prop "y") (msg.prop "scale") 200) ∧
    (_applyCamera w msg).completion = Completion.returned := by
  obtain ⟨ht, hread⟩ := readProp_of_prop_isNumber hx "sceneId"
  unfold _applyCamera Run.panCalls applyCameraWhenReady
  by_cases hthrow : w.animatePanThrows <;>
    simp [hobs, hfollow, hready, hscene, hx, hy, hscale, ht, hread, hthrow, Effect.isAnimatePan]

/-- C6, witness: an observer showing `sceneA` receives a pose of `sceneA`. -/
theorem C6_pose_applied_once_witness :
    (_applyCamera sampleObserver (samplePose (string "sceneA"))).panCalls
      = [Effect.animatePan (int 1) (int 2) (int 1) 200] ∧
    (_applyCamera sampleObserver (samplePose (string "sceneA"))).effects.head?
      = some (Effect.animatePan (int 1) (int 2) (int 1) 200) ∧
    (_applyCamera sampleObserver (samplePose (string "sceneA"))).completion
      = Completion.returned :=
  C6_pose_applied_once sampleObserver (samplePose (string "sceneA")) rfl rfl rfl rfl rfl rfl rfl

/-! ## Properties of the handshake and of the snapshot sources -/

/-- C7, counterexample: the GM client handles an initial-view request while its
canvas is not ready. `_getViewSnapshot` returns `null` and the handler returns
at line 155 without sending anything: the requester gets no reply. -/
theorem C7_unready_canvas_no_reply_counterexample :
    (gmUser.prop "isGM").truthy = true ∧
    _handleSnapshotRequest gmUser unreadyCanvas (string "observer1") = Except.ok [] := by
  exact ⟨rfl, rfl⟩

/-- C7, amended: for every requester id, when the GM client handles an
initial-view request and `_getViewSnapshot` resolves to a snapshot, it makes
exactly one socket call, `executeForUsers("applyCamera", [requesterId], snap)`,
addressed to the requester alone; when `_getViewSnapshot` returns `null` it makes
no call at all. In both cases it makes no broadcast and throws nothing. -/
theorem C7_unicast_reply (user canvas requesterId : JSVal)
    (hgm : (user.prop "isGM").truthy = true) :
    (∀ snap, _getViewSnapshot canvas = Except.ok (some snap) →
      _handleSnapshotRequest user canvas requesterId
        = Except.ok [SocketCall.executeForUsers "applyCamera" [requesterId] snap]) ∧
    (_getViewSnapshot canvas = Except.ok none →
      _handleSnapshotRequest user canvas requesterId = Except.ok []) ∧
    (∃ calls, _handleSnapshotRequest user canvas requesterId = Except.ok calls ∧
      calls.length ≤ 1 ∧ ∀ c ∈ calls, c.isBroadcast = false) := by
  refine ⟨?_, ?_, ?_⟩
  · intro snap h
    simp [_handleSnapshotRequest, hgm, h, bind, Except.bind, pure, Except.pure]
  · intro h
    simp [_handleSnapshotRequest, hgm, h, bind, Except.bind, pure, Except.pure]
  · simp only [_handleSnapshotRequest, hgm, getViewSnapshot_eq, bind, Except.bind, pure,
      Except.pure]
    cases firstResolvedSource canvas <;> simp [SocketCall.isBroadcast]

/-- C7, witness: the GM client, showing `sampleCanvas`, answers `observer1`. -/
theorem C7_unicast_reply_witness :
    _handleSnapshotRequest gmUser sampleCanvas (string "observer1")
      = Except.ok [SocketCall.executeForUsers "applyCamera" [string "observer1"]
          sampleSnapshot] :=
  (C7_unicast_reply gmUser sampleCanvas (string "observer1") rfl).1 sampleSnapshot rfl

/-- C8: `_getViewSnapshot` never throws. On a ready canvas it returns the pose
of the first source that resolves, in this order: (1) `scene._viewPosition` when
its `x` and `y` are numbers, (2) `camera.center` with the zoom when the center's
`x` and `y` are numbers, (3) `stage.pivot` with `stage.scale.x`. It returns
`null` exactly when the canvas is not ready or none of the three resolves, and
then a run of `send` pushes nothing, leaves `lastSent` alone and throws nothing. -/
theorem C8_snapshot_sources_in_order (canvas : JSVal) :
    (canvasReady canvas = true →
      (∀ snap, sourceViewPosition canvas = some snap →
        _getViewSnapshot canvas = Except.ok (some snap)) ∧
      (∀ snap, sourceViewPosition canvas = none → sourceCameraCenter canvas = some snap →
        _getViewSnapshot canvas = Except.ok (some snap)) ∧
      (∀ snap, sourceViewPosition canvas = none → sourceCameraCenter canvas = none →
        sourceStagePivot canvas = some snap →
        _getViewSnapshot canvas = Except.ok (some snap))) ∧
    (_getViewSnapshot canvas = Except.ok none ↔
      (canvasReady canvas = false ∨
        (sourceViewPosition canvas = none ∧ sourceCameraCenter canvas = none ∧
          sourceStagePivot canvas = none))) ∧
    (∃ r, _getViewSnapshot canvas = Except.ok r) ∧
    (_getViewSnapshot canvas = Except.ok none →
      ∀ lastSent now : Int, send lastSent canvas now = Except.ok (lastSent, [])) := by
  refine ⟨?_, ?_, ⟨_, getViewSnapshot_eq canvas⟩, ?_⟩
  · intro hr
    simp only [getViewSnapshot_eq, firstResolvedSource, hr, if_true]
    refine ⟨?_, ?_, ?_⟩
    · intro snap h; simp [h]
    · intro snap h1 h2; simp [h1, h2]
    · intro snap h1 h2 h3; simp [h1, h2, h3]
  · simp only [getViewSnapshot_eq, firstResolvedSource]
    by_cases hr : canvasReady canvas = true
    · cases h1 : sourceViewPosition canvas <;> cases h2 : sourceCameraCenter canvas <;>
        cases h3 : sourceStagePivot canvas <;> simp [hr]
    · simp [hr]
  · intro h lastSent now
    simp [send, h, bind, Except.bind, pure, Except.pure]

/-- C8, on sample canvases: each source is used when the ones before it do not
resolve, and a ready canvas without any source yields `null`. -/
theorem C8_snapshot_sources_examples :
    _getViewSnapshot sampleCanvas = Except.ok (some sampleSnapshot) ∧
    _getViewSnapshot centerCanvas = Except.ok (some
      { sceneId := string "sceneA", x := int 10, y := int 20, scale := int 2 }) ∧
    _getViewSnapshot stageCanvas = Except.ok (some
      { sceneId := string "sceneA", x := int 5, y := int 6, scale := int 3 }) ∧
    _getViewSnapshot bareCanvas = Except.ok none ∧
    _getViewSnapshot unreadyCanvas = Except.ok none ∧
    send 0 bareCanvas 1000 = Except.ok (0, []) :=
  ⟨rfl, rfl, rfl, rfl, rfl,
    (C8_snapshot_sources_in_order bareCanvas).2.2.2 rfl 0 1000⟩

/-! ## Properties of the roll overlay queue -/

/-- The lifecycle of a list of requests followed by one more. -/
theorem lifecycle_append (xs : List RollRequest) (r : RollRequest) :
    lifecycle (xs ++ [r])
      = lifecycle xs ++ [CardEvent.shown r, CardEvent.hidden, CardEvent.faded] := by
  induction xs with
  | nil => rfl
  | cons x xs ih => simp [lifecycle, ih]

/-- The lifecycle of a concatenation. -/
theorem lifecycle_append_list (xs ys : List RollRequest) :
    lifecycle (xs ++ ys) = lifecycle xs ++ lifecycle ys := by
  induction xs with
  | nil => rfl
  | cons x xs ih => simp [lifecycle, ih]

/-- The requests shown in a lifecycle are the requests it is the lifecycle of. -/
theorem shownRequests_lifecycle (xs : List RollRequest) :
    shownRequests (lifecycle xs) = xs := by
  induction xs with
  | nil => rfl
  | cons x xs ih => simp [lifecycle, shownRequests, ih]

/-- The requests shown in a record that continues another. -/
theorem shownRequests_append (es fs : List CardEvent) :
    shownRequests (es ++ fs) = shownRequests es ++ shownRequests fs := by
  induction es with
  | nil => rfl
  | cons e es ih => cases e <;> simp [shownRequests, ih]

/-- Every event keeps the queue in one of its three phases, for the requests
enqueued so far. -/
theorem step_phase (enq : List RollRequest) (s : QueueState) (ev : QueueEvent)
    (h : QueuePhase enq s) : QueuePhase (enq ++ (ev.request).toList) (step s ev) := by
  obtain ⟨hov, hph⟩ := h
  obtain ⟨el, hel⟩ := Option.isSome_iff_exists.1 hov
  cases ev with
  | call user total flavor =>
    rcases hph with ⟨hs, ht, hq, hl⟩ | ⟨done, r, d, hs, ht, hq, hl⟩ | ⟨done, r, d, hs, ht, hq, hl⟩
    · refine ⟨?_, Or.inr (Or.inl ⟨enq, mkRequest user total flavor, s.now + DWELL_MS, ?_⟩)⟩
      · simp [step, queueRollOverlay, showNextRoll, hs, hq, hel]
      · simp [step, queueRollOverlay, showNextRoll, hs, hq, hel, ht, hl, QueueEvent.request]
    · refine ⟨?_, Or.inr (Or.inl ⟨done, r, d, ?_⟩)⟩
      · simp [step, queueRollOverlay, hs, hov]
      · simp [step, queueRollOverlay, hs, ht, hq, hl, QueueEvent.request]
    · refine ⟨?_, Or.inr (Or.inr ⟨done, r, d, ?_⟩)⟩
      · simp [step, queueRollOverlay, hs, hov]
      · simp [step, queueRollOverlay, hs, ht, hq, hl, QueueEvent.request]
  | timerFires i =>
    simp only [QueueEvent.request, Option.toList, List.append_nil]
    rcases hph with ⟨hs, ht, hq, hl⟩ | ⟨done, r, d, hs, ht, hq, hl⟩ | ⟨done, r, d, hs, ht, hq, hl⟩
    · have : step s (QueueEvent.timerFires i) = s := by simp [step, ht]
      rw [this]
      exact ⟨hov, Or.inl ⟨hs, ht, hq, hl⟩⟩
    · cases i with
      | zero =>
        refine ⟨?_, Or.inr (Or.inr ⟨done, r, max s.now d + FADE_MS, ?_⟩)⟩
        · simp [step, ht, runTimer, hel]
        · simp [step, ht, runTimer, hs, hq, hl]
      | succ j =>
        have : step s (QueueEvent.timerFires (j + 1)) = s := by simp [step, ht]
        rw [this]
        exact ⟨hov, Or.inr (Or.inl ⟨done, r, d, hs, ht, hq, hl⟩)⟩
    · cases i with
      | zero =>
        cases hrq : s.rollQueue with
        | nil =>
          refine ⟨?_, Or.inl ?_⟩
          · simp [step, ht, runTimer, showNextRoll, hrq, hov]
          · simp [step, ht, runTimer, showNextRoll, hrq, hl, hq, lifecycle_append]
        | cons r2 rest =>
          refine ⟨?_, Or.inr (Or.inl ⟨done ++ [r], r2, max s.now d + DWELL_MS, ?_⟩)⟩
          · simp [step, ht, runTimer, showNextRoll, hrq, hel]
          · simp [step, ht, runTimer, showNextRoll, hrq, hel, hl, hq, lifecycle_append]
      | succ j =>
        have : step s (QueueEvent.timerFires (j + 1)) = s := by simp [step, ht]
        rw [this]
        exact ⟨hov, Or.inr (Or.inr ⟨done, r, d, hs, ht, hq, hl⟩)⟩
  | elapse dt =>
    simp only [QueueEvent.request, Option.toList, List.append_nil]
    exact ⟨hov, hph⟩
  | overlayLoaded =>
    simp only [QueueEvent.request, Option.toList, List.append_nil]
    have : step s QueueEvent.overlayLoaded = s := by simp [step, hel]
    rw [this]
    exact ⟨hov, hph⟩

/-- Every sequence of events keeps the queue in one of its three phases. -/
theorem run_phase (evs : List QueueEvent) :
    ∀ (enq : List RollRequest) (s : QueueState), QueuePhase enq s →
      QueuePhase (enq ++ requestsOf evs) (run s evs) := by
  induction evs with
  | nil => intro enq s h; simpa [requestsOf, run] using h
  | cons ev evs ih =>
    intro enq s h
    have h1 := ih _ _ (step_phase enq s ev h)
    have : enq ++ requestsOf (ev :: evs) = (enq ++ (ev.request).toList) ++ requestsOf evs := by
      cases hr : ev.request <;> simp [requestsOf, List.filterMap_cons, hr]
    rw [this]
    simpa [run] using h1

/-- C9: with the `#observer-roll` element present, after every interleaving of
`queueRollOverlay` calls and timer firings (and of time passing), the record of
what was done to the overlay is an initial part of the lifecycle of the
requests in the order they were enqueued: each request is shown in its turn,
and only after the dwell timer and then the fade timer of the request shown
before it have fired, so no two requests are shown at the same time. The
requests shown so far followed by those still queued are the requests enqueued:
none is skipped or shown out of order. -/
theorem C9_fifo_one_card_at_a_time (el : OverlayElement) (t0 : Nat) (evs : List QueueEvent) :
    ((run (initialQueue (some el) t0) evs).log.map Prod.snd) <+: lifecycle (requestsOf evs) ∧
    shownRequests ((run (initialQueue (some el) t0) evs).log.map Prod.snd)
      ++ (run (initialQueue (some el) t0) evs).rollQueue = requestsOf evs := by
  have h0 : QueuePhase [] (initialQueue (some el) t0) :=
    ⟨rfl, Or.inl ⟨rfl, rfl, rfl, rfl⟩⟩
  have h := run_phase evs [] _ h0
  simp only [List.nil_append] at h
  generalize run (initialQueue (some el) t0) evs = s at h
  obtain ⟨-, hph⟩ := h
  rcases hph with ⟨-, -, hq, hl⟩ | ⟨done, r, d, -, -, hq, hl⟩ | ⟨done, r, d, -, -, hq, hl⟩
  · rw [hl, hq, shownRequests_lifecycle]
    exact ⟨List.prefix_refl _, by simp⟩
  · rw [hl, hq, lifecycle_append_list, shownRequests_append, shownRequests_lifecycle]
    refine ⟨⟨CardEvent.hidden :: CardEvent.faded :: lifecycle s.rollQueue, ?_⟩, ?_⟩
    · simp [lifecycle]
    · simp [shownRequests]
  · rw [hl, hq, lifecycle_append_list, shownRequests_append, shownRequests_lifecycle]
    refine ⟨⟨CardEvent.faded :: lifecycle s.rollQueue, ?_⟩, ?_⟩
    · simp [lifecycle]
    · simp [shownRequests]

/-- While a card is showing, a burst only appends to the queue. -/
theorem run_burst_showing (args : List (JSVal × JSVal × JSVal)) :
    ∀ s : QueueState, s.isShowingRoll = true →
      run s (burst args)
        = { s with rollQueue := s.rollQueue ++ requestsOf (burst args) } := by
  induction args with
  | nil => intro s _; simp [burst, run, requestsOf]
  | cons a rest ih =>
    intro s hs
    have h1 : step s (QueueEvent.call a.1 a.2.1 a.2.2)
        = { s with rollQueue := s.rollQueue ++ [mkRequest a.1 a.2.1 a.2.2] } := by
      simp [step, queueRollOverlay, hs]
    have h2 := ih { s with rollQueue := s.rollQueue ++ [mkRequest a.1 a.2.1 a.2.2] } hs
    simp only [burst, run, List.map_cons, List.foldl_cons, h1] at h2 ⊢
    rw [h2]
    simp [requestsOf, QueueEvent.request]

/-- From a state in which a card is visible, with its dwell timer the only
pending timer and due `k` card times and one dwell after `t0`, the event loop
shows the queued requests one after the other, and after two turns for each card
the queue is idle. Until then `isShowingRoll` stays set. -/
theorem eventLoop_dwelling (q : List RollRequest) :
    ∀ (s : QueueState) (t0 k : Nat),
      s.isShowingRoll = true →
      s.timers = [{ due := t0 + k * (3500 + 600) + 3500, callback := TimerCallback.hide }] →
      s.overlay.isSome = true →
      s.rollQueue = q →
      s.now ≤ t0 + k * (3500 + 600) + 3500 →
      (eventLoop (2 * (q.length + 1)) s).log
        = s.log ++ (t0 + k * (3500 + 600) + 3500, CardEvent.hidden) ::
            (t0 + k * (3500 + 600) + 3500 + 600, CardEvent.faded) :: cardTimes t0 (k + 1) q ∧
      (eventLoop (2 * (q.length + 1)) s).isShowingRoll = false ∧
      (eventLoop (2 * (q.length + 1)) s).rollQueue = [] ∧
      (eventLoop (2 * (q.length + 1)) s).timers = [] ∧
      (eventLoop (2 * (q.length + 1)) s).now = t0 + (k + 1 + q.length) * (3500 + 600) ∧
      (∀ n, n < 2 * (q.length + 1) → (eventLoop n s).isShowingRoll = true) := by
  induction q with
  | nil =>
    intro s t0 k hs ht hov hq hnow
    obtain ⟨el, hel⟩ := Option.isSome_iff_exists.1 hov
    have hmax : max s.now (t0 + k * (3500 + 600) + 3500) = t0 + k * (3500 + 600) + 3500 :=
      max_eq_right hnow
    have h1 : (eventLoopTurn s).isShowingRoll = true := by
      simp [eventLoopTurn, ht, nextTimer, step, runTimer, hs]
    refine ⟨?_, ?_, ?_, ?_, ?_, ?_⟩
    · simp [eventLoop, eventLoopTurn, ht, nextTimer, step, runTimer, showNextRoll, hq, hmax,
        FADE_MS, cardTimes]
    · simp [eventLoop, eventLoopTurn, ht, nextTimer, step, runTimer, showNextRoll, hq]
    · simp [eventLoop, eventLoopTurn, ht, nextTimer, step, runTimer, showNextRoll, hq]
    · simp [eventLoop, eventLoopTurn, ht, nextTimer, step, runTimer, showNextRoll, hq]
    · simp [eventLoop, eventLoopTurn, ht, nextTimer, step, runTimer, showNextRoll, hq, hmax,
        FADE_MS]
      ring
    · intro n hn
      have : n = 0 ∨ n = 1 := by simp at hn; omega
      rcases this with rfl | rfl
      · exact hs
      · exact h1
  | cons r rest ih =>
    intro s t0 k hs ht hov hq hnow
    obtain ⟨el, hel⟩ := Option.isSome_iff_exists.1 hov
    have hmax : max s.now (t0 + k * (3500 + 600) + 3500) = t0 + k * (3500 + 600) + 3500 :=
      max_eq_right hnow
    have h1 : (eventLoopTurn s).isShowingRoll = true := by
      simp [eventLoopTurn, ht, nextTimer, step, runTimer, hs]
    have hlen : 2 * ((r :: rest).length + 1) = 2 * (rest.length + 1) + 1 + 1 := by
      simp; ring
    have htime : t0 + k * (3500 + 600) + 3500 + 600 = t0 + (k + 1) * (3500 + 600) := by ring
    -- the state after the two turns of the card on show
    obtain ⟨h2s, h2t, h2o, h2q, h2n, h2l⟩ :
        (eventLoopTurn (eventLoopTurn s)).isShowingRoll = true ∧
        (eventLoopTurn (eventLoopTurn s)).timers
          = [{ due := t0 + (k + 1) * (3500 + 600) + 3500, callback := TimerCallback.hide }] ∧
        (eventLoopTurn (eventLoopTurn s)).overlay.isSome = true ∧
        (eventLoopTurn (eventLoopTurn s)).rollQueue = rest ∧
        (eventLoopTurn (eventLoopTurn s)).now = t0 + (k + 1) * (3500 + 600) ∧
        (eventLoopTurn (eventLoopTurn s)).log
          = s.log ++ [(t0 + k * (3500 + 600) + 3500, CardEvent.hidden),
              (t0 + k * (3500 + 600) + 3500 + 600, CardEvent.faded),
              (t0 + (k + 1) * (3500 + 600), CardEvent.shown r)] := by
      refine ⟨?_, ?_, ?_, ?_, ?_, ?_⟩ <;>
        simp [eventLoopTurn, ht, nextTimer, step, runTimer, showNextRoll, hq, hel, hmax,
          FADE_MS, DWELL_MS, htime] <;>
        omega
    obtain ⟨il, is, iq, it, inow, ish⟩ :=
      ih (eventLoopTurn (eventLoopTurn s)) t0 (k + 1) h2s h2t h2o h2q (by rw [h2n]; omega)
    have hrun : eventLoop (2 * ((r :: rest).length + 1)) s
        = eventLoop (2 * (rest.length + 1)) (eventLoopTurn (eventLoopTurn s)) := by
      rw [hlen]; rfl
    rw [hrun]
    refine ⟨?_, is, iq, it, ?_, ?_⟩
    · rw [il, h2l]
      simp [cardTimes]
    · rw [inow]
      simp only [List.length_cons]
      ring
    · intro n hn
      match n, hn with
      | 0, _ => exact hs
      | 1, _ => exact h1
      | m + 2, hm =>
        have : eventLoop (m + 2) s = eventLoop m (eventLoopTurn (eventLoopTurn s)) := rfl
        rw [this]
        apply ish
        simp only [List.length_cons] at hm
        omega

/-- A burst enqueues one request for each call. -/
theorem requestsOf_burst_length (args : List (JSVal × JSVal × JSVal)) :
    (requestsOf (burst args)).length = args.length := by
  induction args with
  | nil => rfl
  | cons a rest ih =>
    simp [requestsOf, burst, QueueEvent.request, List.filterMap_cons]

/-- C10, counterexample: a burst of one call into the idle queue of a document
that has no `#observer-roll` element. Nothing is rendered, no timer is set, and
the queue does not return to idle: `isShowingRoll` is still set after any number
of turns of the event loop, here two. -/
theorem C10_missing_overlay_counterexample :
    (run (initialQueue none 0) (burst [(string "Ann", int 17, string "Stealth")])).log = [] ∧
    (run (initialQueue none 0) (burst [(string "Ann", int 17, string "Stealth")])).timers = [] ∧
    (eventLoop 2
      (run (initialQueue none 0) (burst [(string "Ann", int 17, string "Stealth")]))).log = [] ∧
    (eventLoop 2
      (run (initialQueue none 0)
        (burst [(string "Ann", int 17, string "Stealth")]))).isShowingRoll = true := by
  exact ⟨rfl, rfl, rfl, rfl⟩

/-- C10, amended: with the `#observer-roll` element present and every timer
callback run at its due time, for every `N ≥ 1` a burst of `N` calls of
`queueRollOverlay` made at the same instant `t` into an idle queue is rendered
as exactly `N` cards, one per request, none dropped or merged: the `k`-th
request is shown at `t + k * (3500 + 600)`, loses `visible` 3500 ms later and
its fade ends 600 ms after that; the queue is idle again (`isShowingRoll`
false, empty queue, no timer) after `2 * N` timer callbacks, at
`t + N * (3500 + 600)`, and not before. -/
theorem C10_burst_serialized (s0 : QueueState) (args : List (JSVal × JSVal × JSVal))
    (hidle : s0.isShowingRoll = false) (hq : s0.rollQueue = []) (ht : s0.timers = [])
    (hov : s0.overlay.isSome = true) (hne : args ≠ []) :
    (eventLoop (2 * args.length) (run s0 (burst args))).log
      = s0.log ++ cardTimes s0.now 0 (requestsOf (burst args)) ∧
    (requestsOf (burst args)).length = args.length ∧
    (eventLoop (2 * args.length) (run s0 (burst args))).isShowingRoll = false ∧
    (eventLoop (2 * args.length) (run s0 (burst args))).rollQueue = [] ∧
    (eventLoop (2 * args.length) (run s0 (burst args))).timers = [] ∧
    (eventLoop (2 * args.length) (run s0 (burst args))).now
      = s0.now + args.length * (3500 + 600) ∧
    (∀ n, n < 2 * args.length →
      (eventLoop n (run s0 (burst args))).isShowingRoll = true) := by
  cases args with
  | nil => exact absurd rfl hne
  | cons a rest =>
    obtain ⟨el, hel⟩ := Option.isSome_iff_exists.1 hov
    have hfirst : step s0 (QueueEvent.call a.1 a.2.1 a.2.2)
        = { s0 with
            isShowingRoll := true
            rollQueue := []
            overlay := some { banner := some (rollBanner (mkRequest a.1 a.2.1 a.2.2)),
                              visible := true }
            timers := [{ due := s0.now + DWELL_MS, callback := TimerCallback.hide }]
            log := s0.log ++ [(s0.now, CardEvent.shown (mkRequest a.1 a.2.1 a.2.2))] } := by
      simp [step, queueRollOverlay, showNextRoll, hidle, hq, ht, hel]
    have hrun : run s0 (burst (a :: rest))
        = { s0 with
            isShowingRoll := true
            rollQueue := requestsOf (burst rest)
            overlay := some { banner := some (rollBanner (mkRequest a.1 a.2.1 a.2.2)),
                              visible := true }
            timers := [{ due := s0.now + DWELL_MS, callback := TimerCallback.hide }]
            log := s0.log ++ [(s0.now, CardEvent.shown (mkRequest a.1 a.2.1 a.2.2))] } := by
      have := run_burst_showing rest (step s0 (QueueEvent.call a.1 a.2.1 a.2.2))
        (by rw [hfirst])
      simp only [burst, run, List.map_cons, List.foldl_cons] at this ⊢
      rw [this, hfirst]
      simp
    have hlen := requestsOf_burst_length rest
    obtain ⟨hl, hs, hqq, htt, hnow, hbefore⟩ :=
      eventLoop_dwelling (requestsOf (burst rest)) (run s0 (burst (a :: rest))) s0.now 0
        (by rw [hrun]) (by rw [hrun]; simp [DWELL_MS]) (by rw [hrun]; rfl) (by rw [hrun])
        (by rw [hrun]; simp)
    rw [hlen] at hl hs hqq htt hnow hbefore
    have hreq : requestsOf (burst (a :: rest))
        = mkRequest a.1 a.2.1 a.2.2 :: requestsOf (burst rest) := by
      simp [requestsOf, burst, QueueEvent.request, List.filterMap_cons]
    refine ⟨?_, requestsOf_burst_length _, hs, hqq, htt, ?_, hbefore⟩
    · rw [List.length_cons, hl, hreq, hrun]
      simp [cardTimes]
    · rw [List.length_cons, hnow]
      ring

/-- C10, witness: three rolls enqueued at time 1000 into the idle queue of a
document with the overlay element are done at `1000 + 3 * 4100`. -/
theorem C10_burst_serialized_witness :
    (eventLoop 6 (run (initialQueue (some emptyOverlay) 1000) (burst sampleRolls))).log
      = cardTimes 1000 0 (requestsOf (burst sampleRolls)) ∧
    (eventLoop 6 (run (initialQueue (some emptyOverlay) 1000) (burst sampleRolls))).isShowingRoll
      = false ∧
    (eventLoop 6 (run (initialQueue (some emptyOverlay) 1000) (burst sampleRolls))).now
      = 1000 + 3 * (3500 + 600) :=
  have h := C10_burst_serialized (initialQueue (some emptyOverlay) 1000) sampleRolls
    rfl rfl rfl rfl (by simp [sampleRolls])
  ⟨by simpa [initialQueue] using h.1, h.2.2.1, h.2.2.2.2.2.1⟩

/-! ## More properties of the queue, the snapshot and the follower -/

/-- Once `showNextRoll` has returned at line 18 for want of the overlay element,
the queue is stuck: `isShowingRoll` is set, no timer is pending and nothing has
been rendered, and every event keeps it so. -/
theorem run_stuck (evs : List QueueEvent) :
    ∀ s : QueueState, s.isShowingRoll = true → s.timers = [] → s.log = [] →
      (run s evs).isShowingRoll = true ∧ (run s evs).timers = [] ∧ (run s evs).log = [] := by
  induction evs with
  | nil => intro s hs ht hl; exact ⟨hs, ht, hl⟩
  | cons ev evs ih =>
    intro s hs ht hl
    have h : (step s ev).isShowingRoll = true ∧ (step s ev).timers = [] ∧
        (step s ev).log = [] := by
      cases ev with
      | call user total flavor => simp [step, queueRollOverlay, hs, ht, hl]
      | timerFires i => simp [step, ht, hs, hl]
      | elapse dt => exact ⟨hs, ht, hl⟩
      | overlayLoaded =>
        cases ho : s.overlay <;> simp [step, ho, hs, ht, hl]
    simpa [run] using ih (step s ev) h.1 h.2.1 h.2.2

/-- C11, at the failing input: a call of `queueRollOverlay` made while the
document has no `#observer-roll` element leaves the queue in the showing state
for good. Whatever happens afterwards (the element being loaded, further calls,
time passing), `isShowingRoll` stays set, no timer is ever pending and no
request is ever rendered: the dequeued request is lost and every later one
waits in the queue for ever. -/
theorem C11_missing_overlay_sticks (t0 : Nat) (user total flavor : JSVal)
    (evs : List QueueEvent) :
    (run (initialQueue none t0) (QueueEvent.call user total flavor :: evs)).log = [] ∧
    (run (initialQueue none t0) (QueueEvent.call user total flavor :: evs)).isShowingRoll
      = true ∧
    (run (initialQueue none t0) (QueueEvent.call user total flavor :: evs)).timers = [] := by
  have h := run_stuck evs (step (initialQueue none t0) (QueueEvent.call user total flavor))
    rfl rfl rfl
  exact ⟨h.2.2, h.1, h.2.1⟩

/-- An instance of the stuck queue: a roll made before the overlay is loaded,
then the overlay, then a second roll. The second request stays queued and is not rendered. -/
theorem queue_roll_before_overlay_example :
    (run (initialQueue none 0)
      [QueueEvent.call (string "Ann") (int 17) (string ""), QueueEvent.overlayLoaded,
        QueueEvent.call (string "Bob") (int 4) (string "")]).log = [] ∧
    (run (initialQueue none 0)
      [QueueEvent.call (string "Ann") (int 17) (string ""), QueueEvent.overlayLoaded,
        QueueEvent.call (string "Bob") (int 4) (string "")]).rollQueue
      = [mkRequest (string "Bob") (int 4) (string "")] ∧
    (run (initialQueue none 0)
      [QueueEvent.call (string "Ann") (int 17) (string ""), QueueEvent.overlayLoaded,
        QueueEvent.call (string "Bob") (int 4) (string "")]).overlay
      = some { banner := none, visible := false } :=
  ⟨rfl, rfl, rfl⟩

/-- A snapshot that `_getViewSnapshot` returns comes from one of the three
sources. -/
theorem getViewSnapshot_source (canvas : JSVal) (snap : Snapshot)
    (h : _getViewSnapshot canvas = Except.ok (some snap)) :
    sourceViewPosition canvas = some snap ∨ sourceCameraCenter canvas = some snap ∨
      sourceStagePivot canvas = some snap := by
  rw [getViewSnapshot_eq] at h
  have h' : firstResolvedSource canvas = some snap := by simpa using h
  unfold firstResolvedSource at h'
  split_ifs at h' with hr
  cases h1 : sourceViewPosition canvas <;> cases h2 : sourceCameraCenter canvas <;>
    cases h3 : sourceStagePivot canvas <;> simp_all

/-- What every snapshot that `_getViewSnapshot` returns does satisfy: `x` is a
number, `scale` is neither `null` nor `undefined`, and `sceneId` is not
`undefined`. -/
theorem getViewSnapshot_guarantees (canvas : JSVal) (snap : Snapshot)
    (h : _getViewSnapshot canvas = Except.ok (some snap)) :
    snap.x.isNumber = true ∧ snap.scale.isNullish = false ∧ snap.sceneId ≠ undefined := by
  have hid : ((canvas.prop "scene").prop "id").orElse null ≠ undefined := by
    unfold JSVal.orElse
    cases hv : (canvas.prop "scene").prop "id" <;> simp [JSVal.isNullish]
  have hor : ∀ a : JSVal, (a.orElse (int 1)).isNullish = false := by
    intro a
    unfold JSVal.orElse
    cases a <;> simp [JSVal.isNullish, JSVal.int]
  rcases getViewSnapshot_source canvas snap h with h1 | h1 | h1
  · dsimp only [sourceViewPosition] at h1
    split_ifs at h1 with hc
    simp only [Bool.and_eq_true] at hc
    have := Option.some.inj h1
    subst this
    exact ⟨hc.1.2, hor _, hid⟩
  · dsimp only [sourceCameraCenter] at h1
    split_ifs at h1 with hc
    simp only [Bool.and_eq_true] at hc
    have := Option.some.inj h1
    subst this
    exact ⟨hc.1.2, hor _, hid⟩
  · dsimp only [sourceStagePivot] at h1
    split_ifs at h1 with hc
    simp only [Bool.and_eq_true] at hc
    have := Option.some.inj h1
    subst this
    exact ⟨hc.2, hor _, hid⟩

/-- C19, at the failing inputs: `_getViewSnapshot` returns snapshots that are
not of its documented return type. On a ready canvas whose only source is a
stage pivot with an `x` and no `y`, the last resort tests `st.pivot.x` alone
and returns a snapshot whose `y` is `undefined`; the follower's numeric check
then discards that pose. On a canvas whose view position has a string `scale`,
the snapshot's `scale` is that string: no branch tests the scale. -/
theorem C19_snapshot_not_all_numbers :
    _getViewSnapshot pivotXOnlyCanvas = Except.ok (some
      { sceneId := string "sceneA", x := int 5, y := undefined, scale := int 1 }) ∧
    (undefined : JSVal).isNumber = false ∧
    (_applyCamera sampleObserver (Snapshot.toJSVal
      { sceneId := string "sceneA", x := int 5, y := undefined, scale := int 1 })).panCalls
      = [] ∧
    _getViewSnapshot textScaleCanvas = Except.ok (some
      { sceneId := string "sceneA", x := int 1, y := int 2, scale := string "fit" }) ∧
    (string "fit").isNumber = false := by
  exact ⟨rfl, rfl, rfl, rfl, rfl⟩

/-- C20: for every received message, in a window whose URL has no truthy
`observer` query parameter (the GM's window or a player's), `_applyCamera`
never calls `canvas.animatePan` and reads no setting: it returns at line 167
without any effect. -/
theorem C20_not_observer_no_effect (w : Window) (msg : JSVal)
    (hno : w.isObserver = false) :
    (_applyCamera w msg).panCalls = [] ∧ (_applyCamera w msg).settingsRead = [] ∧
    (_applyCamera w msg).effects = [] ∧
    (_applyCamera w msg).completion = Completion.returned := by
  unfold _applyCamera Run.panCalls
  simp [hno]

/-- C20, witness: the GM's own window receives a pose of the scene it shows. -/
theorem C20_not_observer_no_effect_witness :
    (_applyCamera gmWindow (samplePose (string "sceneA"))).panCalls = [] ∧
    (_applyCamera gmWindow (samplePose (string "sceneA"))).settingsRead = [] ∧
    (_applyCamera gmWindow (samplePose (string "sceneA"))).effects = [] ∧
    (_applyCamera gmWindow (samplePose (string "sceneA"))).completion
      = Completion.returned :=
  C20_not_observer_no_effect gmWindow (samplePose (string "sceneA")) rfl

/-- An observer with follow enabled does read the `cameraFollow` setting. -/
theorem applyCamera_observer_reads_setting :
    (_applyCamera sampleObserver (samplePose (string "sceneA"))).settingsRead
      = ["archive-of-observers.cameraFollow"] := by
  rfl

/-! ## Properties of the socketlib bootstrap -/

/-- With socketlib installed, active and not yet usable, `_ensureSocketlibReady`
registers both hooks and starts the poll. -/
theorem ensureSocketlibReady_waiting (mod : JSVal) (now : Int)
    (hmod : mod.truthy = true) (hactive : (mod.prop "active").truthy = true) :
    _ensureSocketlibReady mod false now
      = Except.ok (Bootstrap.waiting now) := by
  simp [_ensureSocketlibReady, hmod, hactive, readProp_of_truthy hmod, bind, Except.bind, pure,
    Except.pure]

/-- No event changes `startedAt`; `finish` runs `done` at most once over any
sequence of events; once the poll has stopped it stays stopped and no further
notice is issued. -/
theorem bootStep_facts (b : Bootstrap) (ev : BootEvent) :
    (bootStep b ev).startedAt = b.startedAt ∧
    (b.polling = false → (bootStep b ev).polling = false ∧
      (bootStep b ev).notices = b.notices) ∧
    ((bootStep b ev).doneCalls = b.doneCalls ∨
      (b.finished = false ∧ (bootStep b ev).finished = true ∧ ev.isReadyHook = true ∧
        (bootStep b ev).doneCalls = b.doneCalls + 1) ∨
      (b.finished = false ∧ (bootStep b ev).finished = true ∧ b.polling = true ∧
        (bootStep b ev).doneCalls = b.doneCalls + 1)) ∧
    (b.finished = true → (bootStep b ev).finished = true ∧
      (bootStep b ev).doneCalls = b.doneCalls) := by
  cases ev with
  | socketlibReadyHook =>
    by_cases h1 : b.onSocketlibReady <;> by_cases h2 : b.finished <;>
      simp [bootStep, finish, h1, h2, BootEvent.isReadyHook]
  | readyHook usable =>
    by_cases h1 : b.onReady <;> by_cases h2 : b.finished <;> cases usable <;>
      simp [bootStep, finish, h1, h2, BootEvent.isReadyHook]
  | pollTick now usable =>
    by_cases h1 : b.polling <;> by_cases h2 : b.finished <;> cases usable <;>
      by_cases h3 : now - b.startedAt > 4000 <;>
      simp [bootStep, finish, h1, h2, h3, BootEvent.isReadyHook]

/-- Once the poll has stopped, it stays stopped and the notices stay as they
are, whatever happens. -/
theorem bootRun_poll_stopped (evs : List BootEvent) :
    ∀ b : Bootstrap, b.polling = false →
      (bootRun b evs).polling = false ∧ (bootRun b evs).notices = b.notices := by
  induction evs with
  | nil => intro b h; exact ⟨h, rfl⟩
  | cons ev evs ih =>
    intro b h
    obtain ⟨h1, h2⟩ := (bootStep_facts b ev).2.1 h
    obtain ⟨h3, h4⟩ := ih (bootStep b ev) h1
    exact ⟨by simpa [bootRun] using h3, by simpa [bootRun, h2] using h4⟩

/-- Over any sequence of events `done` is called at most once more, and not at
all once `finish` has run. -/
theorem bootRun_done_once (evs : List BootEvent) :
    ∀ b : Bootstrap,
      (b.finished = true → (bootRun b evs).doneCalls = b.doneCalls) ∧
      (bootRun b evs).doneCalls ≤ b.doneCalls + 1 := by
  induction evs with
  | nil => intro b; exact ⟨fun _ => rfl, Nat.le_succ _⟩
  | cons ev evs ih =>
    intro b
    obtain ⟨-, -, hcases, hfin⟩ := bootStep_facts b ev
    obtain ⟨ih1, ih2⟩ := ih (bootStep b ev)
    have hrun : bootRun b (ev :: evs) = bootRun (bootStep b ev) evs := rfl
    rw [hrun]
    constructor
    · intro hf
      obtain ⟨hf', hd⟩ := hfin hf
      rw [ih1 hf', hd]
    · rcases hcases with h | ⟨-, hf', -, hd⟩ | ⟨-, hf', -, hd⟩
      · omega
      · rw [ih1 hf', hd]
      · rw [ih1 hf', hd]

/-- With the poll stopped, only a hook can still call `done`: a sequence of
events without the hook `socketlib.ready` and without a `ready` hook that finds
socketlib usable calls it no more. -/
theorem bootRun_no_hook (evs : List BootEvent) :
    ∀ b : Bootstrap, b.polling = false → (∀ ev ∈ evs, ev.isReadyHook = false) →
      (bootRun b evs).doneCalls = b.doneCalls := by
  induction evs with
  | nil => intro b _ _; rfl
  | cons ev evs ih =>
    intro b hp hev
    obtain ⟨-, hstop, hcases, -⟩ := bootStep_facts b ev
    have hno := hev ev (List.mem_cons_self _ _)
    have hrun : bootRun b (ev :: evs) = bootRun (bootStep b ev) evs := rfl
    rw [hrun, ih (bootStep b ev) (hstop hp).1 (fun e he => hev e (List.mem_cons_of_mem _ he))]
    rcases hcases with h | ⟨-, -, h, -⟩ | ⟨-, -, h, -⟩
    · exact h
    · rw [hno] at h; exact absurd h (by simp)
    · rw [hp] at h; exact absurd h (by simp)

/-- Before the timeout, while socketlib stays unusable, the poll keeps running
and no notice is issued. -/
theorem bootRun_before_timeout (pre : List BootEvent) :
    ∀ b : Bootstrap, b.polling = true → b.doneCalls ≤ 1 →
      (b.finished = false → b.doneCalls = 0) →
      (∀ ev ∈ pre, ev.beforeTimeout b.startedAt) →
      (bootRun b pre).polling = true ∧ (bootRun b pre).notices = b.notices ∧
      (bootRun b pre).startedAt = b.startedAt ∧ (bootRun b pre).doneCalls ≤ 1 ∧
      ((bootRun b pre).finished = false → (bootRun b pre).doneCalls = 0) := by
  induction pre with
  | nil => intro b hp hd hf _; exact ⟨hp, rfl, rfl, hd, hf⟩
  | cons ev evs ih =>
    intro b hp hd hf hev
    have h0 := hev ev (List.mem_cons_self _ _)
    have hstep : (bootStep b ev).polling = true ∧ (bootStep b ev).notices = b.notices ∧
        (bootStep b ev).startedAt = b.startedAt ∧ (bootStep b ev).doneCalls ≤ 1 ∧
        ((bootStep b ev).finished = false → (bootStep b ev).doneCalls = 0) := by
      cases ev with
      | socketlibReadyHook =>
        by_cases h1 : b.onSocketlibReady <;> by_cases h2 : b.finished <;>
          simp_all [bootStep, finish]
      | readyHook usable =>
        simp only [BootEvent.beforeTimeout] at h0
        subst h0
        by_cases h1 : b.onReady <;> simp_all [bootStep]
      | pollTick now usable =>
        simp only [BootEvent.beforeTimeout] at h0
        obtain ⟨rfl, h0⟩ := h0
        have hnot : ¬ (now - b.startedAt > 4000) := by omega
        have hs : bootStep b (BootEvent.pollTick now false) = b := by
          simp [bootStep, hp, hnot]
        rw [hs]
        exact ⟨hp, rfl, rfl, hd, hf⟩
    obtain ⟨s1, s2, s3, s4, s5⟩ := hstep
    obtain ⟨r1, r2, r3, r4, r5⟩ := ih (bootStep b ev) s1 s4 s5
      (fun e he => by rw [s3]; exact hev e (List.mem_cons_of_mem _ he))
    have hrun : bootRun b (ev :: evs) = bootRun (bootStep b ev) evs := rfl
    rw [hrun]
    exact ⟨r1, by rw [r2, s2], by rw [r3, s3], r4, r5⟩

/-- C17, counterexample: socketlib is active and unusable, the poll tick at
4100 ms finds it still unusable and issues the notice, and then the hook
`socketlib.ready` is called: `finish` is still registered for it and calls
`done`. -/
theorem C17_late_hook_counterexample :
    _ensureSocketlibReady activeModule false 0
      = Except.ok (Bootstrap.waiting 0) ∧
    (bootRun (Bootstrap.waiting 0)
      [BootEvent.pollTick 4100 false]).notices
      = ["Archive of Observers: socketlib did not initialize."] ∧
    (bootRun (Bootstrap.waiting 0)
      [BootEvent.pollTick 4100 false]).doneCalls = 0 ∧
    (bootRun (Bootstrap.waiting 0)
      [BootEvent.pollTick 4100 false, BootEvent.socketlibReadyHook]).doneCalls = 1 := by
  exact ⟨rfl, rfl, rfl, rfl⟩

/-- C17, amended: in `_ensureSocketlibReady` with socketlib installed and
active but not usable at call time, if it has not become usable when the first
poll tick later than 4000 ms after the call runs, that tick issues the notice
"socketlib did not initialize", the only notice so far, and stops the poll.
Whatever happens afterwards, no further notice is issued, the poll stays
stopped and no poll tick calls `done`; `done` is called at most once in the
whole session, and after the timeout only by the hook `socketlib.ready` or by
the hook `ready` finding socketlib usable: without such a hook the number of
calls stays what it was. -/
theorem C17_timeout_notice_once (mod : JSVal) (now0 nowT : Int) (pre post : List BootEvent)
    (hmod : mod.truthy = true) (hactive : (mod.prop "active").truthy = true)
    (hpre : ∀ ev ∈ pre, ev.beforeTimeout now0) (hT : nowT - now0 > 4000) :
    ∃ b0, _ensureSocketlibReady mod false now0 = Except.ok b0 ∧
      (afterTick b0 pre nowT).notices
        = ["Archive of Observers: socketlib did not initialize."] ∧
      (afterTick b0 pre nowT).polling = false ∧
      (bootRun (afterTick b0 pre nowT) post).notices
        = ["Archive of Observers: socketlib did not initialize."] ∧
      (bootRun (afterTick b0 pre nowT) post).polling = false ∧
      (bootRun (afterTick b0 pre nowT) post).doneCalls ≤ 1 ∧
      ((∀ ev ∈ post, ev.isReadyHook = false) →
        (bootRun (afterTick b0 pre nowT) post).doneCalls
          = (afterTick b0 pre nowT).doneCalls) := by
  refine ⟨_, ensureSocketlibReady_waiting mod now0 hmod hactive, ?_⟩
  have hb := bootRun_before_timeout pre (Bootstrap.waiting now0) rfl
    (by simp [Bootstrap.waiting]) (fun _ => rfl) hpre
  have p1 : (bootRun (Bootstrap.waiting now0) pre).polling = true := hb.1
  have p2 : (bootRun (Bootstrap.waiting now0) pre).notices = [] := hb.2.1
  have p3 : (bootRun (Bootstrap.waiting now0) pre).startedAt = now0 := hb.2.2.1
  have p4 : (bootRun (Bootstrap.waiting now0) pre).doneCalls ≤ 1 := hb.2.2.2.1
  have p5 : (bootRun (Bootstrap.waiting now0) pre).finished = false →
      (bootRun (Bootstrap.waiting now0) pre).doneCalls = 0 := hb.2.2.2.2
  have hgt : nowT - (bootRun (Bootstrap.waiting now0) pre).startedAt > 4000 := by rw [p3]; exact hT
  have hn : (afterTick (Bootstrap.waiting now0) pre nowT).notices
      = ["Archive of Observers: socketlib did not initialize."] := by
    simp [afterTick, bootStep, p1, p2, hgt]
  have hp : (afterTick (Bootstrap.waiting now0) pre nowT).polling = false := by
    simp [afterTick, bootStep, p1, hgt]
  have hd : (afterTick (Bootstrap.waiting now0) pre nowT).doneCalls
      = (bootRun (Bootstrap.waiting now0) pre).doneCalls := by
    simp [afterTick, bootStep, p1, hgt]
  have hf : (afterTick (Bootstrap.waiting now0) pre nowT).finished
      = (bootRun (Bootstrap.waiting now0) pre).finished := by
    simp [afterTick, bootStep, p1, hgt]
  obtain ⟨q1, q2⟩ := bootRun_poll_stopped post _ hp
  obtain ⟨r1, r2⟩ := bootRun_done_once post (afterTick (Bootstrap.waiting now0) pre nowT)
  refine ⟨hn, hp, by rw [q2, hn], q1, ?_, fun h => bootRun_no_hook post _ hp h⟩
  by_cases hfin : (afterTick (Bootstrap.waiting now0) pre nowT).finished = true
  · rw [r1 hfin, hd]; exact p4
  · have h0 := p5 (by rw [← hf]; simpa using hfin)
    rw [hd, h0] at r2
    simpa using r2

/-- C17, witness: two quiet poll ticks, the tick at 4100 ms, then more ticks. -/
theorem C17_timeout_notice_once_witness :
    ∃ b0, _ensureSocketlibReady activeModule false 0 = Except.ok b0 ∧
      (afterTick b0 [BootEvent.pollTick 100 false, BootEvent.pollTick 200 false] 4100).notices
        = ["Archive of Observers: socketlib did not initialize."] ∧
      (afterTick b0 [BootEvent.pollTick 100 false, BootEvent.pollTick 200 false]
        4100).polling = false ∧
      (bootRun (afterTick b0 [BootEvent.pollTick 100 false, BootEvent.pollTick 200 false] 4100)
        [BootEvent.pollTick 4200 true]).notices
        = ["Archive of Observers: socketlib did not initialize."] ∧
      (bootRun (afterTick b0 [BootEvent.pollTick 100 false, BootEvent.pollTick 200 false] 4100)
        [BootEvent.pollTick 4200 true]).polling = false ∧
      (bootRun (afterTick b0 [BootEvent.pollTick 100 false, BootEvent.pollTick 200 false] 4100)
        [BootEvent.pollTick 4200 true]).doneCalls ≤ 1 ∧
      ((∀ ev ∈ [BootEvent.pollTick 4200 true], ev.isReadyHook = false) →
        (bootRun (afterTick b0 [BootEvent.pollTick 100 false, BootEvent.pollTick 200 false]
          4100) [BootEvent.pollTick 4200 true]).doneCalls
          = (afterTick b0 [BootEvent.pollTick 100 false, BootEvent.pollTick 200 false]
              4100).doneCalls) :=
  C17_timeout_notice_once activeModule 0 4100
    [BootEvent.pollTick 100 false, BootEvent.pollTick 200 false]
    [BootEvent.pollTick 4200 true] rfl rfl
    (by
      intro ev hev
      simp only [List.mem_cons, List.mem_singleton, List.not_mem_nil, or_false] at hev
      rcases hev with rfl | rfl <;> simp [BootEvent.beforeTimeout])
    (by norm_num)

/-- C18: when the socketlib module is missing or inactive as `initCameraSync`
runs, `_ensureSocketlibReady` throws nothing, issues exactly one error notice,
does not call `done` (so no RPC is registered, no broadcast starts, no
initial-view request is sent), registers no hook and starts no poll; no later
hook or tick changes any of that. -/
theorem C18_socketlib_missing (mod : JSVal) (usable : Bool) (now : Int)
    (hmissing : mod.truthy = false ∨ (mod.prop "active").truthy = false) :
    ∃ b, initCameraSync mod usable now = Except.ok b ∧
      b.notices = ["Archive of Observers: socketlib is required and not active."] ∧
      b.doneCalls = 0 ∧ b.onSocketlibReady = false ∧ b.onReady = false ∧ b.polling = false ∧
      (∀ isObserver user, b.syncActions isObserver user = []) ∧
      (∀ evs, bootRun b evs = b) := by
  have hquiet : ∀ evs : List BootEvent, bootRun
      Bootstrap.unavailable evs
      = Bootstrap.unavailable := by
    intro evs
    induction evs with
    | nil => rfl
    | cons ev evs ih =>
      have : bootStep Bootstrap.unavailable ev
          = Bootstrap.unavailable := by
        cases ev <;> rfl
      simpa [bootRun, this] using ih
  refine ⟨Bootstrap.unavailable, ?_, rfl, rfl, rfl,
    rfl, rfl, fun _ _ => rfl, hquiet⟩
  by_cases hm : mod.truthy = true
  · have ha : (mod.prop "active").truthy = false := by
      rcases hmissing with h | h
      · rw [hm] at h; exact absurd h (by simp)
      · exact h
    simp [initCameraSync, _ensureSocketlibReady, hm, ha, readProp_of_truthy hm, bind,
      Except.bind, pure, Except.pure]
  · simp [initCameraSync, _ensureSocketlibReady, hm, pure, Except.pure]

/-- C18, witness: socketlib is installed and switched off. -/
theorem C18_socketlib_missing_witness :
    ∃ b, initCameraSync inactiveModule true 0 = Except.ok b ∧
      b.notices = ["Archive of Observers: socketlib is required and not active."] ∧
      b.doneCalls = 0 ∧ b.onSocketlibReady = false ∧ b.onReady = false ∧ b.polling = false ∧
      (∀ isObserver user, b.syncActions isObserver user = []) ∧
      (∀ evs, bootRun b evs = b) :=
  C18_socketlib_missing inactiveModule true 0 (Or.inr rfl)

/-! ## Properties of the numerals -/

/-- The character of a decimal digit has the code of `'0'` plus the digit. -/
theorem digitChar_toNat (d : Nat) (h : d < 10) : (Nat.digitChar d).toNat = 48 + d := by
  interval_cases d <;> rfl

/-- The character of a decimal digit is read as that digit. -/
theorem digitValue_digitChar (d : Nat) (h : d < 10) :
    digitValue 10 (Nat.digitChar d) = some d := by
  interval_cases d <;> rfl

/-- Reading digits followed by more text goes on where the digits end. -/
theorem parseDigits_append (xs : List Char) :
    ∀ (acc : Nat) (ys : List Char), (∀ c ∈ xs, (digitValue 10 c).isSome = true) →
      parseDigits 10 acc (xs ++ ys) = parseDigits 10 (parseDigits 10 acc xs) ys := by
  induction xs with
  | nil => intro acc ys _; rfl
  | cons x xs ih =>
    intro acc ys h
    obtain ⟨d, hd⟩ := Option.isSome_iff_exists.1 (h x (List.mem_cons_self _ _))
    simp only [List.cons_append, parseDigits, hd]
    exact ih _ _ (fun c hc => h c (List.mem_cons_of_mem _ hc))

/-- A decimal numeral is made of digits that `parseInt` reads. -/
theorem decimalFuel_digits (fuel : Nat) :
    ∀ n, ∀ c ∈ decimalFuel fuel n, (digitValue 10 c).isSome = true := by
  induction fuel with
  | zero => intro n c hc; simp [decimalFuel] at hc
  | succ f ih =>
    intro n c hc
    unfold decimalFuel at hc
    split_ifs at hc with h
    · simp only [List.mem_singleton] at hc
      subst hc
      rw [digitValue_digitChar n h]; rfl
    · rcases List.mem_append.1 hc with h1 | h1
      · exact ih _ c h1
      · simp only [List.mem_singleton] at h1
        subst h1
        rw [digitValue_digitChar _ (Nat.mod_lt _ (by norm_num))]; rfl

/-- The digits of a decimal numeral spell the number. -/
theorem parseDigits_decimalFuel (fuel : Nat) :
    ∀ n, n < fuel → parseDigits 10 0 (decimalFuel fuel n) = n := by
  induction fuel with
  | zero => intro n h; omega
  | succ f ih =>
    intro n hn
    unfold decimalFuel
    split_ifs with h
    · simp [parseDigits, digitValue_digitChar n h]
    · rw [parseDigits_append _ _ _ (decimalFuel_digits f _), ih (n / 10) (by omega)]
      simp only [parseDigits, digitValue_digitChar _ (Nat.mod_lt n (by norm_num : 10 > 0))]
      omega

/-- The characters of a decimal numeral are between `'0'` and `'9'`. -/
theorem decimalFuel_range (fuel : Nat) :
    ∀ n, ∀ c ∈ decimalFuel fuel n, 48 ≤ c.toNat ∧ c.toNat ≤ 57 := by
  induction fuel with
  | zero => intro n c hc; simp [decimalFuel] at hc
  | succ f ih =>
    intro n c hc
    unfold decimalFuel at hc
    split_ifs at hc with h
    · simp only [List.mem_singleton] at hc
      subst hc
      rw [digitChar_toNat n h]; omega
    · rcases List.mem_append.1 hc with h1 | h1
      · exact ih _ c h1
      · simp only [List.mem_singleton] at h1
        subst h1
        have := Nat.mod_lt n (by norm_num : 10 > 0)
        rw [digitChar_toNat _ this]; omega

/-- A decimal numeral has a digit. -/
theorem decimalFuel_ne_nil (fuel n : Nat) : decimalFuel (fuel + 1) n ≠ [] := by
  unfold decimalFuel
  split_ifs <;> simp

/-- A text of decimal digits has no white space, sign or `0x` to strip, and
starts with a digit. -/
theorem parse_digit_list (ds : List Char) (hne : ds ≠ [])
    (hd : ∀ c ∈ ds, 48 ≤ c.toNat ∧ c.toNat ≤ 57) :
    ds.dropWhile isStrWhiteSpace = ds ∧ stripSign ds = (false, ds) ∧
    stripHexPrefix ds = (10, ds) ∧
    ∃ c cs, ds = c :: cs ∧ (digitValue 10 c).isSome = true := by
  match ds, hne, hd with
  | c :: cs, _, hd =>
    have hc := hd c (List.mem_cons_self _ _)
    have hws : isStrWhiteSpace c = false := by
      simp only [isStrWhiteSpace, Bool.or_eq_false_iff, Bool.and_eq_false_iff,
        beq_eq_false_iff_ne, decide_eq_false_iff_not]
      omega
    refine ⟨?_, ?_, ?_, c, cs, rfl, ?_⟩
    · simp [List.dropWhile, hws]
    · have h1 : c.toNat ≠ 45 := by omega
      have h2 : c.toNat ≠ 43 := by omega
      simp [stripSign, h1, h2]
    · cases cs with
      | nil => rfl
      | cons b r =>
        have hb := hd b (List.mem_cons_of_mem _ (List.mem_cons_self _ _))
        have : ¬ (c.toNat = 48 ∧ (b.toNat = 120 ∨ b.toNat = 88)) := by omega
        simp [stripHexPrefix, this]
    · have : (48 ≤ c.toNat ∧ c.toNat ≤ 57) := hc
      have hlt : c.toNat - 48 < 10 := by omega
      simp [digitValue, this, Option.filter, hlt]

/-- `parseInt` of a text of decimal digits. -/
theorem parseInt_of_digits (ds : List Char) (hne : ds ≠ [])
    (hd : ∀ c ∈ ds, 48 ≤ c.toNat ∧ c.toNat ≤ 57) :
    parseInt (String.mk ds) = some (parseDigits 10 0 ds : Int) := by
  obtain ⟨h1, h2, h3, c, cs, rfl, h4⟩ := parse_digit_list ds hne hd
  unfold parseInt
  simp only [String.toList]
  rw [h1, h2]
  simp only []
  rw [h3]
  simp [h4]

/-- `parseInt` of a minus sign and decimal digits. -/
theorem parseInt_neg_digits (ds : List Char) (hne : ds ≠ [])
    (hd : ∀ c ∈ ds, 48 ≤ c.toNat ∧ c.toNat ≤ 57) :
    parseInt (String.mk ('-' :: ds)) = some (-(parseDigits 10 0 ds : Int)) := by
  obtain ⟨h1, h2, h3, c, cs, rfl, h4⟩ := parse_digit_list ds hne hd
  have hminus : isStrWhiteSpace '-' = false := by decide
  have hs : stripSign ('-' :: c :: cs) = (true, c :: cs) := by
    simp [stripSign]
  unfold parseInt
  simp only [String.toList, List.dropWhile, hminus]
  rw [hs]
  simp only []
  rw [h3]
  simp [h4]

/-- Reading back the numeral of an integer gives the integer. -/
theorem parseInt_intToString (n : Int) : parseInt (intToString n) = some n := by
  cases n with
  | ofNat m =>
    simp only [intToString]
    rw [parseInt_of_digits _ (decimalFuel_ne_nil _ _) (decimalFuel_range _ _),
      parseDigits_decimalFuel (m + 1) m (by omega)]
    rfl
  | negSucc m =>
    simp only [intToString]
    rw [parseInt_neg_digits _ (decimalFuel_ne_nil _ _) (decimalFuel_range _ _),
      parseDigits_decimalFuel (m + 2) (m + 1) (by omega)]
    rfl

/-! ## Properties of `modifyFirst` -/

/-- The first match after a change to the first match that keeps it a match. -/
theorem find?_modifyFirst {α : Type} (p : α → Bool) (f : α → α)
    (hf : ∀ a, p a = true → p (f a) = true) (l : List α) :
    (modifyFirst p f l).find? p = (l.find? p).map f := by
  induction l with
  | nil => rfl
  | cons a as ih =>
    by_cases h : p a = true
    · simp [modifyFirst, h, hf a h]
    · simp [modifyFirst, h, ih]

/-- The first match of another test after a change to elements it does not
match, before or after. -/
theorem find?_modifyFirst_other {α : Type} (p q : α → Bool) (f : α → α)
    (h1 : ∀ a, p a = true → q a = false) (h2 : ∀ a, p a = true → q (f a) = false)
    (l : List α) : (modifyFirst p f l).find? q = l.find? q := by
  induction l with
  | nil => rfl
  | cons a as ih =>
    by_cases h : p a = true
    · simp [modifyFirst, h, h1 a h, h2 a h]
    · by_cases hq : q a = true <;> simp [modifyFirst, h, hq, ih]

/-- Two changes to the first match are one. -/
theorem modifyFirst_modifyFirst {α : Type} (p : α → Bool) (f g : α → α)
    (hf : ∀ a, p a = true → p (f a) = true) (l : List α) :
    modifyFirst p g (modifyFirst p f l) = modifyFirst p (fun a => g (f a)) l := by
  induction l with
  | nil => rfl
  | cons a as ih =>
    by_cases h : p a = true
    · simp [modifyFirst, h, hf a h]
    · simp [modifyFirst, h, ih]

/-- An element after a change to the first match was there before, or is the
changed first match. -/
theorem mem_modifyFirst {α : Type} (p : α → Bool) (f : α → α) (l : List α) (b : α)
    (hb : b ∈ modifyFirst p f l) :
    b ∈ l ∨ ∃ a, l.find? p = some a ∧ b = f a := by
  induction l with
  | nil => simp [modifyFirst] at hb
  | cons a as ih =>
    by_cases h : p a = true
    · simp only [modifyFirst, h, if_true, List.mem_cons] at hb
      rcases hb with rfl | hb
      · exact Or.inr ⟨a, by simp [h], rfl⟩
      · exact Or.inl (List.mem_cons_of_mem _ hb)
    · simp only [modifyFirst, h, if_false, List.mem_cons, Bool.false_eq_true] at hb
      rcases hb with rfl | hb
      · exact Or.inl (List.mem_cons_self _ _)
      · rcases ih hb with h' | ⟨a', ha', rfl⟩
        · exact Or.inl (List.mem_cons_of_mem _ h')
        · exact Or.inr ⟨a', by simp [h, ha'], rfl⟩

/-- A change to the first match changes nothing when there is no match. -/
theorem modifyFirst_of_find?_none {α : Type} (p : α → Bool) (f : α → α) (l : List α)
    (h : l.find? p = none) : modifyFirst p f l = l := by
  induction l with
  | nil => rfl
  | cons a as ih =>
    by_cases hp : p a = true
    · simp [hp] at h
    · simp only [List.find?, hp] at h
      simp [modifyFirst, hp, ih h]

/-- The matches of another test are counted the same after a change to elements
it does not match, before or after. -/
theorem countP_modifyFirst_other {α : Type} (p q : α → Bool) (f : α → α)
    (h : ∀ a, p a = true → q (f a) = q a) (l : List α) :
    (modifyFirst p f l).countP q = l.countP q := by
  induction l with
  | nil => rfl
  | cons a as ih =>
    by_cases hp : p a = true
    · simp [modifyFirst, hp, List.countP_cons, h a hp]
    · simp [modifyFirst, hp, List.countP_cons, ih]

/-- The matches after the first match was removed. -/
theorem countP_eraseP {α : Type} (p : α → Bool) (l : List α) :
    (l.eraseP p).countP p = l.countP p - 1 := by
  induction l with
  | nil => rfl
  | cons a as ih =>
    by_cases hp : p a = true
    · simp [List.eraseP_cons, hp, List.countP_cons]
    · simp [List.eraseP_cons, hp, List.countP_cons, ih]

/-! ## Properties of the player HUD -/

/-- An indicator step changes neither the user id, nor the GM class, nor the
hit points text of a card, and adds no death-save overlay. -/
theorem indicate_card (env : HudEnv) (kind : HealthChange) (c : PlayerCard) :
    (indicate env kind c).1.userId = c.userId ∧ (indicate env kind c).1.gmCard = c.gmCard ∧
    (indicate env kind c).1.hpText = c.hpText ∧
    (indicate env kind c).1.overlayCount = c.overlayCount := by
  unfold indicate playJB2AEffect PlayerCard.overlayCount
  by_cases hj : env.hasJB2A = true
  · cases kind <;> simp only [hj, if_true] <;> split_ifs <;>
      simp [List.countP_append, List.countP_cons, CardChild.isDeathSaveOverlay]
  · cases kind <;> simp [hj]

/-- The health check changes neither the user id, nor the GM class, nor the hit
points text of a card, and adds no death-save overlay. -/
theorem healthCheck_card (env : HudEnv) (newHP : Option Int) (oldHP : Int) (c : PlayerCard) :
    (healthCheck env newHP oldHP c).1.userId = c.userId ∧
    (healthCheck env newHP oldHP c).1.gmCard = c.gmCard ∧
    (healthCheck env newHP oldHP c).1.hpText = c.hpText ∧
    (healthCheck env newHP oldHP c).1.overlayCount = c.overlayCount := by
  unfold healthCheck
  cases newHP with
  | none => exact ⟨rfl, rfl, rfl, rfl⟩
  | some n =>
    simp only
    split_ifs
    · exact indicate_card env _ c
    · exact indicate_card env _ c
    · exact ⟨rfl, rfl, rfl, rfl⟩

/-- The health check makes no indicator when the hit points are what the card
showed. -/
theorem healthCheck_same (env : HudEnv) (n : Int) (c : PlayerCard) :
    healthCheck env (some n) n c = (c, none) := by
  simp [healthCheck]

/-- Which indicator the health check makes does not depend on the card. -/
theorem healthCheck_indicator (env : HudEnv) (newHP : Option Int) (oldHP : Int)
    (c c' : PlayerCard) :
    (healthCheck env newHP oldHP c).2 = (healthCheck env newHP oldHP c').2 := by
  unfold healthCheck indicate playJB2AEffect
  cases newHP with
  | none => rfl
  | some n =>
    simp only
    split_ifs <;> rfl

/-- Writing the death-save overlay leaves exactly one overlay on a card that had
at most one, showing the markup for the counters, with the class `active`. -/
theorem setDeathSave_card (s f : JSNum) (c : PlayerCard) :
    (c.setDeathSave s f).userId = c.userId ∧ (c.setDeathSave s f).gmCard = c.gmCard ∧
    (c.setDeathSave s f).hpText = c.hpText ∧
    (c.setDeathSave s f).children.find? CardChild.isDeathSaveOverlay
      = some (CardChild.deathSaveOverlay (deathSaveMarkup s f) true) ∧
    (c.overlayCount ≤ 1 → (c.setDeathSave s f).overlayCount = 1) := by
  unfold PlayerCard.setDeathSave PlayerCard.overlayCount
  by_cases h : c.children.any CardChild.isDeathSaveOverlay = true
  · simp only [h, if_true]
    refine ⟨by trivial, by trivial, by trivial, ?_, ?_⟩
    · rw [find?_modifyFirst _ _ (fun _ _ => rfl)]
      obtain ⟨a, ha, hpa⟩ := List.any_eq_true.1 h
      cases hfind : c.children.find? CardChild.isDeathSaveOverlay with
      | none =>
        have := List.find?_eq_none.1 hfind a ha
        exact absurd hpa this
      | some b => rfl
    · intro hle
      rw [countP_modifyFirst_other _ _ _ (fun a ha => by rw [ha]; rfl)]
      obtain ⟨a, ha, hpa⟩ := List.any_eq_true.1 h
      have hpos : 0 < c.children.countP CardChild.isDeathSaveOverlay :=
        List.countP_pos_iff.2 ⟨a, ha, hpa⟩
      omega
  · simp only [h, if_false, Bool.false_eq_true]
    have hnone : ∀ a ∈ c.children, ¬ CardChild.isDeathSaveOverlay a = true := by
      intro a ha hpa
      exact h (List.any_eq_true.2 ⟨a, ha, hpa⟩)
    have hcount : c.children.countP CardChild.isDeathSaveOverlay = 0 :=
      List.countP_eq_zero.2 hnone
    refine ⟨by trivial, by trivial, by trivial, ?_, ?_⟩
    · rw [List.find?_append, List.find?_eq_none.2 hnone]
      rfl
    · intro _
      simp [List.countP_append, hcount, List.countP_cons, CardChild.isDeathSaveOverlay]

/-- Clearing the death-save overlay leaves none on a card that had at most one. -/
theorem clearDeathSave_card (c : PlayerCard) :
    c.clearDeathSave.userId = c.userId ∧ c.clearDeathSave.gmCard = c.gmCard ∧
    c.clearDeathSave.hpText = c.hpText ∧
    (c.overlayCount ≤ 1 → c.clearDeathSave.overlayCount = 0) := by
  refine ⟨rfl, rfl, rfl, ?_⟩
  intro h
  unfold PlayerCard.overlayCount PlayerCard.clearDeathSave at *
  simp only [countP_eraseP]
  omega

/-- The death-save step changes neither the user id, nor the GM class, nor the
hit points text of a card. -/
theorem deathSaveStep_card (isZero : Bool) (death : Option DeathData) (c : PlayerCard) :
    (c.deathSaveStep isZero death).userId = c.userId ∧
    (c.deathSaveStep isZero death).gmCard = c.gmCard ∧
    (c.deathSaveStep isZero death).hpText = c.hpText := by
  unfold PlayerCard.deathSaveStep
  cases isZero <;> cases death <;>
    first
      | exact ⟨(clearDeathSave_card c).1, (clearDeathSave_card c).2.1, (clearDeathSave_card c).2.2.1⟩
      | exact ⟨(setDeathSave_card _ _ c).1, (setDeathSave_card _ _ c).2.1,
          (setDeathSave_card _ _ c).2.2.1⟩

/-- After the death-save step a card that had at most one overlay has none when
the hit points are not zero, and exactly one when they are zero and there is
death-save data. -/
theorem deathSaveStep_count (isZero : Bool) (death : Option DeathData) (c : PlayerCard)
    (h : c.overlayCount ≤ 1) :
    (isZero = false → (c.deathSaveStep isZero death).overlayCount = 0) ∧
    (isZero = true → death.isSome = true → (c.deathSaveStep isZero death).overlayCount = 1) ∧
    (c.deathSaveStep isZero death).overlayCount ≤ 1 := by
  unfold PlayerCard.deathSaveStep
  have hc := (clearDeathSave_card c).2.2.2 h
  cases isZero with
  | false => cases death <;> simp <;> exact ⟨hc, by omega⟩
  | true =>
    cases death with
    | none => simp; omega
    | some d =>
      have hs := (setDeathSave_card d.success d.failure c).2.2.2.2 h
      simp only [Option.isSome_some, forall_const, true_and]
      exact ⟨by simp, hs, by omega⟩

/-- Adding the visual of one condition adds no death-save overlay. -/
theorem addConditionVisual_count (env : HudEnv) (children : List CardChild)
    (e : ActiveEffect) :
    (addConditionVisual env children e).countP CardChild.isDeathSaveOverlay
      = children.countP CardChild.isDeathSaveOverlay := by
  unfold addConditionVisual
  cases conditionKey e with
  | none => rfl
  | some key =>
    simp only
    split_ifs
    · simp [List.countP_append, List.countP_cons, CardChild.isDeathSaveOverlay]
    · apply countP_modifyFirst_other
      intro a ha
      cases a <;> simp_all [CardChild.isConditions, CardChild.isDeathSaveOverlay]
    · simp [List.countP_append, List.countP_cons, CardChild.isDeathSaveOverlay]

/-- `applyConditionEffects` changes neither the user id, nor the GM class, nor
the hit points text of a card, nor the number of its death-save overlays. -/
theorem applyConditionEffects_card (env : HudEnv) (actor : Actor) (c : PlayerCard) :
    (applyConditionEffects env actor c).userId = c.userId ∧
    (applyConditionEffects env actor c).gmCard = c.gmCard ∧
    (applyConditionEffects env actor c).hpText = c.hpText ∧
    (applyConditionEffects env actor c).overlayCount = c.overlayCount := by
  refine ⟨rfl, rfl, rfl, ?_⟩
  unfold applyConditionEffects PlayerCard.overlayCount
  simp only
  have hfold : ∀ (es : List ActiveEffect) (ch : List CardChild),
      (es.foldl (addConditionVisual env) ch).countP CardChild.isDeathSaveOverlay
        = ch.countP CardChild.isDeathSaveOverlay := by
    intro es
    induction es with
    | nil => intro ch; rfl
    | cons e es ih =>
      intro ch
      simp only [List.foldl_cons]
      rw [ih, addConditionVisual_count]
  rw [hfold, List.countP_filter]
  apply List.countP_congr
  intro a _
  cases a <;> simp [CardChild.isDeathSaveOverlay, CardChild.isConditionVisual]

/-- C14, at the failing input: JB2A is active and the add-on's settings are as
registered (`jb2aDamage` and `jb2aHeal` are the empty string). The card of
`user1` shows 10 and the hit points become 6: the handler takes the JB2A branch,
`playJB2AEffect` returns at `if (!file) return`, and no indicator is made: no
flash class, no video. The same for 6 becoming 10, and for the poller. -/
theorem C14_jb2a_without_file_no_indicator :
    (updateActorHandler (sampleEnv true 6) [sampleCard 10] (sampleActor 6)
      (HpValue.num 6)).indicators = [] ∧
    (updateActorHandler (sampleEnv true 6) [sampleCard 10] (sampleActor 6)
      (HpValue.num 6)).cards = [sampleCard 6] ∧
    (updateActorHandler (sampleEnv true 10) [sampleCard 6] (sampleActor 10)
      (HpValue.num 10)).indicators = [] ∧
    (pollerTick (sampleEnv true 6) (some [sampleCard 10])) = (some [sampleCard 6], []) := by
  refine ⟨?_, ?_, ?_, ?_⟩ <;> rfl

/-- The markup for finite counters: `dead` exactly when there are three failures
or more, `stabilized` exactly when there are fewer and three successes or more,
the live counter of both exactly when there are fewer than three of each. -/
theorem deathSaveMarkup_fin (s f : ℚ) :
    (deathSaveMarkup (JSNum.fin s) (JSNum.fin f) = DeathSaveMarkup.dead ↔ 3 ≤ f) ∧
    (deathSaveMarkup (JSNum.fin s) (JSNum.fin f) = DeathSaveMarkup.stabilized
      ↔ f < 3 ∧ 3 ≤ s) ∧
    (deathSaveMarkup (JSNum.fin s) (JSNum.fin f)
        = DeathSaveMarkup.counter (JSNum.fin s) (JSNum.fin f) ↔ f < 3 ∧ s < 3) ∧
    (∀ a b, deathSaveMarkup (JSNum.fin s) (JSNum.fin f) = DeathSaveMarkup.counter a b →
      a = JSNum.fin s ∧ b = JSNum.fin f) := by
  unfold deathSaveMarkup JSNum.geThree
  by_cases hf : 3 ≤ f
  · have hf' : ¬ f < 3 := not_lt.2 hf
    simp [hf, hf']
  · have hf' : f < 3 := not_le.1 hf
    by_cases hs : 3 ≤ s
    · have hs' : ¬ s < 3 := not_lt.2 hs
      simp [hf, hf', hs, hs']
    · have hs' : s < 3 := not_le.1 hs
      simp [hf, hf', hs, hs']

/-- C12: on a document with a card for the user, `updateDeathSaveOverlay` with
counters `s` and `f` leaves on that card an active overlay whose markup is one
of three: "Dead" if and only if `f >= 3`, whatever `s` is; "Stabilized" if and
only if `f < 3` and `s >= 3`; the live counter, showing `s` and `f`, if and only
if both are below three. -/
theorem C12_death_save_three_states (cards : List PlayerCard) (userId : String)
    (card : PlayerCard) (s f : ℚ)
    (hcard : cards.find? (hasUserId userId) = some card) :
    ∃ card' html,
      (updateDeathSaveOverlay cards userId (JSNum.fin s) (JSNum.fin f)).find?
        (hasUserId userId) = some card' ∧
      card'.children.find? CardChild.isDeathSaveOverlay
        = some (CardChild.deathSaveOverlay html true) ∧
      (html = DeathSaveMarkup.dead ↔ 3 ≤ f) ∧
      (html = DeathSaveMarkup.stabilized ↔ f < 3 ∧ 3 ≤ s) ∧
      (html = DeathSaveMarkup.counter (JSNum.fin s) (JSNum.fin f) ↔ f < 3 ∧ s < 3) ∧
      (∀ a b, html = DeathSaveMarkup.counter a b → a = JSNum.fin s ∧ b = JSNum.fin f) := by
  refine ⟨card.setDeathSave (JSNum.fin s) (JSNum.fin f),
    deathSaveMarkup (JSNum.fin s) (JSNum.fin f), ?_, ?_, deathSaveMarkup_fin s f⟩
  · unfold updateDeathSaveOverlay
    rw [find?_modifyFirst, hcard]
    · rfl
    · intro a ha
      unfold hasUserId at *
      rw [(setDeathSave_card _ _ a).1]
      exact ha
  · exact (setDeathSave_card _ _ card).2.2.2.1

/-- C12 at the card of `user1`, with one success and three failures. -/
theorem C12_death_save_three_states_witness :
    [sampleCard 0].find? (hasUserId "user1") = some (sampleCard 0) ∧
    ∃ card' html,
      (updateDeathSaveOverlay [sampleCard 0] "user1" (JSNum.fin 1) (JSNum.fin 3)).find?
        (hasUserId "user1") = some card' ∧
      card'.children.find? CardChild.isDeathSaveOverlay
        = some (CardChild.deathSaveOverlay html true) ∧
      (html = DeathSaveMarkup.dead ↔ (3 : ℚ) ≤ 3) ∧
      (html = DeathSaveMarkup.stabilized ↔ (3 : ℚ) < 3 ∧ (3 : ℚ) ≤ 1) ∧
      (html = DeathSaveMarkup.counter (JSNum.fin 1) (JSNum.fin 3) ↔ (3 : ℚ) < 3 ∧ (1 : ℚ) < 3) ∧
      (∀ a b, html = DeathSaveMarkup.counter a b → a = JSNum.fin 1 ∧ b = JSNum.fin 3) :=
  ⟨rfl, C12_death_save_three_states [sampleCard 0] "user1" (sampleCard 0) 1 3 rfl⟩

/-- What the handler does to a card keeps its user id and GM class, writes the
text of the new hit points where the card has a hit points element, and leaves
no overlay unless the new hit points are zero. -/
theorem handlerCard_card (env : HudEnv) (actor : Actor) (newHP : HpValue) (oldHP : Int)
    (c : PlayerCard) :
    (handlerCard env actor newHP oldHP c).userId = c.userId ∧
    (handlerCard env actor newHP oldHP c).gmCard = c.gmCard ∧
    (handlerCard env actor newHP oldHP c).hpText = c.hpText.map (fun _ => newHP.text) ∧
    (c.overlayCount ≤ 1 →
      ((newHP == HpValue.num 0) = false →
        (handlerCard env actor newHP oldHP c).overlayCount = 0) ∧
      ((newHP == HpValue.num 0) = true → actor.death.isSome = true →
        (handlerCard env actor newHP oldHP c).overlayCount = 1) ∧
      (handlerCard env actor newHP oldHP c).overlayCount ≤ 1) := by
  unfold handlerCard
  have h1 := healthCheck_card env newHP.toNumber oldHP
    { c with hpText := c.hpText.map (fun _ => newHP.text) }
  have h2 := deathSaveStep_card (newHP == HpValue.num 0) actor.death
    (healthCheck env newHP.toNumber oldHP
      { c with hpText := c.hpText.map (fun _ => newHP.text) }).1
  have h3 := applyConditionEffects_card env actor
    (PlayerCard.deathSaveStep (newHP == HpValue.num 0) actor.death
      (healthCheck env newHP.toNumber oldHP
        { c with hpText := c.hpText.map (fun _ => newHP.text) }).1)
  refine ⟨?_, ?_, ?_, ?_⟩
  · rw [h3.1, h2.1, h1.1]
  · rw [h3.2.1, h2.2.1, h1.2.1]
  · rw [h3.2.2.1, h2.2.2, h1.2.2.1]
  · intro hle
    have hle' : (healthCheck env newHP.toNumber oldHP
        { c with hpText := c.hpText.map (fun _ => newHP.text) }).1.overlayCount ≤ 1 := by
      rw [h1.2.2.2]; exact hle
    have h4 := deathSaveStep_count (newHP == HpValue.num 0) actor.death _ hle'
    rw [h3.2.2.2]
    exact h4

/-- What the poller does to the card it put in place keeps its user id, GM class
and hit points text, and leaves no overlay unless the card shows zero. -/
theorem pollerCard_card (env : HudEnv) (actor : Actor) (oldHP : Int) (c : PlayerCard) :
    (pollerCard env actor oldHP c).userId = c.userId ∧
    (pollerCard env actor oldHP c).gmCard = c.gmCard ∧
    (pollerCard env actor oldHP c).hpText = c.hpText ∧
    (c.overlayCount ≤ 1 →
      ((c.shownHP == 0) = false → (pollerCard env actor oldHP c).overlayCount = 0) ∧
      ((c.shownHP == 0) = true → actor.death.isSome = true →
        (pollerCard env actor oldHP c).overlayCount = 1) ∧
      (pollerCard env actor oldHP c).overlayCount ≤ 1) := by
  unfold pollerCard
  have h1 := healthCheck_card env (some c.shownHP) oldHP c
  have h2 := deathSaveStep_card (c.shownHP == 0) actor.death
    (healthCheck env (some c.shownHP) oldHP c).1
  have h3 := applyConditionEffects_card env actor
    (PlayerCard.deathSaveStep (c.shownHP == 0) actor.death
      (healthCheck env (some c.shownHP) oldHP c).1)
  refine ⟨?_, ?_, ?_, ?_⟩
  · rw [h3.1, h2.1, h1.1]
  · rw [h3.2.1, h2.2.1, h1.2.1]
  · rw [h3.2.2.1, h2.2.2, h1.2.2.1]
  · intro hle
    have hle' : (healthCheck env (some c.shownHP) oldHP c).1.overlayCount ≤ 1 := by
      rw [h1.2.2.2]; exact hle
    have h4 := deathSaveStep_count (c.shownHP == 0) actor.death _ hle'
    rw [h3.2.2.2]
    exact h4

/-- The card the template renders carries the user's id, is no GM card, shows the
hit points, and has no overlay. -/
theorem buildPlayerCard_card (user : User) (actor : Actor) :
    (buildPlayerCard user actor).userId = some user.id ∧
    (buildPlayerCard user actor).gmCard = false ∧
    (buildPlayerCard user actor).hpText = some actor.hp.display ∧
    (buildPlayerCard user actor).overlayCount = 0 :=
  ⟨rfl, rfl, rfl, rfl⟩

/-- A card that shows the numeral of `n` shows the hit points `n`. -/
theorem shownHP_of_text (c : PlayerCard) (n : Int) (h : c.hpText = some (intToString n)) :
    c.shownHP = n := by
  unfold PlayerCard.shownHP
  rw [h]
  simp only [parseInt_intToString, Option.getD_some]

/-- The `updateActor` handler in an observer window, for an actor with a user
whose card is there and hit points that are not `undefined`: one change to that
card, and the indicator of the health check against what the card showed. -/
theorem updateActorHandler_eq (env : HudEnv) (cards : List PlayerCard) (actor : Actor)
    (dataHp : HpValue) (user : User) (card : PlayerCard)
    (hobs : env.isObserver = true) (huser : userOfActor env actor = some user)
    (hcard : cards.find? (hasUserId user.id) = some card)
    (hdef : dataHp.orElse actor.hp ≠ HpValue.undef) :
    (updateActorHandler env cards actor dataHp).cards
      = modifyFirst (hasUserId user.id)
          (handlerCard env actor (dataHp.orElse actor.hp) card.shownHP) cards ∧
    (updateActorHandler env cards actor dataHp).indicators
      = fileIndicator user.id
          (healthCheck env (dataHp.orElse actor.hp).toNumber card.shownHP card).2 := by
  have keep1 : ∀ a, hasUserId user.id a = true →
      hasUserId user.id
        { a with hpText := a.hpText.map (fun _ => (dataHp.orElse actor.hp).text) } = true :=
    fun a ha => ha
  have keep2 : ∀ a, hasUserId user.id a = true →
      hasUserId user.id
        (healthCheck env (dataHp.orElse actor.hp).toNumber card.shownHP a).1 = true := by
    intro a ha
    unfold hasUserId at *
    rw [(healthCheck_card _ _ _ a).1]; exact ha
  have keep3 : ∀ a, hasUserId user.id a = true →
      hasUserId user.id
        (PlayerCard.deathSaveStep (dataHp.orElse actor.hp == HpValue.num 0) actor.death a)
        = true := by
    intro a ha
    unfold hasUserId at *
    rw [(deathSaveStep_card _ _ a).1]; exact ha
  unfold updateActorHandler
  simp only [hobs, huser, hcard, hdef, Bool.not_true, Bool.false_eq_true, if_false]
  constructor
  · rw [modifyFirst_modifyFirst _ _ _ keep1, modifyFirst_modifyFirst _ _ _
      (fun a ha => keep2 _ (keep1 a ha)), modifyFirst_modifyFirst _ _ _
      (fun a ha => keep3 _ (keep2 _ (keep1 a ha)))]
    rfl
  · rw [find?_modifyFirst _ _ keep1, hcard]
    simp only [Option.map_some']
    rw [healthCheck_indicator env _ _ _ card]

/-- What the first loop of the poller does for one active user: nothing when the
user's card is what the template renders now; else one change to the first card
with the user's id, and the indicator of the health check of the fresh card
against what the old one showed; and a fresh card at the end when there is none. -/
theorem syncPlayer_eq (env : HudEnv) (st : TickState) (p : User × Actor) :
    syncPlayer env st p =
      match st.nodes.find? (nodeHasUserId p.1.id) with
      | some existing =>
        if existing.card ≠ buildPlayerCard p.1 p.2 then
          { nodes := modifyFirst (nodeHasUserId p.1.id)
              (fun _ => { captured := false,
                          card := pollerCard env p.2 existing.card.shownHP
                            (buildPlayerCard p.1 p.2) }) st.nodes,
            indicators := st.indicators ++ fileIndicator p.1.id
              (healthCheck env (some (buildPlayerCard p.1 p.2).shownHP)
                existing.card.shownHP (buildPlayerCard p.1 p.2)).2 }
        else st
      | none =>
        { st with nodes := st.nodes ++ [{ captured := false, card := buildPlayerCard p.1 p.2 }] } := by
  have hfresh : ∀ c : PlayerCard, c.userId = some p.1.id → ∀ b : Bool,
      nodeHasUserId p.1.id { captured := b, card := c } = true := by
    intro c hc b
    simp [nodeHasUserId, hasUserId, hc]
  have keep0 : ∀ a, nodeHasUserId p.1.id a = true →
      nodeHasUserId p.1.id
        ((fun _ => ({ captured := false, card := buildPlayerCard p.1 p.2 } : HudNode)) a) = true :=
    fun _ _ => hfresh _ rfl _
  unfold syncPlayer
  cases hfind : st.nodes.find? (nodeHasUserId p.1.id) with
  | none => rfl
  | some existing =>
    simp only
    by_cases hne : existing.card ≠ buildPlayerCard p.1 p.2
    · simp only [hne, not_false_eq_true, if_true, ne_eq]
      have hfind1 : (modifyFirst (nodeHasUserId p.1.id)
          (fun _ => ({ captured := false, card := buildPlayerCard p.1 p.2 } : HudNode))
          st.nodes).find? (nodeHasUserId p.1.id)
            = some { captured := false, card := buildPlayerCard p.1 p.2 } := by
        rw [find?_modifyFirst _ _ keep0, hfind]; rfl
      rw [hfind1]
      simp only
      have keep1 : ∀ a, nodeHasUserId p.1.id a = true →
          nodeHasUserId p.1.id
            (HudNode.mapCard (fun c => (healthCheck env (some (buildPlayerCard p.1 p.2).shownHP)
              existing.card.shownHP c).1) a) = true := by
        intro a ha
        unfold nodeHasUserId hasUserId HudNode.mapCard at *
        simp only
        rw [(healthCheck_card _ _ _ a.card).1]; exact ha
      have keep2 : ∀ a, nodeHasUserId p.1.id a = true →
          nodeHasUserId p.1.id
            (HudNode.mapCard (PlayerCard.deathSaveStep ((buildPlayerCard p.1 p.2).shownHP == 0)
              p.2.death) a) = true := by
        intro a ha
        unfold nodeHasUserId hasUserId HudNode.mapCard at *
        simp only
        rw [(deathSaveStep_card _ _ a.card).1]; exact ha
      rw [modifyFirst_modifyFirst _ _ _ keep0, modifyFirst_modifyFirst _ _ _
        (fun a ha => keep1 _ (keep0 a ha)), modifyFirst_modifyFirst _ _ _
        (fun a ha => keep2 _ (keep1 _ (keep0 a ha)))]
      rfl
    · simp only [hne, if_false]

/-- An element is still there after a change to the first match, or it was the
first match and its change is there. -/
theorem mem_modifyFirst_of_mem {α : Type} (p : α → Bool) (f : α → α) (l : List α) (a : α)
    (ha : a ∈ l) : a ∈ modifyFirst p f l ∨ (p a = true ∧ f a ∈ modifyFirst p f l) := by
  induction l with
  | nil => simp at ha
  | cons b bs ih =>
    by_cases h : p b = true
    · simp only [modifyFirst, h, if_true, List.mem_cons]
      rcases List.mem_cons.1 ha with rfl | ha'
      · exact Or.inr ⟨h, Or.inl rfl⟩
      · exact Or.inl (Or.inr ha')
    · simp only [modifyFirst, h, if_false, List.mem_cons, Bool.false_eq_true]
      rcases List.mem_cons.1 ha with rfl | ha'
      · exact Or.inl (Or.inl rfl)
      · rcases ih ha' with h1 | ⟨h1, h2⟩
        · exact Or.inl (Or.inr h1)
        · exact Or.inr ⟨h1, Or.inr h2⟩

/-- The first match is still the first match among the elements kept by a
filter that keeps it. -/
theorem find?_filter_of_find? {α : Type} (p q : α → Bool) (l : List α) (a : α)
    (h : l.find? p = some a) (hq : q a = true) : (l.filter q).find? p = some a := by
  induction l with
  | nil => simp at h
  | cons b bs ih =>
    by_cases hp : p b = true
    · have hb : b = a := by simpa [List.find?, hp] using h
      subst hb
      simp [List.filter, hq, hp]
    · have h' : bs.find? p = some a := by simpa [List.find?, hp] using h
      by_cases hqb : q b = true
      · simp [List.filter, hqb, hp, ih h']
      · simp [List.filter, hqb, ih h']

/-- The first loop of the poller, for one user, leaves the first card of any
other user id where and what it was. -/
theorem syncPlayer_find?_other (env : HudEnv) (st : TickState) (p : User × Actor)
    (uid : String) (hne : p.1.id ≠ uid) :
    (syncPlayer env st p).nodes.find? (nodeHasUserId uid)
      = st.nodes.find? (nodeHasUserId uid) := by
  have hoff : ∀ a, nodeHasUserId p.1.id a = true → nodeHasUserId uid a = false := by
    intro a ha
    simp only [nodeHasUserId, hasUserId, beq_iff_eq] at ha
    simp only [nodeHasUserId, hasUserId, ha, beq_eq_false_iff_ne, ne_eq, Option.some.injEq]
    exact hne
  rw [syncPlayer_eq]
  cases hfind : st.nodes.find? (nodeHasUserId p.1.id) with
  | none =>
    simp only [List.find?_append]
    have : List.find? (nodeHasUserId uid)
        [({ captured := false, card := buildPlayerCard p.1 p.2 } : HudNode)] = none := by
      simp only [List.find?_cons, List.find?_nil]
      rw [hoff _ (by simp [nodeHasUserId, hasUserId, (buildPlayerCard_card p.1 p.2).1])]
    rw [this]
    simp
  | some existing =>
    simp only
    split_ifs
    · apply find?_modifyFirst_other _ _ _ hoff
      intro a _
      apply hoff
      simp [nodeHasUserId, hasUserId, (pollerCard_card env p.2 _ _).1,
        (buildPlayerCard_card p.1 p.2).1]
    · rfl

/-- The elements of the HUD after the first loop of the poller ran for one user:
those that were there, and a new one, not among the captured, which is the card
the template renders for that user or what the poller made of it. -/
theorem syncPlayer_nodes (env : HudEnv) (st : TickState) (p : User × Actor) (n : HudNode)
    (hn : n ∈ (syncPlayer env st p).nodes) :
    n ∈ st.nodes ∨
      (n.captured = false ∧
        (n.card = buildPlayerCard p.1 p.2 ∨
          ∃ oldHP, n.card = pollerCard env p.2 oldHP (buildPlayerCard p.1 p.2))) := by
  rw [syncPlayer_eq] at hn
  cases hfind : st.nodes.find? (nodeHasUserId p.1.id) with
  | none =>
    rw [hfind] at hn
    simp only [List.mem_append, List.mem_singleton] at hn
    rcases hn with h | rfl
    · exact Or.inl h
    · exact Or.inr ⟨rfl, Or.inl rfl⟩
  | some existing =>
    rw [hfind] at hn
    simp only at hn
    split_ifs at hn
    · rcases mem_modifyFirst _ _ _ _ hn with h | ⟨a, _, rfl⟩
      · exact Or.inl h
      · exact Or.inr ⟨rfl, Or.inr ⟨_, rfl⟩⟩
    · exact Or.inl hn

/-- Every element of the HUD has, after the first loop of the poller ran for one
user, an element with the same user id. -/
theorem syncPlayer_keeps_ids (env : HudEnv) (st : TickState) (p : User × Actor) (n : HudNode)
    (hn : n ∈ st.nodes) :
    ∃ m ∈ (syncPlayer env st p).nodes, m.card.userId = n.card.userId := by
  rw [syncPlayer_eq]
  cases hfind : st.nodes.find? (nodeHasUserId p.1.id) with
  | none => exact ⟨n, by simp [hn], rfl⟩
  | some existing =>
    simp only
    split_ifs
    · rcases mem_modifyFirst_of_mem (nodeHasUserId p.1.id)
        (fun _ => ({ captured := false,
                     card := pollerCard env p.2 existing.card.shownHP
                       (buildPlayerCard p.1 p.2) } : HudNode)) st.nodes n hn with h | ⟨h1, h2⟩
      · exact ⟨n, h, rfl⟩
      · refine ⟨_, h2, ?_⟩
        simp only [nodeHasUserId, hasUserId, beq_iff_eq] at h1
        simp only [(pollerCard_card env p.2 _ _).1, (buildPlayerCard_card p.1 p.2).1, h1]
    · exact ⟨n, hn, rfl⟩

/-- The indicators after the first loop of the poller ran for one user: those
made before, and at most one more, under that user's id, which the health check
of the fresh card against the card found made. -/
theorem syncPlayer_indicators (env : HudEnv) (st : TickState) (p : User × Actor)
    (x : String × Indicator) (hx : x ∈ (syncPlayer env st p).indicators) :
    x ∈ st.indicators ∨
      (x.1 = p.1.id ∧ ∃ existing, st.nodes.find? (nodeHasUserId p.1.id) = some existing ∧
        (healthCheck env (some (buildPlayerCard p.1 p.2).shownHP) existing.card.shownHP
          (buildPlayerCard p.1 p.2)).2 = some x.2) := by
  rw [syncPlayer_eq] at hx
  cases hfind : st.nodes.find? (nodeHasUserId p.1.id) with
  | none =>
    rw [hfind] at hx
    exact Or.inl hx
  | some existing =>
    rw [hfind] at hx
    simp only at hx
    split_ifs at hx
    · rcases List.mem_append.1 hx with h | h
      · exact Or.inl h
      · right
        cases hc : (healthCheck env (some (buildPlayerCard p.1 p.2).shownHP)
            existing.card.shownHP (buildPlayerCard p.1 p.2)).2 with
        | none => rw [hc] at h; simp [fileIndicator] at h
        | some i =>
          rw [hc] at h
          simp only [fileIndicator, List.mem_singleton] at h
          subst h
          exact ⟨rfl, existing, rfl, hc⟩
    · exact Or.inl hx

/-- A card with the id of an active user is not stale. -/
theorem isStale_of_active (active : List (User × Actor)) (c : PlayerCard) (p : User × Actor)
    (hp : p ∈ active) (hc : c.userId = some p.1.id) : isStale active c = false := by
  have hany : active.any (fun q => c.userId == some q.1.id) = true :=
    List.any_eq_true.2 ⟨p, hp, by simp [hc]⟩
  simp [isStale, hany]

/-- During the first loop of the poller, every element of the HUD that is not
among the captured carries the id of an active user. -/
theorem foldl_syncPlayer_fresh (env : HudEnv) (active : List (User × Actor)) :
    ∀ (l : List (User × Actor)) (st : TickState), (∀ p ∈ l, p ∈ active) →
      (∀ n ∈ st.nodes, n.captured = false → isStale active n.card = false) →
      ∀ n ∈ (l.foldl (syncPlayer env) st).nodes, n.captured = false →
        isStale active n.card = false := by
  intro l
  induction l with
  | nil => intro st _ h; exact h
  | cons p ps ih =>
    intro st hl h
    simp only [List.foldl_cons]
    apply ih _ (fun q hq => hl q (List.mem_cons_of_mem _ hq))
    intro n hn hcap
    rcases syncPlayer_nodes env st p n hn with h1 | ⟨_, h2⟩
    · exact h n h1 hcap
    · apply isStale_of_active active n.card p (hl p (List.mem_cons_self _ _))
      rcases h2 with h2 | ⟨oldHP, h2⟩
      · rw [h2]; rfl
      · rw [h2, (pollerCard_card env p.2 oldHP _).1]; rfl

/-- Every element of the HUD has, after the first loop of the poller, an element
with the same user id. -/
theorem foldl_syncPlayer_keeps_ids (env : HudEnv) :
    ∀ (l : List (User × Actor)) (st : TickState), ∀ n ∈ st.nodes,
      ∃ m ∈ (l.foldl (syncPlayer env) st).nodes, m.card.userId = n.card.userId := by
  intro l
  induction l with
  | nil => intro st n hn; exact ⟨n, hn, rfl⟩
  | cons p ps ih =>
    intro st n hn
    simp only [List.foldl_cons]
    obtain ⟨m, hm, hid⟩ := syncPlayer_keeps_ids env st p n hn
    obtain ⟨m', hm', hid'⟩ := ih (syncPlayer env st p) m hm
    exact ⟨m', hm', hid'.trans hid⟩

/-- C16: after one tick of the poller on the cards of `#player-hud`, no card of
the HUD is stale, so every card that was there, is no GM card and carries the id
of no user that is active with a character, is gone; and for every card that
carried the id of a user that is active with a character, the HUD still has a
card with that id. -/
theorem C16_stale_cards_removed (env : HudEnv) (cards : List PlayerCard) :
    ∃ cards', (pollerTick env (some cards)).1 = some cards' ∧
      (∀ c ∈ cards', isStale (activePlayers env) c = false) ∧
      (∀ c ∈ cards, c.gmCard = false →
        (∀ p ∈ activePlayers env, c.userId ≠ some p.1.id) → c ∉ cards') ∧
      (∀ c ∈ cards, ∀ p ∈ activePlayers env, c.userId = some p.1.id →
        ∃ c' ∈ cards', c'.userId = some p.1.id) := by
  have hfresh := foldl_syncPlayer_fresh env (activePlayers env) (activePlayers env)
    { nodes := cards.map (fun c => { captured := true, card := c }), indicators := [] }
    (fun _ h => h)
    (by
      intro n hn hcap
      obtain ⟨c, _, rfl⟩ := List.mem_map.1 hn
      simp at hcap)
  have hids := foldl_syncPlayer_keeps_ids env (activePlayers env)
    { nodes := cards.map (fun c => { captured := true, card := c }), indicators := [] }
  have hclean : ∀ c ∈ (((activePlayers env).foldl (syncPlayer env)
      { nodes := cards.map (fun c => { captured := true, card := c }),
        indicators := [] }).nodes.filter
      (fun n => !(n.captured && isStale (activePlayers env) n.card))).map (fun n => n.card),
      isStale (activePlayers env) c = false := by
    intro c hc
    obtain ⟨n, hn, rfl⟩ := List.mem_map.1 hc
    obtain ⟨hmem, hkeep⟩ := List.mem_filter.1 hn
    cases hcap : n.captured with
    | false => exact hfresh n hmem hcap
    | true => simpa [hcap] using hkeep
  refine ⟨_, rfl, hclean, ?_, ?_⟩
  · intro c _ hgm hno hc
    have hstale : isStale (activePlayers env) c = true := by
      have hany : (activePlayers env).any (fun p => c.userId == some p.1.id) = false := by
        rw [List.any_eq_false]
        intro p hp
        simpa using hno p hp
      simp [isStale, hgm, hany]
    rw [hclean c hc] at hstale
    exact Bool.false_ne_true hstale
  · intro c hc p hp hid
    obtain ⟨m, hm, hmid⟩ := hids { captured := true, card := c }
      (List.mem_map.2 ⟨c, hc, rfl⟩)
    have hmid' : m.card.userId = some p.1.id := hmid.trans hid
    refine ⟨m.card, List.mem_map.2 ⟨m, List.mem_filter.2 ⟨hm, ?_⟩, rfl⟩, hmid'⟩
    simp [isStale_of_active (activePlayers env) m.card p hp hmid']

/-- The first loop of the poller, for one user whose card is there: the first
card with the user's id afterwards is the card found, or what the poller made of
the fresh card when the two differ. -/
theorem syncPlayer_find?_same (env : HudEnv) (st : TickState) (p : User × Actor)
    (existing : HudNode) (h : st.nodes.find? (nodeHasUserId p.1.id) = some existing) :
    (syncPlayer env st p).nodes.find? (nodeHasUserId p.1.id)
      = some (if existing.card ≠ buildPlayerCard p.1 p.2 then
          { captured := false,
            card := pollerCard env p.2 existing.card.shownHP (buildPlayerCard p.1 p.2) }
        else existing) := by
  rw [syncPlayer_eq, h]
  simp only
  split_ifs
  · rw [find?_modifyFirst, h]
    · rfl
    · intro a _
      simp [nodeHasUserId, hasUserId, (pollerCard_card env p.2 _ _).1,
        (buildPlayerCard_card p.1 p.2).1]
  · exact h

/-- The card the template renders for a character with the hit points `n` shows
`n`. -/
theorem buildPlayerCard_shownHP (user : User) (actor : Actor) (n : Int)
    (h : actor.hp = HpValue.num n) : (buildPlayerCard user actor).shownHP = n := by
  apply shownHP_of_text
  rw [(buildPlayerCard_card user actor).2.2.1, h]
  rfl

/-- What the poller makes of the fresh card of a character with the hit points
`n` has an overlay that follows `n`. -/
theorem pollerCard_follows (env : HudEnv) (p : User × Actor) (oldHP n : Int)
    (h : p.2.hp = HpValue.num n) :
    (pollerCard env p.2 oldHP (buildPlayerCard p.1 p.2)).overlayFollows n p.2.death := by
  have hc := (pollerCard_card env p.2 oldHP (buildPlayerCard p.1 p.2)).2.2.2
    (by rw [(buildPlayerCard_card p.1 p.2).2.2.2]; exact Nat.zero_le 1)
  rw [buildPlayerCard_shownHP p.1 p.2 n h] at hc
  constructor
  · intro hn
    exact hc.1 (by simpa using hn)
  · intro hn hd
    exact hc.2.1 (by simpa using hn) hd

/-- Once the first card with the id `uid` is one the tick made, with an overlay
that follows the hit points, it stays so for the rest of the first loop. -/
theorem foldl_syncPlayer_follows (env : HudEnv) (uid : String) (n : Int)
    (death : Option DeathData) :
    ∀ (l : List (User × Actor)) (st : TickState) (node : HudNode),
      (∀ p ∈ l, p.1.id = uid → p.2.hp = HpValue.num n ∧ p.2.death = death) →
      st.nodes.find? (nodeHasUserId uid) = some node → node.captured = false →
      node.card.overlayFollows n death →
      ∃ node', (l.foldl (syncPlayer env) st).nodes.find? (nodeHasUserId uid) = some node' ∧
        node'.captured = false ∧ node'.card.overlayFollows n death := by
  intro l
  induction l with
  | nil => intro st node _ h1 h2 h3; exact ⟨node, h1, h2, h3⟩
  | cons p ps ih =>
    intro st node hl h1 h2 h3
    simp only [List.foldl_cons]
    have hps : ∀ q ∈ ps, q.1.id = uid → q.2.hp = HpValue.num n ∧ q.2.death = death :=
      fun q hq => hl q (List.mem_cons_of_mem _ hq)
    by_cases hid : p.1.id = uid
    · have hp := hl p (List.mem_cons_self _ _) hid
      have hfind := syncPlayer_find?_same env st p node (by rw [hid]; exact h1)
      rw [hid] at hfind
      by_cases hne : node.card ≠ buildPlayerCard p.1 p.2
      · rw [if_pos hne] at hfind
        refine ih _ _ hps hfind rfl ?_
        have := pollerCard_follows env p node.card.shownHP n hp.1
        rw [hp.2] at this
        exact this
      · rw [if_neg hne] at hfind
        exact ih _ _ hps hfind h2 h3
    · have hfind := syncPlayer_find?_other env st p uid hid
      exact ih _ _ hps (hfind.trans h1) h2 h3

/-- The first loop of the poller, when it reaches a user with the id `uid` whose
card differs from the fresh one, leaves as the first card with that id one it
made, with an overlay that follows the hit points. -/
theorem foldl_syncPlayer_replaces (env : HudEnv) (uid : String) (n : Int)
    (death : Option DeathData) (card : PlayerCard) :
    ∀ (l : List (User × Actor)) (st : TickState) (cap : Bool),
      (∀ p ∈ l, p.1.id = uid →
        p.2.hp = HpValue.num n ∧ p.2.death = death ∧ card ≠ buildPlayerCard p.1 p.2) →
      (∃ p ∈ l, p.1.id = uid) →
      st.nodes.find? (nodeHasUserId uid) = some { captured := cap, card := card } →
      ∃ node', (l.foldl (syncPlayer env) st).nodes.find? (nodeHasUserId uid) = some node' ∧
        node'.captured = false ∧ node'.card.overlayFollows n death := by
  intro l
  induction l with
  | nil => intro st cap _ hex _; obtain ⟨p, hp, _⟩ := hex; simp at hp
  | cons p ps ih =>
    intro st cap hl hex h1
    simp only [List.foldl_cons]
    have hps : ∀ q ∈ ps, q.1.id = uid →
        q.2.hp = HpValue.num n ∧ q.2.death = death ∧ card ≠ buildPlayerCard q.1 q.2 :=
      fun q hq => hl q (List.mem_cons_of_mem _ hq)
    by_cases hid : p.1.id = uid
    · have hp := hl p (List.mem_cons_self _ _) hid
      have hfind := syncPlayer_find?_same env st p _ (by rw [hid]; exact h1)
      rw [hid] at hfind
      simp only at hfind
      rw [if_pos hp.2.2] at hfind
      refine foldl_syncPlayer_follows env uid n death ps _ _
        (fun q hq hq' => ⟨(hps q hq hq').1, (hps q hq hq').2.1⟩) hfind rfl ?_
      have := pollerCard_follows env p card.shownHP n hp.1
      rw [hp.2.1] at this
      exact this
    · have hfind := syncPlayer_find?_other env st p uid hid
      obtain ⟨q, hq, hqid⟩ := hex
      have hq' : q ∈ ps := by
        rcases List.mem_cons.1 hq with rfl | h
        · exact absurd hqid hid
        · exact h
      exact ih _ cap hps ⟨q, hq', hqid⟩ (hfind.trans h1)

/-- C13: for a participant with a card that has at most one death-save overlay,
as every card has that the add-on made, after an update is processed (a call of
the `updateActor` handler for the participant's actor, or a tick of the poller
that replaces the card), the participant's card has no death-save overlay when
the hit points are not zero, and exactly one when they are zero and the actor has
death-save data. -/
theorem C13_overlay_only_at_zero_hp (cards : List PlayerCard) (uid : String)
    (card : PlayerCard) (n : Int) (death : Option DeathData) (ev : HudEvent)
    (hcard : cards.find? (hasUserId uid) = some card) (hone : card.overlayCount ≤ 1)
    (hev : ev.updatesCard uid card n death) :
    ∃ cards' card', (hudStep (some cards) ev).1 = some cards' ∧
      cards'.find? (hasUserId uid) = some card' ∧
      (n ≠ 0 → card'.overlayCount = 0) ∧
      (n = 0 → death.isSome = true → card'.overlayCount = 1) := by
  cases ev with
  | updateActor env actor dataHp =>
    obtain ⟨hobs, ⟨user, huser, hid⟩, hhp, hdeath⟩ := hev
    subst hid
    have hdef : dataHp.orElse actor.hp ≠ HpValue.undef := by rw [hhp]; simp
    have heq := (updateActorHandler_eq env cards actor dataHp user card hobs huser hcard hdef).1
    have hc := handlerCard_card env actor (dataHp.orElse actor.hp) card.shownHP card
    refine ⟨_, handlerCard env actor (dataHp.orElse actor.hp) card.shownHP card, rfl, ?_, ?_, ?_⟩
    · rw [heq, find?_modifyFirst, hcard]
      · rfl
      · intro a ha
        unfold hasUserId at *
        rw [(handlerCard_card env actor _ _ a).1]; exact ha
    · intro hn
      apply (hc.2.2.2 hone).1
      rw [hhp]
      simpa using hn
    · intro hn hd
      apply (hc.2.2.2 hone).2.1
      · rw [hhp]; simpa using hn
      · rw [hdeath]; exact hd
  | pollerTick env =>
    obtain ⟨hex, hall⟩ := hev
    have hinit : (cards.map (fun c => ({ captured := true, card := c } : HudNode))).find?
        (nodeHasUserId uid) = some { captured := true, card := card } := by
      rw [List.find?_map]
      have : (nodeHasUserId uid ∘ fun c => ({ captured := true, card := c } : HudNode))
          = hasUserId uid := rfl
      rw [this, hcard]
      rfl
    obtain ⟨node', hfind, hcap, hfollow⟩ :=
      foldl_syncPlayer_replaces env uid n death card (activePlayers env)
        { nodes := cards.map (fun c => { captured := true, card := c }), indicators := [] }
        true hall hex hinit
    refine ⟨_, node'.card, rfl, ?_, hfollow.1, hfollow.2⟩
    rw [List.find?_map]
    have : (hasUserId uid ∘ fun n : HudNode => n.card) = nodeHasUserId uid := rfl
    rw [this, find?_filter_of_find? _ _ _ node' hfind (by simp [hcap])]
    rfl

/-- C13 at the card of `user1`, which showed 10 hit points, when the handler is
called for the character at zero hit points with death-save data: the card gets
its one overlay. -/
theorem C13_overlay_only_at_zero_hp_witness :
    [sampleCard 10].find? (hasUserId "user1") = some (sampleCard 10) ∧
    (sampleCard 10).overlayCount ≤ 1 ∧
    (HudEvent.updateActor downedEnv downedActor HpValue.undef).updatesCard "user1"
      (sampleCard 10) 0 downedActor.death ∧
    ∃ cards' card',
      (hudStep (some [sampleCard 10])
        (HudEvent.updateActor downedEnv downedActor HpValue.undef)).1 = some cards' ∧
      cards'.find? (hasUserId "user1") = some card' ∧
      ((0 : Int) ≠ 0 → card'.overlayCount = 0) ∧
      ((0 : Int) = 0 → downedActor.death.isSome = true → card'.overlayCount = 1) :=
  ⟨rfl, Nat.zero_le 1, ⟨rfl, ⟨downedUser, rfl, rfl⟩, rfl, rfl⟩,
    C13_overlay_only_at_zero_hp [sampleCard 10] "user1" (sampleCard 10) 0 downedActor.death
      (HudEvent.updateActor downedEnv downedActor HpValue.undef) rfl (Nat.zero_le 1)
      ⟨rfl, ⟨downedUser, rfl, rfl⟩, rfl, rfl⟩⟩

/-- The `updateActor` handler either leaves the cards as they are and makes no
indicator, or makes its one change to the card it found. -/
theorem updateActorHandler_cases (env : HudEnv) (cards : List PlayerCard) (actor : Actor)
    (dataHp : HpValue) :
    ((updateActorHandler env cards actor dataHp).cards = cards ∧
      (updateActorHandler env cards actor dataHp).indicators = []) ∨
    ∃ user card, userOfActor env actor = some user ∧
      cards.find? (hasUserId user.id) = some card ∧
      (updateActorHandler env cards actor dataHp).cards
        = modifyFirst (hasUserId user.id)
            (handlerCard env actor (dataHp.orElse actor.hp) card.shownHP) cards ∧
      (updateActorHandler env cards actor dataHp).indicators
        = fileIndicator user.id
            (healthCheck env (dataHp.orElse actor.hp).toNumber card.shownHP card).2 := by
  by_cases hobs : env.isObserver = true
  · cases huser : userOfActor env actor with
    | none => left; simp [updateActorHandler, huser]
    | some user =>
      cases hcard : cards.find? (hasUserId user.id) with
      | none => left; simp [updateActorHandler, huser, hcard]
      | some card =>
        by_cases hdef : dataHp.orElse actor.hp = HpValue.undef
        · left; simp [updateActorHandler, huser, hcard, hdef]
        · right
          have h := updateActorHandler_eq env cards actor dataHp user card hobs huser hcard hdef
          exact ⟨user, card, rfl, hcard, h.1, h.2⟩
  · left; simp [updateActorHandler, hobs]

/-- What a card shows depends on its hit points text only. -/
theorem shownHP_congr (c c' : PlayerCard) (h : c.hpText = c'.hpText) :
    c.shownHP = c'.shownHP := by
  unfold PlayerCard.shownHP
  rw [h]

/-- A card that showed `n` shows `n` after the numeral of `n` was written to its
hit points element, if it has one. -/
theorem shownHP_after_write (c c' : PlayerCard) (n : Int) (hc : c.shownHP = n)
    (h : c'.hpText = c.hpText.map (fun _ => intToString n)) : c'.shownHP = n := by
  cases ht : c.hpText with
  | none =>
    rw [ht] at h
    rw [← hc]
    exact shownHP_congr c' c (by rw [h, ht]; rfl)
  | some t =>
    rw [ht] at h
    exact shownHP_of_text c' n h

/-- The first match of a test is the first of the elements that pass it. -/
theorem find?_of_filter_single {α : Type} (p : α → Bool) (l : List α) (a : α)
    (h : l.filter p = [a]) : l.find? p = some a := by
  induction l with
  | nil => simp at h
  | cons b bs ih =>
    by_cases hp : p b = true
    · simp only [List.filter, hp, List.cons.injEq] at h
      obtain ⟨rfl, _⟩ := h
      simp [List.find?, hp]
    · simp only [List.filter, hp] at h
      simp [List.find?, hp, ih h]

/-- After a change to the only match that keeps it a match, the changed element
is the only match. -/
theorem filter_modifyFirst_single {α : Type} (p : α → Bool) (f : α → α)
    (hf : ∀ a, p a = true → p (f a) = true) (l : List α) (a : α)
    (h : l.filter p = [a]) : (modifyFirst p f l).filter p = [f a] := by
  induction l with
  | nil => simp at h
  | cons b bs ih =>
    by_cases hp : p b = true
    · simp only [List.filter, hp, List.cons.injEq] at h
      obtain ⟨rfl, h2⟩ := h
      simp [modifyFirst, hp, List.filter, hf b hp, h2]
    · simp only [List.filter, hp] at h
      simp [modifyFirst, hp, List.filter, ih h]

/-- A call of the `updateActor` handler that sees the hit points the cards of a
participant show makes no indicator for that participant, and the cards still
show them. -/
theorem updateActorHandler_shows (env : HudEnv) (cards : List PlayerCard) (actor : Actor)
    (dataHp : HpValue) (uid : String) (hp : Int)
    (hsee : (HudEvent.updateActor env actor dataHp).seesHp uid hp)
    (hinv : showsHp uid hp cards) :
    showsHp uid hp (updateActorHandler env cards actor dataHp).cards ∧
    ∀ x ∈ (updateActorHandler env cards actor dataHp).indicators, x.1 ≠ uid := by
  rcases updateActorHandler_cases env cards actor dataHp with ⟨h1, h2⟩ |
    ⟨user, card, huser, hcard, h1, h2⟩
  · rw [h1, h2]
    exact ⟨hinv, fun x hx => by simp at hx⟩
  · have hmem : card ∈ cards := List.mem_of_find?_eq_some hcard
    have hcid : card.userId = some user.id := by
      have := List.find?_some hcard
      simpa [hasUserId] using this
    rw [h1, h2]
    constructor
    · intro c hc hcu
      rcases mem_modifyFirst _ _ _ _ hc with h | ⟨a, ha, rfl⟩
      · exact hinv c h hcu
      · rw [hcard] at ha
        cases ha
        have hk := handlerCard_card env actor (dataHp.orElse actor.hp) card.shownHP card
        have hid : user.id = uid := by
          simp only [hasUserId, hk.1, hcid, beq_iff_eq, Option.some.injEq] at hcu
          exact hcu
        have hnew := hsee user huser hid
        have hshow : card.shownHP = hp := hinv card hmem (by simp [hasUserId, hcid, hid])
        apply shownHP_after_write card _ hp hshow
        rw [hk.2.2.1, hnew]
        rfl
    · intro x hx hxu
      cases hchk : (healthCheck env (dataHp.orElse actor.hp).toNumber card.shownHP card).2 with
      | none => rw [hchk] at hx; simp [fileIndicator] at hx
      | some i =>
        rw [hchk] at hx
        simp only [fileIndicator, List.mem_singleton] at hx
        have hid : user.id = uid := by rw [hx] at hxu; exact hxu
        have hnew := hsee user huser hid
        have hshow : card.shownHP = hp := hinv card hmem (by simp [hasUserId, hcid, hid])
        rw [hnew, hshow] at hchk
        simp [HpValue.toNumber, healthCheck_same] at hchk

/-- The first loop of the poller, for users that have the hit points the cards
of the participant show, makes no indicator for the participant, and the cards
still show them. -/
theorem foldl_syncPlayer_shows (env : HudEnv) (uid : String) (hp : Int) :
    ∀ (l : List (User × Actor)) (st : TickState),
      (∀ p ∈ l, p.1.id = uid → p.2.hp = HpValue.num hp) →
      (∀ n ∈ st.nodes, nodeHasUserId uid n = true → n.card.shownHP = hp) →
      (∀ x ∈ st.indicators, x.1 ≠ uid) →
      (∀ n ∈ (l.foldl (syncPlayer env) st).nodes,
        nodeHasUserId uid n = true → n.card.shownHP = hp) ∧
      (∀ x ∈ (l.foldl (syncPlayer env) st).indicators, x.1 ≠ uid) := by
  intro l
  induction l with
  | nil => intro st _ h1 h2; exact ⟨h1, h2⟩
  | cons p ps ih =>
    intro st hl h1 h2
    simp only [List.foldl_cons]
    apply ih _ (fun q hq => hl q (List.mem_cons_of_mem _ hq))
    · intro n hn hnu
      rcases syncPlayer_nodes env st p n hn with h | ⟨_, h⟩
      · exact h1 n h hnu
      · have hid : n.card.userId = some p.1.id := by
          rcases h with h | ⟨oldHP, h⟩
          · rw [h]; rfl
          · rw [h, (pollerCard_card env p.2 oldHP _).1]; rfl
        have hpid : p.1.id = uid := by
          simp only [nodeHasUserId, hasUserId, hid, beq_iff_eq, Option.some.injEq] at hnu
          exact hnu
        have hfresh := buildPlayerCard_shownHP p.1 p.2 hp (hl p (List.mem_cons_self _ _) hpid)
        rcases h with h | ⟨oldHP, h⟩
        · rw [h]; exact hfresh
        · rw [h, shownHP_congr _ _ (pollerCard_card env p.2 oldHP _).2.2.1]
          exact hfresh
    · intro x hx hxu
      rcases syncPlayer_indicators env st p x hx with h | ⟨hxid, existing, hfind, hchk⟩
      · exact h2 x h hxu
      · have hpid : p.1.id = uid := by rw [← hxid]; exact hxu
        have hfresh := buildPlayerCard_shownHP p.1 p.2 hp (hl p (List.mem_cons_self _ _) hpid)
        have hold : existing.card.shownHP = hp := by
          apply h1 existing (List.mem_of_find?_eq_some hfind)
          have := List.find?_some hfind
          rw [hpid] at this
          exact this
        rw [hfresh, hold, healthCheck_same] at hchk
        simp at hchk

/-- A tick of the poller in which the participant, if active, has the hit
points the participant's cards show makes no indicator for the participant, and
the cards still show them. -/
theorem pollerTick_shows (env : HudEnv) (cards : List PlayerCard) (uid : String) (hp : Int)
    (hsee : (HudEvent.pollerTick env).seesHp uid hp) (hinv : showsHp uid hp cards) :
    ∃ cards', (pollerTick env (some cards)).1 = some cards' ∧ showsHp uid hp cards' ∧
      ∀ x ∈ (pollerTick env (some cards)).2, x.1 ≠ uid := by
  have h := foldl_syncPlayer_shows env uid hp (activePlayers env)
    { nodes := cards.map (fun c => { captured := true, card := c }), indicators := [] }
    hsee
    (by
      intro n hn hnu
      obtain ⟨c, hc, rfl⟩ := List.mem_map.1 hn
      exact hinv c hc hnu)
    (fun x hx => by simp at hx)
  refine ⟨_, rfl, ?_, h.2⟩
  intro c hc hcu
  obtain ⟨n, hn, rfl⟩ := List.mem_map.1 hc
  exact h.1 n (List.mem_filter.1 hn).1 hcu

/-- Events that all see the hit points the cards of a participant show make no
indicator for that participant. -/
theorem hudRun_shows (uid : String) (hp : Int) :
    ∀ (evs : List HudEvent) (cards : List PlayerCard),
      (∀ ev ∈ evs, ev.seesHp uid hp) → showsHp uid hp cards →
      ∀ x ∈ (hudRun (some cards) evs).2, x.1 ≠ uid := by
  intro evs
  induction evs with
  | nil => intro cards _ _ x hx; simp [hudRun] at hx
  | cons ev evs ih =>
    intro cards hevs hinv x hx
    have hsee := hevs ev (List.mem_cons_self _ _)
    have hrest : ∀ e ∈ evs, e.seesHp uid hp := fun e he => hevs e (List.mem_cons_of_mem _ he)
    simp only [hudRun, List.mem_append] at hx
    cases ev with
    | updateActor env actor dataHp =>
      have h := updateActorHandler_shows env cards actor dataHp uid hp hsee hinv
      rcases hx with hx | hx
      · exact h.2 x hx
      · exact ih _ hrest h.1 x hx
    | pollerTick env =>
      obtain ⟨cards', hc, hinv', hind⟩ := pollerTick_shows env cards uid hp hsee hinv
      rcases hx with hx | hx
      · exact hind x hx
      · simp only [hudStep] at hx
        rw [hc] at hx
        exact ih _ hrest hinv' x hx

/-- C15: after the `updateActor` handler has processed a transition to the hit
points `new` for the card of a participant, which has a hit points element and
is the participant's only card, no later tick of the poller and no later call of
the handler that sees the same hit points `new` makes a damage or a heal
indicator for that participant. -/
theorem C15_transition_indicated_once (env : HudEnv) (cards : List PlayerCard) (actor : Actor)
    (dataHp : HpValue) (user : User) (card : PlayerCard) (new : Int) (evs : List HudEvent)
    (hobs : env.isObserver = true) (huser : userOfActor env actor = some user)
    (honly : cards.filter (hasUserId user.id) = [card])
    (hel : card.hpText.isSome = true)
    (hnew : dataHp.orElse actor.hp = HpValue.num new)
    (hevs : ∀ ev ∈ evs, ev.seesHp user.id new) :
    ∀ x ∈ (hudRun (some (updateActorHandler env cards actor dataHp).cards) evs).2,
      x.1 ≠ user.id := by
  apply hudRun_shows user.id new evs _ hevs
  have hcard := find?_of_filter_single _ _ _ honly
  have hdef : dataHp.orElse actor.hp ≠ HpValue.undef := by rw [hnew]; simp
  rw [(updateActorHandler_eq env cards actor dataHp user card hobs huser hcard hdef).1]
  have hkeep : ∀ a, hasUserId user.id a = true →
      hasUserId user.id (handlerCard env actor (dataHp.orElse actor.hp) card.shownHP a)
        = true := by
    intro a ha
    unfold hasUserId at *
    rw [(handlerCard_card env actor _ _ a).1]; exact ha
  have hfilter := filter_modifyFirst_single _ _ hkeep cards card honly
  intro c hc hcu
  have hmem : c ∈ (modifyFirst (hasUserId user.id)
      (handlerCard env actor (dataHp.orElse actor.hp) card.shownHP) cards).filter
      (hasUserId user.id) := List.mem_filter.2 ⟨hc, hcu⟩
  rw [hfilter, List.mem_singleton] at hmem
  subst hmem
  apply shownHP_of_text
  rw [(handlerCard_card env actor _ _ card).2.2.1, hnew]
  obtain ⟨t, ht⟩ := Option.isSome_iff_exists.1 hel
  rw [ht]
  rfl

/-- C15 at the card of `user1`, which showed 10: the handler processes the
transition to 6 and flashes damage once; a later tick and a later call of the
handler, both seeing 6, make no indicator for `user1`. -/
theorem C15_transition_indicated_once_witness :
    (sampleEnv false 6).isObserver = true ∧
    userOfActor (sampleEnv false 6) (sampleActor 6) = some (sampleUser 6) ∧
    [sampleCard 10].filter (hasUserId (sampleUser 6).id) = [sampleCard 10] ∧
    (sampleCard 10).hpText.isSome = true ∧
    (HpValue.num 6).orElse (sampleActor 6).hp = HpValue.num 6 ∧
    (∀ ev ∈ [HudEvent.pollerTick (sampleEnv false 6),
        HudEvent.updateActor (sampleEnv false 6) (sampleActor 6) HpValue.undef],
      ev.seesHp (sampleUser 6).id 6) ∧
    (updateActorHandler (sampleEnv false 6) [sampleCard 10] (sampleActor 6)
      (HpValue.num 6)).indicators = [("user1", Indicator.flash HealthChange.damage)] ∧
    ∀ x ∈ (hudRun (some (updateActorHandler (sampleEnv false 6) [sampleCard 10]
        (sampleActor 6) (HpValue.num 6)).cards)
        [HudEvent.pollerTick (sampleEnv false 6),
          HudEvent.updateActor (sampleEnv false 6) (sampleActor 6) HpValue.undef]).2,
      x.1 ≠ (sampleUser 6).id := by
  have hevs : ∀ ev ∈ [HudEvent.pollerTick (sampleEnv false 6),
      HudEvent.updateActor (sampleEnv false 6) (sampleActor 6) HpValue.undef],
      ev.seesHp (sampleUser 6).id 6 := by
    intro ev hev
    simp only [List.mem_cons, List.mem_singleton, List.not_mem_nil, or_false] at hev
    rcases hev with rfl | rfl
    · intro p hp _
      have hact : activePlayers (sampleEnv false 6) = [(sampleUser 6, sampleActor 6)] := rfl
      rw [hact, List.mem_singleton] at hp
      rw [hp]
      rfl
    · intro _ _ _
      rfl
  exact ⟨rfl, rfl, rfl, rfl, rfl, hevs, rfl,
    C15_transition_indicated_once (sampleEnv false 6) [sampleCard 10] (sampleActor 6)
      (HpValue.num 6) (sampleUser 6) (sampleCard 10) 6 _ rfl rfl rfl rfl rfl hevs⟩

/-- Without JB2A, or with JB2A and a file set for both effects, the health check
makes a damage indicator when the hit points went down, a heal indicator when
they went up, and none when they stayed. -/
theorem healthCheck_indicates (env : HudEnv) (newHP oldHP : Int) (c : PlayerCard)
    (hcfg : env.hasJB2A = false ∨
      (env.settings.jb2aDamage ≠ "" ∧ env.settings.jb2aHeal ≠ "")) :
    (newHP < oldHP → ∃ i, (healthCheck env (some newHP) oldHP c).2 = some i ∧
      i.kind = HealthChange.damage) ∧
    (newHP > oldHP → ∃ i, (healthCheck env (some newHP) oldHP c).2 = some i ∧
      i.kind = HealthChange.heal) ∧
    (newHP = oldHP → (healthCheck env (some newHP) oldHP c).2 = none) := by
  refine ⟨?_, ?_, ?_⟩
  · intro h
    simp only [healthCheck, h, if_true, indicate, playJB2AEffect]
    cases hj : env.hasJB2A with
    | false => exact ⟨_, rfl, rfl⟩
    | true =>
      rcases hcfg with h0 | ⟨hd, _⟩
      · rw [hj] at h0; exact absurd h0 (by decide)
      · simp only [if_true, beq_iff_eq, hd, if_false]
        exact ⟨_, rfl, rfl⟩
  · intro h
    have hnot : ¬ newHP < oldHP := by omega
    simp only [healthCheck, hnot, h, if_true, if_false, indicate, playJB2AEffect]
    cases hj : env.hasJB2A with
    | false => exact ⟨_, rfl, rfl⟩
    | true =>
      rcases hcfg with h0 | ⟨_, hh⟩
      · rw [hj] at h0; exact absurd h0 (by decide)
      · simp only [if_true, beq_iff_eq, hh, if_false]
        exact ⟨_, rfl, rfl⟩
  · intro h
    rw [h, healthCheck_same]

/-- A tick at work: the card of `user2`, who is not active, is removed; the card
of `user1`, which is what the template renders, stays as it is; no indicator. -/
theorem pollerTick_stray_card_example :
    pollerTick (sampleEnv false 10) (some [strayCard, sampleCard 10])
      = (some [sampleCard 10], []) := by
  rfl

/-! ## Properties of the bootstrap and of the broadcaster, continued -/

/-- A state with no hook registered and no poll running is changed by no
event. -/
theorem bootRun_inert (evs : List BootEvent) (b : Bootstrap)
    (h1 : b.onSocketlibReady = false) (h2 : b.onReady = false) (h3 : b.polling = false) :
    bootRun b evs = b := by
  induction evs with
  | nil => rfl
  | cons ev evs ih =>
    have hstep : bootStep b ev = b := by
      cases ev <;> simp [bootStep, h1, h2, h3]
    have hrun : bootRun b (ev :: evs) = bootRun (bootStep b ev) evs := rfl
    rw [hrun, hstep, ih]

/-- What one call of `done` does holds no action twice. -/
theorem cameraSyncDone_nodup (isObserver : Bool) (user : JSVal) :
    (cameraSyncDone isObserver user).Nodup := by
  unfold cameraSyncDone
  cases isObserver <;> cases (user.prop "isGM").truthy <;> decide

/-- C24: `_ensureSocketlibReady` returns without throwing, and whatever hooks
and poll ticks follow, in whatever order and number, `done` has been called at
most once; so what the calls of `done` have done holds no action twice: the
module and each RPC are registered at most once, the GM broadcast is started at
most once and the initial view is requested at most once. -/
theorem C24_done_at_most_once (mod : JSVal) (usable : Bool) (now : Int)
    (evs : List BootEvent) :
    ∃ b, _ensureSocketlibReady mod usable now = Except.ok b ∧
      (bootRun b evs).doneCalls ≤ 1 ∧
      ∀ isObserver user, ((bootRun b evs).syncActions isObserver user).Nodup := by
  have hnodup : ∀ s : Bootstrap, s.doneCalls ≤ 1 →
      ∀ isObserver user, (s.syncActions isObserver user).Nodup := by
    intro s hs isObserver user
    unfold Bootstrap.syncActions
    have h01 : s.doneCalls = 0 ∨ s.doneCalls = 1 := by omega
    rcases h01 with h | h
    · rw [h]; simp
    · rw [h]; simpa using cameraSyncDone_nodup isObserver user
  have hex : ∃ b, _ensureSocketlibReady mod usable now = Except.ok b ∧
      (bootRun b evs).doneCalls ≤ 1 := by
    by_cases hm : mod.truthy = true
    · by_cases ha : (mod.prop "active").truthy = true
      · cases usable with
        | true =>
          refine ⟨{ doneCalls := 1 }, ?_, ?_⟩
          · simp [_ensureSocketlibReady, hm, ha, readProp_of_truthy hm, bind, Except.bind, pure,
              Except.pure]
          · rw [bootRun_inert evs _ rfl rfl rfl]
        | false =>
          refine ⟨Bootstrap.waiting now, ensureSocketlibReady_waiting mod now hm ha, ?_⟩
          exact (bootRun_done_once evs (Bootstrap.waiting now)).2
      · refine ⟨Bootstrap.unavailable, ?_, ?_⟩
        · simp [_ensureSocketlibReady, hm, ha, readProp_of_truthy hm, bind, Except.bind, pure,
            Except.pure]
        · rw [bootRun_inert evs _ rfl rfl rfl]
          exact Nat.zero_le 1
    · refine ⟨Bootstrap.unavailable, ?_, ?_⟩
      · simp [_ensureSocketlibReady, hm, bind, Except.bind, pure, Except.pure]
      · rw [bootRun_inert evs _ rfl rfl rfl]
        exact Nat.zero_le 1
  obtain ⟨b, hb, hle⟩ := hex
  exact ⟨b, hb, hle, hnodup _ hle⟩

/-- The hook `socketlib.ready`, the hook `ready` and a poll tick all find
socketlib usable, twice over: `done` is called once. -/
theorem bootRun_all_ready_example :
    (bootRun (Bootstrap.waiting 0)
      [BootEvent.pollTick 100 true, BootEvent.socketlibReadyHook, BootEvent.readyHook true,
        BootEvent.socketlibReadyHook, BootEvent.pollTick 200 true,
        BootEvent.readyHook true]).doneCalls = 1 := by
  rfl

/-- A trigger that pushes nothing leaves the run as it would be without it. -/
theorem broadcast_cons_dropped (lastSent : Int) (t : Trigger) (ts : List Trigger)
    (h : send lastSent t.canvas t.now = Except.ok (lastSent, [])) :
    broadcast lastSent (t :: ts) = broadcast lastSent ts := by
  simp only [broadcast, h, List.map_nil, List.nil_append]

/-- A trigger that pushes sets `lastSent` to its clock reading for the rest of
the run. -/
theorem broadcast_cons_pushed (lastSent : Int) (t : Trigger) (ts : List Trigger)
    (call : SocketCall) (h : send lastSent t.canvas t.now = Except.ok (t.now, [call])) :
    broadcast lastSent (t :: ts)
      = ((broadcast t.now ts).1, { time := t.now, call := call } :: (broadcast t.now ts).2) := by
  simp only [broadcast, h, List.map_cons, List.map_nil, List.singleton_append]

/-- The broadcaster over two sequences of triggers, one after the other. -/
theorem broadcast_append (ts us : List Trigger) :
    ∀ lastSent : Int,
      broadcast lastSent (ts ++ us)
        = ((broadcast (broadcast lastSent ts).1 us).1,
            (broadcast lastSent ts).2 ++ (broadcast (broadcast lastSent ts).1 us).2) := by
  induction ts with
  | nil => intro lastSent; simp [broadcast]
  | cons t ts ih =>
    intro lastSent
    rw [List.cons_append]
    rcases send_cases lastSent t.canvas t.now with h | ⟨snap, -, -, h⟩
    · rw [broadcast_cons_dropped _ _ _ h, broadcast_cons_dropped _ _ _ h, ih lastSent]
    · rw [broadcast_cons_pushed _ _ _ _ h, broadcast_cons_pushed _ _ _ _ h, ih t.now]
      rfl

/-- The variable `lastSent` after a run holds the clock reading of the last push
made, and its initial value when none was made. -/
theorem broadcast_lastSent (ts : List Trigger) :
    ∀ lastSent : Int,
      (broadcast lastSent ts).1
        = ((broadcast lastSent ts).2.getLast?.map (fun p => p.time)).getD lastSent := by
  induction ts with
  | nil => intro lastSent; simp [broadcast]
  | cons t ts ih =>
    intro lastSent
    rcases send_cases lastSent t.canvas t.now with h | ⟨snap, -, -, h⟩
    · rw [broadcast_cons_dropped _ _ _ h]
      exact ih lastSent
    · rw [broadcast_cons_pushed _ _ _ _ h]
      simp only
      rw [ih t.now]
      cases hrest : (broadcast t.now ts).2 with
      | nil => simp
      | cons q qs =>
        rw [List.getLast?_cons_cons, List.getLast?_eq_getLast _ (List.cons_ne_nil q qs)]
        rfl

/-- C27: a run of `send` that makes no push leaves `lastSent` as it was, and one
that makes a push sets it to its clock reading. So after any sequence of
triggers on which the broadcaster made a push, `lastSent` is the clock reading of
the last push made, and a trigger at least 50 ms after that push, with a
snapshot that resolves, makes a push of that snapshot, however many triggers
were dropped in between. -/
theorem C27_throttle_from_last_push (ts : List Trigger) (t : Trigger) (p : Push)
    (snap : Snapshot)
    (hlast : (_startGMBroadcast ts).getLast? = some p)
    (hsnap : _getViewSnapshot t.canvas = Except.ok (some snap))
    (hgap : p.time + 50 ≤ t.now) :
    (∀ lastSent canvas now, ∃ r, send lastSent canvas now = Except.ok r ∧
      (r.2 = [] → r.1 = lastSent) ∧ (r.2 ≠ [] → r.1 = now)) ∧
    (broadcast 0 ts).1 = p.time ∧
    _startGMBroadcast (ts ++ [t])
      = _startGMBroadcast ts
        ++ [{ time := t.now, call := SocketCall.executeForOthers "applyCamera" snap }] := by
  have hls : (broadcast 0 ts).1 = p.time := by
    rw [broadcast_lastSent]
    unfold _startGMBroadcast at hlast
    rw [hlast]
    rfl
  refine ⟨?_, hls, ?_⟩
  · intro lastSent canvas now
    rcases send_cases lastSent canvas now with h | ⟨s, -, -, h⟩
    · exact ⟨_, h, fun _ => rfl, fun hne => absurd rfl hne⟩
    · exact ⟨_, h, fun hnil => by simp at hnil, fun _ => rfl⟩
  · have hsend : send p.time t.canvas t.now
        = Except.ok (t.now, [SocketCall.executeForOthers "applyCamera" snap]) := by
      have hnot : ¬ t.now - p.time < THROTTLE_MS := by
        unfold THROTTLE_MS
        omega
      simp [send, hsnap, hnot, bind, Except.bind, pure, Except.pure]
    unfold _startGMBroadcast
    rw [broadcast_append, hls, broadcast_cons_pushed _ _ _ _ hsend]
    rfl

/-- C27 at a pan pushed at 1000 ms followed by three dropped triggers, the last
at 1049 ms: the trigger at 1050 ms is pushed. -/
theorem C27_throttle_from_last_push_witness :
    (_startGMBroadcast sampleDropped).getLast?
      = some { time := 1000,
               call := SocketCall.executeForOthers "applyCamera" sampleSnapshot } ∧
    _getViewSnapshot lateTrigger.canvas = Except.ok (some sampleSnapshot) ∧
    (1000 : Int) + 50 ≤ lateTrigger.now ∧
    (broadcast 0 sampleDropped).1 = 1000 ∧
    _startGMBroadcast (sampleDropped ++ [lateTrigger])
      = _startGMBroadcast sampleDropped
        ++ [{ time := 1050,
              call := SocketCall.executeForOthers "applyCamera" sampleSnapshot }] :=
  ⟨rfl, rfl, by decide,
    (C27_throttle_from_last_push sampleDropped lateTrigger
      { time := 1000, call := SocketCall.executeForOthers "applyCamera" sampleSnapshot }
      sampleSnapshot rfl rfl (by decide)).2⟩

/-! ## Properties of `hexToRgba` -/

/-- A hexadecimal digit has a value below 16 and is no white space, no sign and
no `x`. -/
theorem digitValue_hex_facts (c : Char) (v : Nat) (h : digitValue 16 c = some v) :
    v < 16 ∧ isStrWhiteSpace c = false ∧ c.toNat ≠ 45 ∧ c.toNat ≠ 43 ∧
      c.toNat ≠ 120 ∧ c.toNat ≠ 88 := by
  have key : v < 16 ∧ ((48 ≤ c.toNat ∧ c.toNat ≤ 57) ∨ (97 ≤ c.toNat ∧ c.toNat ≤ 102) ∨
      (65 ≤ c.toNat ∧ c.toNat ≤ 70)) := by
    simp only [digitValue] at h
    split_ifs at h with h1 h2 h3
    · simp only [Option.filter] at h
      split_ifs at h with h4
      have h5 := of_decide_eq_true h4
      have h6 := Option.some.inj h
      omega
    · simp only [Option.filter] at h
      split_ifs at h with h4
      have h5 := of_decide_eq_true h4
      have h6 := Option.some.inj h
      omega
    · simp only [Option.filter] at h
      split_ifs at h with h4
      have h5 := of_decide_eq_true h4
      have h6 := Option.some.inj h
      omega
    · simp [Option.filter] at h
  obtain ⟨hv, hcode⟩ := key
  refine ⟨hv, ?_, by omega, by omega, by omega, by omega⟩
  simp only [isStrWhiteSpace, Bool.or_eq_false_iff, Bool.and_eq_false_iff,
    beq_eq_false_iff_ne, decide_eq_false_iff_not]
  omega

/-- The and of an int32 with 255 is between 0 and 255: it is a natural number
of at most eight bits. -/
theorem bitAnd32_255 (x : Int) : ∃ k : Nat, k ≤ 255 ∧ bitAnd32 x 255 = (k : Int) := by
  have h255 : bits32 255 = 255 := by decide
  refine ⟨bits32 x &&& 255, Nat.and_le_right, ?_⟩
  have hle : bits32 x &&& 255 ≤ 255 := Nat.and_le_right
  unfold bitAnd32
  rw [h255]
  simp only [toInt32]
  have hmod : ((bits32 x &&& 255 : Nat) : Int) % 4294967296 = ((bits32 x &&& 255 : Nat) : Int) := by
    apply Int.emod_eq_of_lt
    · exact Int.natCast_nonneg _
    · omega
  rw [hmod]
  have hnot : ¬ (((bits32 x &&& 255 : Nat) : Int) ≥ 2147483648) := by omega
  simp [hnot]

/-- The colour channels of a number below `2^24`: its three bytes. -/
theorem channels_of_small (v : Nat) (hv : v < 16777216) :
    toInt32 (numberOfInt (v : Int)) = (v : Int) ∧
    bitAnd32 (shiftRight32 (v : Int) 16) 255 = ((v / 65536 : Nat) : Int) ∧
    bitAnd32 (shiftRight32 (v : Int) 8) 255 = ((v / 256 % 256 : Nat) : Int) ∧
    bitAnd32 (v : Int) 255 = ((v % 256 : Nat) : Int) := by
  have h255 : bits32 255 = 255 := by decide
  have hbits : ∀ w : Nat, w < 4294967296 → bits32 (w : Int) = w := by
    intro w hw
    unfold bits32
    rw [Int.emod_eq_of_lt (Int.natCast_nonneg _) (by omega)]
    exact Int.toNat_natCast w
  have hint : ∀ w : Nat, w < 2147483648 → toInt32 (some (w : Int)) = (w : Int) := by
    intro w hw
    simp only [toInt32]
    rw [Int.emod_eq_of_lt (Int.natCast_nonneg _) (by omega)]
    have hnot : ¬ ((w : Int) ≥ 2147483648) := by omega
    simp [hnot]
  have hand : ∀ w : Nat, w < 4294967296 → bitAnd32 (w : Int) 255 = ((w % 256 : Nat) : Int) := by
    intro w hw
    unfold bitAnd32
    rw [h255, hbits w hw, Nat.and_pow_two_sub_one_eq_mod w 8]
    exact hint _ (by omega)
  have hshift : ∀ k : Nat, shiftRight32 (v : Int) k = ((v / 2 ^ k : Nat) : Int) := by
    intro k
    show Int.shiftRight (Int.ofNat v) k = _
    simp only [Int.shiftRight, Nat.shiftRight_eq_div_pow]
    rfl
  refine ⟨?_, ?_, ?_, ?_⟩
  · have hround : roundToDouble v = some v := by
      unfold roundToDouble
      rw [if_pos (by omega)]
    have hnn : ¬ ((v : Int) < 0) := by omega
    unfold numberOfInt
    rw [Int.natAbs_ofNat, hround]
    simp only [Option.map_some', hnn, if_false]
    exact hint v (by omega)
  · rw [hshift 16, hand _ (by norm_num; omega)]
    congr 1
    norm_num
    omega
  · rw [hshift 8, hand _ (by norm_num; omega)]
    norm_num
  · exact hand v (by omega)

/-- `parseInt(s, 16)` of six hexadecimal digits is the number they spell. -/
theorem parseIntHex_six (d1 d2 d3 d4 d5 d6 : Char) (v1 v2 v3 v4 v5 v6 : Nat)
    (h1 : digitValue 16 d1 = some v1) (h2 : digitValue 16 d2 = some v2)
    (h3 : digitValue 16 d3 = some v3) (h4 : digitValue 16 d4 = some v4)
    (h5 : digitValue 16 d5 = some v5) (h6 : digitValue 16 d6 = some v6) :
    parseIntHex (String.mk [d1, d2, d3, d4, d5, d6])
      = some (((((((v1 * 16 + v2) * 16 + v3) * 16 + v4) * 16 + v5) * 16 + v6 : Nat)) : Int) := by
  obtain ⟨-, hws, hminus, hplus, -, -⟩ := digitValue_hex_facts d1 v1 h1
  obtain ⟨-, -, -, -, hx, hX⟩ := digitValue_hex_facts d2 v2 h2
  have hdrop : List.dropWhile isStrWhiteSpace [d1, d2, d3, d4, d5, d6]
      = [d1, d2, d3, d4, d5, d6] := by
    simp [List.dropWhile, hws]
  have hsign : stripSign [d1, d2, d3, d4, d5, d6] = (false, [d1, d2, d3, d4, d5, d6]) := by
    simp [stripSign, hminus, hplus]
  have hprefix : stripHexPrefix [d1, d2, d3, d4, d5, d6]
      = (10, [d1, d2, d3, d4, d5, d6]) := by
    simp [stripHexPrefix, hx, hX]
  unfold parseIntHex
  simp only [String.toList, hdrop, hsign, hprefix]
  simp [parseDigits, h1, h2, h3, h4, h5, h6]

/-- C23: for "#" followed by exactly six hexadecimal digits and every alpha,
`hexToRgba` returns "rgba(r, g, b, alpha)" with the values of the digit pairs;
for an input that is no string or does not begin with "#", and for one whose
remainder `parseInt` does not read as hexadecimal, it returns
"rgba(255,255,255,alpha)"; and for every input it returns that, or
"rgba(r, g, b, alpha)" with three natural numbers of at most 255. -/
theorem C23_hexToRgba (d1 d2 d3 d4 d5 d6 : Char) (v1 v2 v3 v4 v5 v6 : Nat) (alpha : String)
    (h1 : digitValue 16 d1 = some v1) (h2 : digitValue 16 d2 = some v2)
    (h3 : digitValue 16 d3 = some v3) (h4 : digitValue 16 d4 = some v4)
    (h5 : digitValue 16 d5 = some v5) (h6 : digitValue 16 d6 = some v6) :
    hexToRgba (string (String.mk ['#', d1, d2, d3, d4, d5, d6])) alpha
      = "rgba(" ++ intToString ((16 * v1 + v2 : Nat) : Int) ++ ", "
          ++ intToString ((16 * v3 + v4 : Nat) : Int) ++ ", "
          ++ intToString ((16 * v5 + v6 : Nat) : Int) ++ ", " ++ alpha ++ ")" ∧
    (∀ hex a, (∀ s, hex = string s → s.toList.head? ≠ some '#') →
      hexToRgba hex a = "rgba(255,255,255," ++ a ++ ")") ∧
    (∀ s a, parseIntHex (String.mk (s.toList.drop 1)) = none →
      hexToRgba (string s) a = "rgba(255,255,255," ++ a ++ ")") ∧
    (∀ hex a, hexToRgba hex a = "rgba(255,255,255," ++ a ++ ")" ∨
      ∃ r g b : Nat, r ≤ 255 ∧ g ≤ 255 ∧ b ≤ 255 ∧
        hexToRgba hex a = "rgba(" ++ intToString (r : Int) ++ ", " ++ intToString (g : Int)
          ++ ", " ++ intToString (b : Int) ++ ", " ++ a ++ ")") := by
  refine ⟨?_, ?_, ?_, ?_⟩
  · have hp := parseIntHex_six d1 d2 d3 d4 d5 d6 v1 v2 v3 v4 v5 v6 h1 h2 h3 h4 h5 h6
    have b1 := (digitValue_hex_facts d1 v1 h1).1
    have b2 := (digitValue_hex_facts d2 v2 h2).1
    have b3 := (digitValue_hex_facts d3 v3 h3).1
    have b4 := (digitValue_hex_facts d4 v4 h4).1
    have b5 := (digitValue_hex_facts d5 v5 h5).1
    have b6 := (digitValue_hex_facts d6 v6 h6).1
    obtain ⟨c0, c1, c2, c3⟩ := channels_of_small
      (((((v1 * 16 + v2) * 16 + v3) * 16 + v4) * 16 + v5) * 16 + v6) (by omega)
    have e1 : (((((v1 * 16 + v2) * 16 + v3) * 16 + v4) * 16 + v5) * 16 + v6) / 65536
        = 16 * v1 + v2 := by omega
    have e2 : (((((v1 * 16 + v2) * 16 + v3) * 16 + v4) * 16 + v5) * 16 + v6) / 256 % 256
        = 16 * v3 + v4 := by omega
    have e3 : (((((v1 * 16 + v2) * 16 + v3) * 16 + v4) * 16 + v5) * 16 + v6) % 256
        = 16 * v5 + v6 := by omega
    rw [e1] at c1
    rw [e2] at c2
    rw [e3] at c3
    unfold hexToRgba
    simp only [String.toList, List.head?_cons, List.drop_succ_cons, List.drop_zero, if_true]
    rw [hp]
    simp only []
    rw [c0, c1, c2, c3]
  · intro hex a hno
    unfold hexToRgba
    cases hex with
    | string s =>
      simp only
      rw [if_neg (hno s rfl)]
    | undefined => rfl
    | null => rfl
    | bool _ => rfl
    | number _ => rfl
    | object _ => rfl
  · intro s a hnone
    unfold hexToRgba
    simp only [hnone]
    split_ifs <;> rfl
  · intro hex a
    cases hex with
    | string s =>
      unfold hexToRgba
      simp only
      by_cases hh : s.toList.head? = some '#'
      · rw [if_pos hh]
        cases hparse : parseIntHex (String.mk (s.toList.drop 1)) with
        | none => left; rfl
        | some n =>
          right
          simp only []
          obtain ⟨r, hr, er⟩ := bitAnd32_255 (shiftRight32 (toInt32 (numberOfInt n)) 16)
          obtain ⟨g, hg, eg⟩ := bitAnd32_255 (shiftRight32 (toInt32 (numberOfInt n)) 8)
          obtain ⟨b, hb, eb⟩ := bitAnd32_255 (toInt32 (numberOfInt n))
          exact ⟨r, g, b, hr, hg, hb, by rw [er, eg, eb]⟩
      · left; rw [if_neg hh]
    | undefined => left; rfl
    | null => left; rfl
    | bool _ => left; rfl
    | number _ => left; rfl
    | object _ => left; rfl

/-- C23 at the colour "#ff8800" with alpha 0.7. -/
theorem C23_hexToRgba_witness :
    digitValue 16 'f' = some 15 ∧ digitValue 16 '8' = some 8 ∧ digitValue 16 '0' = some 0 ∧
    hexToRgba (string "#ff8800") "0.7" = "rgba(255, 136, 0, 0.7)" :=
  ⟨rfl, rfl, rfl,
    (C23_hexToRgba 'f' 'f' '8' '8' '0' '0' 15 15 8 8 0 0 "0.7" rfl rfl rfl rfl rfl rfl).1⟩

/-- What `hexToRgba` makes of other inputs: upper case digits, three digits, a
minus sign, eight digits, a text without "#", a text that is not hexadecimal,
and a value that is no string. -/
theorem hexToRgba_examples :
    hexToRgba (string "#FF8800") "1" = "rgba(255, 136, 0, 1)" ∧
    hexToRgba (string "#fff") "1" = "rgba(0, 15, 255, 1)" ∧
    hexToRgba (string "#-5") "1" = "rgba(255, 255, 251, 1)" ∧
    hexToRgba (string "#ff8800ff") "1" = "rgba(136, 0, 255, 1)" ∧
    hexToRgba (string "ff8800") "1" = "rgba(255,255,255,1)" ∧
    hexToRgba (string "#zz") "1" = "rgba(255,255,255,1)" ∧
    hexToRgba null "1" = "rgba(255,255,255,1)" := by
  refine ⟨?_, ?_, ?_, ?_, ?_, ?_, ?_⟩ <;> rfl

/-! ## Properties of `applyConditionEffects` -/

/-- The visuals of a list of children. -/
theorem visuals_append (xs ys : List CardChild) :
    ((xs ++ ys).map CardChild.visuals).flatten
      = (xs.map CardChild.visuals).flatten ++ (ys.map CardChild.visuals).flatten := by
  simp

/-- A child that is no condition visual holds none. -/
theorem visuals_of_not_visual (ch : CardChild) (h : ch.isConditionVisual = false) :
    ch.visuals = [] := by
  cases ch <;> simp_all [CardChild.isConditionVisual, CardChild.visuals]

/-- Children that are no condition visuals hold none. -/
theorem visuals_filter_kept (xs : List CardChild) :
    ((xs.filter (fun ch => !ch.isConditionVisual)).map CardChild.visuals).flatten = [] := by
  induction xs with
  | nil => rfl
  | cons a as ih =>
    by_cases h : a.isConditionVisual = true
    · simp [List.filter, h, ih]
    · have h' : a.isConditionVisual = false := by simpa using h
      simp only [List.filter, h', Bool.not_false, List.map_cons, List.flatten_cons,
        visuals_of_not_visual a h', List.nil_append]
      exact ih

/-- An icon added to the first `.conditions` container is one more visual. -/
theorem visuals_add_icon (icon : String) (xs : List CardChild)
    (h : xs.any CardChild.isConditions = true) :
    (((modifyFirst CardChild.isConditions
        (fun ch => match ch with
          | CardChild.conditions icons => CardChild.conditions (icons ++ [icon])
          | other => other) xs).map CardChild.visuals).flatten).Perm
      ((xs.map CardChild.visuals).flatten ++ [ConditionVisual.icon icon]) := by
  induction xs with
  | nil => simp at h
  | cons a as ih =>
    by_cases ha : a.isConditions = true
    · cases a <;> simp [CardChild.isConditions] at ha
      rename_i icons
      simp only [modifyFirst, CardChild.isConditions, if_true, List.map_cons,
        List.flatten_cons, CardChild.visuals, List.map_append, List.map_nil,
        List.append_assoc]
      apply List.Perm.append_left
      exact List.perm_append_comm
    · have ha' : a.isConditions = false := by simpa using ha
      have has : as.any CardChild.isConditions = true := by
        simpa [List.any_cons, ha'] using h
      simp only [modifyFirst, ha', Bool.false_eq_true, if_false, List.map_cons,
        List.flatten_cons, List.append_assoc]
      exact List.Perm.append_left _ (ih has)

/-- The icon of an effect, as the body of the loop computes it. -/
theorem effect_icon_eq (o : Option String) :
    (match o with
      | some src => if src == "" then "icons/svg/status.svg" else src
      | none => "icons/svg/status.svg")
    = (o.filter (fun src => src != "")).getD "icons/svg/status.svg" := by
  cases o with
  | none => rfl
  | some src => by_cases hs : src = "" <;> simp [Option.filter, hs]

/-- The body of the loop for an effect without a key. -/
theorem addConditionVisual_no_key (env : HudEnv) (children : List CardChild)
    (e : ActiveEffect) (hk : conditionKey e = none) :
    addConditionVisual env children e = children := by
  unfold addConditionVisual
  rw [hk]

/-- The body of the loop for an effect with a key and a video. -/
theorem addConditionVisual_video (env : HudEnv) (children : List CardChild)
    (e : ActiveEffect) (key path : String) (hk : conditionKey e = some key)
    (hl : env.settings.conditionFiles.lookup ("jb2a" ++ key.capitalize) = some path)
    (hj : env.hasJB2A = true) (hp : path ≠ "") :
    addConditionVisual env children e = children ++ [CardChild.conditionVideo path key] := by
  unfold addConditionVisual
  rw [hk]
  simp [hl, hj, hp]

/-- The body of the loop for an effect with a key and no video. -/
theorem addConditionVisual_icon (env : HudEnv) (children : List CardChild)
    (e : ActiveEffect) (key : String) (hk : conditionKey e = some key)
    (hno : ∀ path, env.settings.conditionFiles.lookup ("jb2a" ++ key.capitalize) = some path →
      ¬ (env.hasJB2A = true ∧ path ≠ "")) :
    addConditionVisual env children e
      = if children.any CardChild.isConditions = true then
          modifyFirst CardChild.isConditions
            (fun ch => match ch with
              | CardChild.conditions icons =>
                CardChild.conditions (icons ++
                  [(e.icon.filter (fun src => src != "")).getD "icons/svg/status.svg"])
              | other => other) children
        else children ++ [CardChild.conditions
          [(e.icon.filter (fun src => src != "")).getD "icons/svg/status.svg"]] := by
  have hcond : (env.hasJB2A &&
      (env.settings.conditionFiles.lookup ("jb2a" ++ key.capitalize)).getD "" != "") = false := by
    cases hl : env.settings.conditionFiles.lookup ("jb2a" ++ key.capitalize) with
    | none => simp
    | some path =>
      have h := hno path hl
      by_cases hj : env.hasJB2A = true
      · have hp : path = "" := by
          by_contra hne
          exact h ⟨hj, hne⟩
        simp [hp]
      · simp [hj]
  unfold addConditionVisual
  rw [hk]
  simp only [hcond, Bool.false_eq_true, if_false, effect_icon_eq]

/-- An icon added to the container, or in a new container at the end, is one
more visual; no other child changes, and no second container is made. -/
theorem add_icon_spec (icon : String) (children : List CardChild) :
    ((((if children.any CardChild.isConditions = true then
        modifyFirst CardChild.isConditions
          (fun ch => match ch with
            | CardChild.conditions icons => CardChild.conditions (icons ++ [icon])
            | other => other) children
      else children ++ [CardChild.conditions [icon]]).map CardChild.visuals).flatten).Perm
      ((children.map CardChild.visuals).flatten ++ [ConditionVisual.icon icon])) ∧
    (if children.any CardChild.isConditions = true then
        modifyFirst CardChild.isConditions
          (fun ch => match ch with
            | CardChild.conditions icons => CardChild.conditions (icons ++ [icon])
            | other => other) children
      else children ++ [CardChild.conditions [icon]]).filter
        (fun ch => !ch.isConditionVisual)
      = children.filter (fun ch => !ch.isConditionVisual) ∧
    (children.countP CardChild.isConditions ≤ 1 →
      (if children.any CardChild.isConditions = true then
        modifyFirst CardChild.isConditions
          (fun ch => match ch with
            | CardChild.conditions icons => CardChild.conditions (icons ++ [icon])
            | other => other) children
      else children ++ [CardChild.conditions [icon]]).countP CardChild.isConditions
        ≤ 1) := by
  by_cases hany : children.any CardChild.isConditions = true
  · simp only [hany, if_true]
    refine ⟨visuals_add_icon icon children hany, ?_, ?_⟩
    · clear hany
      induction children with
      | nil => rfl
      | cons a as ih =>
        by_cases ha : a.isConditions = true
        · cases a <;> simp [CardChild.isConditions] at ha
          simp [modifyFirst, CardChild.isConditions, List.filter,
            CardChild.isConditionVisual]
        · have ha' : a.isConditions = false := by simpa using ha
          simp only [modifyFirst, ha', Bool.false_eq_true, if_false, List.filter]
          rw [ih]
    · intro hle
      rw [countP_modifyFirst_other]
      · exact hle
      · intro a ha
        cases a <;> simp_all [CardChild.isConditions]
  · simp only [hany, if_false, Bool.false_eq_true]
    refine ⟨?_, ?_, ?_⟩
    · rw [visuals_append]
      simp [CardChild.visuals]
    · simp [List.filter_append, CardChild.isConditionVisual]
    · intro _
      have hzero : children.countP CardChild.isConditions = 0 := by
        rw [List.countP_eq_zero]
        intro a ha hpa
        exact hany (List.any_eq_true.2 ⟨a, ha, hpa⟩)
      simp [List.countP_append, hzero, List.countP_cons, CardChild.isConditions]

/-- The body of the loop adds the visual the specification gives the effect,
and nothing else; it changes no other child, and makes no second container. -/
theorem addConditionVisual_spec (env : HudEnv) (children : List CardChild)
    (e : ActiveEffect) :
    (((addConditionVisual env children e).map CardChild.visuals).flatten).Perm
      ((children.map CardChild.visuals).flatten ++ (expectedVisual env e).toList) ∧
    (addConditionVisual env children e).filter (fun ch => !ch.isConditionVisual)
      = children.filter (fun ch => !ch.isConditionVisual) ∧
    (children.countP CardChild.isConditions ≤ 1 →
      (addConditionVisual env children e).countP CardChild.isConditions ≤ 1) := by
  cases hk : conditionKey e with
  | none =>
    rw [addConditionVisual_no_key env children e hk]
    simp [expectedVisual, hk]
  | some key =>
    cases hl : env.settings.conditionFiles.lookup ("jb2a" ++ key.capitalize) with
    | none =>
      rw [addConditionVisual_icon env children e key hk (fun p hp => by rw [hl] at hp; cases hp)]
      have hexp : expectedVisual env e = some (ConditionVisual.icon
          ((e.icon.filter (fun src => src != "")).getD "icons/svg/status.svg")) := by
        simp [expectedVisual, hk, hl]
      rw [hexp]
      exact add_icon_spec _ children
    | some path =>
      by_cases hv : env.hasJB2A = true ∧ path ≠ ""
      · rw [addConditionVisual_video env children e key path hk hl hv.1 hv.2]
        have hexp : expectedVisual env e = some (ConditionVisual.video path key) := by
          simp [expectedVisual, hk, hl, hv.1, hv.2]
        rw [hexp]
        refine ⟨?_, ?_, ?_⟩
        · rw [visuals_append]
          simp [CardChild.visuals]
        · simp [List.filter_append, CardChild.isConditionVisual]
        · intro hle
          simpa [List.countP_append, List.countP_cons, CardChild.isConditions] using hle
      · rw [addConditionVisual_icon env children e key hk
          (fun p hp => by rw [hl] at hp; cases hp; exact hv)]
        have hexp : expectedVisual env e = some (ConditionVisual.icon
            ((e.icon.filter (fun src => src != "")).getD "icons/svg/status.svg")) := by
          simp only [expectedVisual, hk, hl]
          rw [if_neg hv]
        rw [hexp]
        exact add_icon_spec _ children

/-- The loop over the effects adds the visuals the specification gives them,
and nothing else; it changes no other child, and makes no second container. -/
theorem foldl_addConditionVisual_spec (env : HudEnv) (es : List ActiveEffect) :
    ∀ children : List CardChild,
      (((es.foldl (addConditionVisual env) children).map CardChild.visuals).flatten).Perm
        ((children.map CardChild.visuals).flatten ++ es.filterMap (expectedVisual env)) ∧
      (es.foldl (addConditionVisual env) children).filter (fun ch => !ch.isConditionVisual)
        = children.filter (fun ch => !ch.isConditionVisual) ∧
      (children.countP CardChild.isConditions ≤ 1 →
        (es.foldl (addConditionVisual env) children).countP CardChild.isConditions ≤ 1) := by
  induction es with
  | nil => intro children; simp
  | cons e es ih =>
    intro children
    obtain ⟨s1, s2, s3⟩ := addConditionVisual_spec env children e
    obtain ⟨i1, i2, i3⟩ := ih (addConditionVisual env children e)
    simp only [List.foldl_cons]
    refine ⟨?_, i2.trans s2, fun h => i3 (s3 h)⟩
    have hcons : (e :: es).filterMap (expectedVisual env)
        = (expectedVisual env e).toList ++ es.filterMap (expectedVisual env) := by
      cases hx : expectedVisual env e <;> simp [List.filterMap_cons, hx]
    rw [hcons, ← List.append_assoc]
    exact i1.trans (List.Perm.append_right _ s1)

/-- C22: after `applyConditionEffects(card, actor)` the condition visuals of the
card are, up to their order, one for every enabled effect that has a key, as
the specification gives it (the video of the registered path when JB2A is
active and the path is not empty, else the icon of the effect or the default
icon), and none for any other effect; the other children of the card are as
they were; the card has at most one `.conditions` container; and applying
twice with the same actor gives the same card as applying once. -/
theorem C22_condition_visuals (env : HudEnv) (actor : Actor) (c : PlayerCard) :
    ((applyConditionEffects env actor c).conditionVisuals).Perm
      ((actor.effects.filter (fun e => !e.disabled)).filterMap (expectedVisual env)) ∧
    (applyConditionEffects env actor c).children.filter (fun ch => !ch.isConditionVisual)
      = c.children.filter (fun ch => !ch.isConditionVisual) ∧
    (applyConditionEffects env actor c).children.countP CardChild.isConditions ≤ 1 ∧
    applyConditionEffects env actor (applyConditionEffects env actor c)
      = applyConditionEffects env actor c := by
  obtain ⟨h1, h2, h3⟩ := foldl_addConditionVisual_spec env
    (actor.effects.filter (fun e => !e.disabled))
    (c.children.filter (fun ch => !ch.isConditionVisual))
  have hkept : (c.children.filter (fun ch => !ch.isConditionVisual)).filter
      (fun ch => !ch.isConditionVisual)
      = c.children.filter (fun ch => !ch.isConditionVisual) := by
    simp [List.filter_filter]
  have hnone : (c.children.filter (fun ch => !ch.isConditionVisual)).countP
      CardChild.isConditions = 0 := by
    rw [List.countP_eq_zero]
    intro a ha hpa
    have hv := (List.mem_filter.1 ha).2
    cases a <;> simp_all [CardChild.isConditions, CardChild.isConditionVisual]
  rw [visuals_filter_kept, List.nil_append] at h1
  rw [hkept] at h2
  refine ⟨h1, h2, h3 (by omega), ?_⟩
  unfold applyConditionEffects
  simp only
  rw [h2]

/-- C22 at work: with JB2A active, a card that still holds the visuals of an
earlier call gets the video for `blinded` and the default icon for `prone`; the
disabled effect and the effect without a key get nothing, the overlay stays. -/
theorem applyConditionEffects_example :
    (applyConditionEffects jb2aEnv afflictedActor
      { sampleCard 5 with
        children := [CardChild.conditionVideo "jb2a/old.webm" "stunned",
          CardChild.deathSaveOverlay DeathSaveMarkup.dead true,
          CardChild.conditions ["icons/old.svg"]] }).children
      = [CardChild.deathSaveOverlay DeathSaveMarkup.dead true,
          CardChild.conditionVideo "jb2a/blind.webm" "blinded",
          CardChild.conditions ["icons/svg/status.svg"]] := by
  rfl

/-! ## Properties of the `updateUser` handler -/

/-- The matches left after the first match was removed. -/
theorem filter_eraseP_self {α : Type} (p : α → Bool) (l : List α) :
    (l.eraseP p).filter p = (l.filter p).tail := by
  induction l with
  | nil => rfl
  | cons a as ih =>
    by_cases hp : p a = true
    · simp [List.eraseP_cons, hp, List.filter]
    · simp [List.eraseP_cons, hp, List.filter, ih]

/-- Removing the first match leaves the elements that do not match. -/
theorem filter_not_eraseP {α : Type} (p : α → Bool) (l : List α) :
    (l.eraseP p).filter (fun a => !p a) = l.filter (fun a => !p a) := by
  induction l with
  | nil => rfl
  | cons a as ih =>
    by_cases hp : p a = true
    · simp [List.eraseP_cons, hp, List.filter]
    · simp [List.eraseP_cons, hp, List.filter, ih]

/-- A change to the first match that keeps it a match leaves the elements that
do not match. -/
theorem filter_not_modifyFirst {α : Type} (p : α → Bool) (f : α → α)
    (hf : ∀ a, p a = true → p (f a) = true) (l : List α) :
    (modifyFirst p f l).filter (fun a => !p a) = l.filter (fun a => !p a) := by
  induction l with
  | nil => rfl
  | cons a as ih =>
    by_cases hp : p a = true
    · simp [modifyFirst, hp, List.filter, hf a hp]
    · simp [modifyFirst, hp, List.filter, ih]

/-- When at most one element matches, the first match is the only one. -/
theorem filter_of_find?_of_countP_le_one {α : Type} (p : α → Bool) (l : List α) (a : α)
    (h : l.find? p = some a) (hone : l.countP p ≤ 1) : l.filter p = [a] := by
  induction l with
  | nil => simp at h
  | cons b bs ih =>
    by_cases hp : p b = true
    · have hb : b = a := by simpa [List.find?, hp] using h
      subst hb
      have hzero : bs.countP p = 0 := by
        simp only [List.countP_cons, hp, if_true] at hone
        omega
      have hnil : bs.filter p = [] := by
        rw [List.filter_eq_nil_iff]
        exact List.countP_eq_zero.1 hzero
      simp [List.filter, hp, hnil]
    · have h' : bs.find? p = some a := by simpa [List.find?, hp] using h
      have hone' : bs.countP p ≤ 1 := by
        simpa [List.countP_cons, hp] using hone
      simp [List.filter, hp, ih h' hone']

/-- When there is no first match, nothing matches. -/
theorem filter_of_find?_none {α : Type} (p : α → Bool) (l : List α)
    (h : l.find? p = none) : l.filter p = [] := by
  rw [List.filter_eq_nil_iff]
  intro a ha
  exact List.find?_eq_none.1 h a ha

/-- C21: in an observer window with `#player-hud` present, holding at most one
card for the user's id and no GM card for it, the `updateUser` handler leaves no
card for the user's id when the user is inactive or has no character; otherwise
it leaves exactly one, the card rendered from the user's current data, put in
the place of the old one or added at the end; the cards of all other ids are
as they were, in their order. -/
theorem C21_updateUser_reconciles (env : HudEnv) (cards : List PlayerCard) (user : User)
    (hobs : env.isObserver = true)
    (hnogm : ∀ c ∈ cards, hasUserId user.id c = true → c.gmCard = false)
    (hone : cards.countP (hasUserId user.id) ≤ 1) :
    ∃ cards', updateUserHandler env (some cards) user = some cards' ∧
      ((user.active = false ∨ user.character = none) →
        cards'.filter (hasUserId user.id) = []) ∧
      (∀ actor, user.active = true → user.character = some actor →
        cards'.filter (hasUserId user.id) = [buildPlayerCard user actor]) ∧
      cards'.filter (fun c => !hasUserId user.id c)
        = cards.filter (fun c => !hasUserId user.id c) := by
  have hfresh : ∀ actor, hasUserId user.id (buildPlayerCard user actor) = true := by
    intro actor
    simp [hasUserId, (buildPlayerCard_card user actor).1]
  cases hfind : cards.find? (hasUserId user.id) with
  | none =>
    have hnil := filter_of_find?_none _ _ hfind
    cases hact : user.active with
    | false =>
      refine ⟨cards, by simp [updateUserHandler, hobs, hfind, hact], fun _ => hnil,
        fun actor h => by simp at h, rfl⟩
    | true =>
      cases hchar : user.character with
      | none =>
        refine ⟨cards, by simp [updateUserHandler, hobs, hfind, hact, hchar], fun _ => hnil,
          fun actor _ h => by simp at h, rfl⟩
      | some actor =>
        refine ⟨cards ++ [buildPlayerCard user actor],
          by simp [updateUserHandler, hobs, hfind, hact, hchar], ?_, ?_, ?_⟩
        · intro h
          rcases h with h | h <;> simp at h
        · intro actor' _ h
          cases h
          simp [List.filter_append, hnil, List.filter, hfresh]
        · simp [List.filter_append, List.filter, hfresh]
  | some existing =>
    have hmem : existing ∈ cards := List.mem_of_find?_eq_some hfind
    have hgm : existing.gmCard = false := hnogm existing hmem (List.find?_some hfind)
    have hsingle := filter_of_find?_of_countP_le_one _ _ _ hfind hone
    have herase : (cards.eraseP (hasUserId user.id)).filter (hasUserId user.id) = [] := by
      rw [filter_eraseP_self, hsingle]
      rfl
    cases hact : user.active with
    | false =>
      refine ⟨cards.eraseP (hasUserId user.id),
        by simp [updateUserHandler, hobs, hfind, hgm, hact], fun _ => herase,
        fun actor h => by simp at h, filter_not_eraseP _ _⟩
    | true =>
      cases hchar : user.character with
      | none =>
        refine ⟨cards.eraseP (hasUserId user.id),
          by simp [updateUserHandler, hobs, hfind, hgm, hact, hchar], fun _ => herase,
          fun actor _ h => by simp at h, filter_not_eraseP _ _⟩
      | some actor =>
        refine ⟨modifyFirst (hasUserId user.id) (fun _ => buildPlayerCard user actor) cards,
          by simp [updateUserHandler, hobs, hfind, hgm, hact, hchar], ?_, ?_, ?_⟩
        · intro h
          rcases h with h | h <;> simp at h
        · intro actor' _ h
          cases h
          exact filter_modifyFirst_single _ _ (fun _ _ => hfresh actor) cards existing hsingle
        · exact filter_not_modifyFirst _ _ (fun _ _ => hfresh actor) cards

/-- C21 at a HUD with the cards of `user1` and `user2`, when `user1` is updated
with 7 hit points: the card of `user1` is replaced, in its place. -/
theorem C21_updateUser_reconciles_witness :
    (sampleEnv false 7).isObserver = true ∧
    (∀ c ∈ [sampleCard 10, strayCard], hasUserId (sampleUser 7).id c = true →
      c.gmCard = false) ∧
    [sampleCard 10, strayCard].countP (hasUserId (sampleUser 7).id) ≤ 1 ∧
    updateUserHandler (sampleEnv false 7) (some [sampleCard 10, strayCard]) (sampleUser 7)
      = some [sampleCard 7, strayCard] ∧
    ∃ cards', updateUserHandler (sampleEnv false 7) (some [sampleCard 10, strayCard])
        (sampleUser 7) = some cards' ∧
      (((sampleUser 7).active = false ∨ (sampleUser 7).character = none) →
        cards'.filter (hasUserId (sampleUser 7).id) = []) ∧
      (∀ actor, (sampleUser 7).active = true → (sampleUser 7).character = some actor →
        cards'.filter (hasUserId (sampleUser 7).id) = [buildPlayerCard (sampleUser 7) actor]) ∧
      cards'.filter (fun c => !hasUserId (sampleUser 7).id c)
        = [sampleCard 10, strayCard].filter (fun c => !hasUserId (sampleUser 7).id c) := by
  have hnogm : ∀ c ∈ [sampleCard 10, strayCard], hasUserId (sampleUser 7).id c = true →
      c.gmCard = false := by
    intro c hc _
    simp only [List.mem_cons, List.mem_singleton, List.not_mem_nil, or_false] at hc
    rcases hc with rfl | rfl <;> rfl
  exact ⟨rfl, hnogm, by decide, rfl,
    C21_updateUser_reconciles (sampleEnv false 7) [sampleCard 10, strayCard] (sampleUser 7)
      rfl hnogm (by decide)⟩

/-- The handler at work: an inactive user's card is removed; a new user's card
is added at the end; in a window that is no observer nothing changes. -/
theorem updateUserHandler_examples :
    updateUserHandler (sampleEnv false 7) (some [sampleCard 10, strayCard])
      { sampleUser 7 with active := false } = some [strayCard] ∧
    updateUserHandler (sampleEnv false 7) (some [sampleCard 10]) secondUser
      = some [sampleCard 10, buildPlayerCard secondUser
          { id := "actor2", hp := HpValue.num 12, death := none, effects := [],
            sheet := "Borin" }] ∧
    updateUserHandler { sampleEnv false 7 with isObserver := false } (some [sampleCard 10])
      { sampleUser 7 with active := false } = some [sampleCard 10] ∧
    updateUserHandler (sampleEnv false 7) none (sampleUser 7) = none := by
  refine ⟨?_, ?_, ?_, ?_⟩ <;> rfl

/-! ## Properties of the chat message hooks -/

/-- C26: for every chat message, the roll hook calls `queueRollOverlay` only if
`msg.isRoll` is truthy and `msg.rolls` has a truthy length, and then with the
user's name or "Unknown", the total of the first roll, and the flavor or "";
the bubble hook creates a speech bubble only if `msg.isRoll` is falsy; so no
message makes both hooks act. -/
theorem C26_one_hook_per_message (doc : ChatDocument) (msg : JSVal) :
    (∀ args, rollOverlayHook doc.isObserver msg = Except.ok (some args) →
      (msg.prop "isRoll").truthy = true ∧
      ((msg.prop "rolls").prop "length").truthy = true ∧
      args = (((msg.prop "user").prop "name").orElse (string "Unknown"),
        ((msg.prop "rolls").prop "0").prop "total",
        (msg.prop "flavor").orElse (string ""))) ∧
    (∀ b, chatBubbleHook doc msg = Except.ok (some b) →
      (msg.prop "isRoll").truthy = false) ∧
    ¬ (∃ args b, rollOverlayHook doc.isObserver msg = Except.ok (some args) ∧
      chatBubbleHook doc msg = Except.ok (some b)) := by
  have hroll : ∀ args, rollOverlayHook doc.isObserver msg = Except.ok (some args) →
      (msg.prop "isRoll").truthy = true ∧
      ((msg.prop "rolls").prop "length").truthy = true ∧
      args = (((msg.prop "user").prop "name").orElse (string "Unknown"),
        ((msg.prop "rolls").prop "0").prop "total",
        (msg.prop "flavor").orElse (string "")) := by
    intro args h
    unfold rollOverlayHook at h
    by_cases hobs : doc.isObserver = true
    · by_cases hnull : msg.isNullish = true
      · simp [hobs, JSVal.readProp, hnull] at h
      · simp only [hobs, Bool.not_true, Bool.false_eq_true, if_false, JSVal.readProp, hnull]
          at h
        by_cases h1 : (msg.prop "isRoll").truthy = true
        · by_cases h2 : ((msg.prop "rolls").prop "length").truthy = true
          · simp only [h1, h2, Bool.not_true, Bool.or_self, Bool.false_eq_true, if_false] at h
            by_cases h3 : ((msg.prop "rolls").prop "0").isNullish = true
            · simp [h3] at h
            · simp only [h3, Bool.false_eq_true, if_false, Except.ok.injEq,
                Option.some.injEq] at h
              exact ⟨h1, h2, h.symm⟩
          · simp [h1, h2] at h
        · simp [h1] at h
    · simp [hobs] at h
  have hbubble : ∀ b, chatBubbleHook doc msg = Except.ok (some b) →
      (msg.prop "isRoll").truthy = false := by
    intro b h
    unfold chatBubbleHook at h
    by_cases hobs : doc.isObserver = true
    · by_cases hnull : msg.isNullish = true
      · simp [hobs, JSVal.readProp, hnull] at h
      · simp only [hobs, Bool.not_true, Bool.false_eq_true, if_false, JSVal.readProp, hnull]
          at h
        by_cases h1 : (msg.prop "isRoll").truthy = true
        · simp [h1] at h
        · simpa using h1
    · simp [hobs] at h
  refine ⟨hroll, hbubble, ?_⟩
  rintro ⟨args, b, h1, h2⟩
  have t := (hroll args h1).1
  rw [hbubble b h2] at t
  exact Bool.false_ne_true t

/-- The two hooks at work in an observer's window: the roll message is queued
with the name, the total and the empty flavor, and makes no bubble; the chat
message makes a bubble with its trimmed text and is not queued. -/
theorem chat_hooks_examples :
    rollOverlayHook true rollMessage
      = Except.ok (some (string "Ann", int 17, string "")) ∧
    chatBubbleHook sampleChat rollMessage = Except.ok none ∧
    rollOverlayHook true talkMessage = Except.ok none ∧
    (chatBubbleHook sampleChat talkMessage).toOption.join.map (fun b => (b.text, b.userId, b.appended))
      = some ("Hello there", "user1", true) := by
  refine ⟨?_, ?_, ?_, ?_⟩ <;> rfl

/-! ## Properties of the GM card -/

/-- C25, at the failing input: the GM user is active and has an assigned
character, so the GM card, first in `#player-hud`, carries the id of an active
user. The first loop of the tick finds the GM card as `existing` for that user,
its markup differs from the player card the template renders, and the tick puts
the player card in its place (and flashes it as healed): afterwards the HUD has
no GM card, and two player cards of the GM user. The `updateUser` handler, on
the same HUD and user, leaves the GM card alone. -/
theorem C25_gm_card_replaced :
    pollerTick gmPlaysEnv
      (some [sampleGMCard, buildPlayerCard playingGM gmActor, sampleCard 10])
      = (some [{ buildPlayerCard playingGM gmActor with flashHeal := true },
            buildPlayerCard playingGM gmActor, sampleCard 10],
          [("gm1", Indicator.flash HealthChange.heal)]) ∧
    sampleGMCard.gmCard = true ∧
    ({ buildPlayerCard playingGM gmActor with flashHeal := true } : PlayerCard).gmCard = false ∧
    (buildPlayerCard playingGM gmActor).gmCard = false ∧
    (sampleCard 10).gmCard = false ∧
    updateUserHandler gmPlaysEnv
      (some [sampleGMCard, buildPlayerCard playingGM gmActor, sampleCard 10]) playingGM
      = some [sampleGMCard, buildPlayerCard playingGM gmActor, sampleCard 10] := by
  refine ⟨?_, ?_, ?_, ?_, ?_, ?_⟩ <;> rfl

/-- An element of the HUD whose user id is not that of the user the first loop
runs for is still there afterwards. -/
theorem syncPlayer_keeps_other (env : HudEnv) (st : TickState) (p : User × Actor)
    (n : HudNode) (hn : n ∈ st.nodes) (hid : n.card.userId ≠ some p.1.id) :
    n ∈ (syncPlayer env st p).nodes := by
  have hoff : nodeHasUserId p.1.id n = false := by
    simp only [nodeHasUserId, hasUserId, beq_eq_false_iff_ne, ne_eq]
    exact hid
  rw [syncPlayer_eq]
  cases hfind : st.nodes.find? (nodeHasUserId p.1.id) with
  | none => simp [hn]
  | some existing =>
    simp only
    split_ifs
    · rcases mem_modifyFirst_of_mem (nodeHasUserId p.1.id)
        (fun _ => ({ captured := false,
                     card := pollerCard env p.2 existing.card.shownHP
                       (buildPlayerCard p.1 p.2) } : HudNode)) st.nodes n hn with h | ⟨h1, _⟩
      · exact h
      · rw [hoff] at h1
        exact absurd h1 (by simp)
    · exact hn

/-- A tick leaves every GM card in `#player-hud` that carries no id of a user
that is active with a character: the same element with the same markup. -/
theorem pollerTick_keeps_gm_card (env : HudEnv) (cards : List PlayerCard) (c : PlayerCard)
    (hc : c ∈ cards) (hgm : c.gmCard = true)
    (hid : ∀ p ∈ activePlayers env, c.userId ≠ some p.1.id) :
    ∃ cards', (pollerTick env (some cards)).1 = some cards' ∧ c ∈ cards' := by
  have hfold : ∀ (l : List (User × Actor)) (st : TickState),
      (∀ p ∈ l, c.userId ≠ some p.1.id) →
      ({ captured := true, card := c } : HudNode) ∈ st.nodes →
      ({ captured := true, card := c } : HudNode) ∈ (l.foldl (syncPlayer env) st).nodes := by
    intro l
    induction l with
    | nil => intro st _ h; exact h
    | cons p ps ih =>
      intro st hl h
      simp only [List.foldl_cons]
      exact ih _ (fun q hq => hl q (List.mem_cons_of_mem _ hq))
        (syncPlayer_keeps_other env st p _ h (hl p (List.mem_cons_self _ _)))
  refine ⟨_, rfl, ?_⟩
  apply List.mem_map.2
  refine ⟨{ captured := true, card := c }, List.mem_filter.2 ⟨?_, ?_⟩, rfl⟩
  · exact hfold _ _ hid (List.mem_map.2 ⟨c, hc, rfl⟩)
  · simp [isStale, hgm]

/-! ## One card for a user id -/

/-- The `updateActor` handler changes the number of cards of no user id. -/
theorem updateActorHandler_countP (env : HudEnv) (cards : List PlayerCard) (actor : Actor)
    (dataHp : HpValue) (uid : String) :
    (updateActorHandler env cards actor dataHp).cards.countP (hasUserId uid)
      = cards.countP (hasUserId uid) := by
  rcases updateActorHandler_cases env cards actor dataHp with ⟨h, -⟩ | ⟨user, card, -, -, h, -⟩
  · rw [h]
  · rw [h]
    apply countP_modifyFirst_other
    intro a _
    unfold hasUserId
    rw [(handlerCard_card env actor _ _ a).1]

/-- The `updateUser` handler leaves at most one card for a user id that had at
most one. -/
theorem updateUserHandler_unique (env : HudEnv) (cards cards' : List PlayerCard) (user : User)
    (uid : String) (hone : cards.countP (hasUserId uid) ≤ 1)
    (h : updateUserHandler env (some cards) user = some cards') :
    cards'.countP (hasUserId uid) ≤ 1 := by
  have hfresh : ∀ actor, (buildPlayerCard user actor).userId = some user.id :=
    fun actor => (buildPlayerCard_card user actor).1
  have herase : (cards.eraseP (hasUserId user.id)).countP (hasUserId uid) ≤ 1 :=
    le_trans ((List.eraseP_sublist cards).countP_le _) hone
  have hreplace : ∀ actor, (modifyFirst (hasUserId user.id)
      (fun _ => buildPlayerCard user actor) cards).countP (hasUserId uid) ≤ 1 := by
    intro actor
    rw [countP_modifyFirst_other]
    · exact hone
    · intro a ha
      simp only [hasUserId, beq_iff_eq] at ha
      simp only [hasUserId, hfresh actor, ha]
  have happend : ∀ actor, cards.find? (hasUserId user.id) = none →
      (cards ++ [buildPlayerCard user actor]).countP (hasUserId uid) ≤ 1 := by
    intro actor hnone
    by_cases hid : user.id = uid
    · have hzero : cards.countP (hasUserId uid) = 0 := by
        rw [List.countP_eq_zero, ← hid]
        intro a ha
        simpa using List.find?_eq_none.1 hnone a ha
      simp [List.countP_append, hzero, List.countP_cons]
      split_ifs <;> omega
    · have hoff : hasUserId uid (buildPlayerCard user actor) = false := by
        simp only [hasUserId, hfresh actor, beq_eq_false_iff_ne, ne_eq, Option.some.injEq]
        exact hid
      simp [List.countP_append, List.countP_cons, hoff]
      exact hone
  unfold updateUserHandler at h
  by_cases hobs : env.isObserver = true
  · simp only [hobs, Bool.not_true, Bool.false_eq_true, if_false] at h
    cases hfind : cards.find? (hasUserId user.id) with
    | none =>
      rw [hfind] at h
      cases hact : user.active <;> cases hchar : user.character <;>
        simp only [hact, hchar, Option.any_none, Bool.false_eq_true, if_false,
          Option.some.injEq] at h <;> subst h
      · exact hone
      · exact hone
      · exact hone
      · exact happend _ hfind
    | some existing =>
      rw [hfind] at h
      by_cases hgm : existing.gmCard = true
      · simp only [Option.any_some, hgm, if_true, Option.some.injEq] at h
        subst h
        exact hone
      · cases hact : user.active <;> cases hchar : user.character <;>
          simp only [hact, hchar, Option.any_some, hgm, Bool.false_eq_true, if_false,
            Option.some.injEq] at h <;> subst h
        · exact herase
        · exact herase
        · exact herase
        · exact hreplace _
  · simp only [hobs, Bool.not_false, if_true, Option.some.injEq] at h
    subst h
    exact hone

/-- The first loop of the poller, for one user, leaves at most one element for
a user id that had at most one. -/
theorem syncPlayer_unique (env : HudEnv) (st : TickState) (p : User × Actor) (uid : String)
    (hone : st.nodes.countP (nodeHasUserId uid) ≤ 1) :
    (syncPlayer env st p).nodes.countP (nodeHasUserId uid) ≤ 1 := by
  have hfresh : (buildPlayerCard p.1 p.2).userId = some p.1.id :=
    (buildPlayerCard_card p.1 p.2).1
  rw [syncPlayer_eq]
  cases hfind : st.nodes.find? (nodeHasUserId p.1.id) with
  | none =>
    simp only
    by_cases hid : p.1.id = uid
    · have hzero : st.nodes.countP (nodeHasUserId uid) = 0 := by
        rw [List.countP_eq_zero, ← hid]
        intro a ha
        simpa using List.find?_eq_none.1 hfind a ha
      simp [List.countP_append, hzero, List.countP_cons]
      split_ifs <;> omega
    · have hoff : nodeHasUserId uid
          ({ captured := false, card := buildPlayerCard p.1 p.2 } : HudNode) = false := by
        simp only [nodeHasUserId, hasUserId, hfresh, beq_eq_false_iff_ne, ne_eq,
          Option.some.injEq]
        exact hid
      simp [List.countP_append, List.countP_cons, hoff]
      exact hone
  | some existing =>
    simp only
    split_ifs
    · rw [countP_modifyFirst_other]
      · exact hone
      · intro a ha
        simp only [nodeHasUserId, hasUserId, beq_iff_eq] at ha
        simp only [nodeHasUserId, hasUserId, (pollerCard_card env p.2 _ _).1, hfresh, ha]
    · exact hone

/-- A tick of the poller leaves at most one card for a user id that had at most
one. -/
theorem pollerTick_unique (env : HudEnv) (cards : List PlayerCard) (uid : String)
    (hone : cards.countP (hasUserId uid) ≤ 1) :
    ∃ cards', (pollerTick env (some cards)).1 = some cards' ∧
      cards'.countP (hasUserId uid) ≤ 1 := by
  have hfold : ∀ (l : List (User × Actor)) (st : TickState),
      st.nodes.countP (nodeHasUserId uid) ≤ 1 →
      (l.foldl (syncPlayer env) st).nodes.countP (nodeHasUserId uid) ≤ 1 := by
    intro l
    induction l with
    | nil => intro st h; exact h
    | cons p ps ih =>
      intro st h
      simp only [List.foldl_cons]
      exact ih _ (syncPlayer_unique env st p uid h)
  refine ⟨_, rfl, ?_⟩
  rw [List.countP_map]
  have hinit : (cards.map (fun c => ({ captured := true, card := c } : HudNode))).countP
      (nodeHasUserId uid) ≤ 1 := by
    rw [List.countP_map]
    exact hone
  exact le_trans ((List.filter_sublist _).countP_le _) (hfold _ _ hinit)

end ArchiveOfObservers
